import Mathlib

/-!
# Rate model of GES source clips

A shallow embedding of `ges/ges-source-clip.c`, `ges/ges-source.c` and
`ges/ges-audio-source.c`: the playback rate of a source clip, the way a rate
change reshapes duration and max-duration, and the way the rate is handed to
the child sources and their renderer (nle) objects.  The last part covers the
layers of a timeline: the priority allocator, the move of a layer and the query
of the clips in an interval, whose code is not among the sources and is modelled
from the specification and from `tests/check/ges/layer.c`.

Conventions of the embedding.

* `GstClockTime` / `guint64` values are natural numbers; every place where the
  C code computes in 64 bits reduces modulo `2 ^ 64` explicitly.
* `gdouble` values are rationals, and every operation on them (the conversion
  of a `guint64`, a product, a quotient, a sum) rounds its exact result as the
  arithmetic `GDoubleModel` says.  In `GDoubleModel.ieee754`, the arithmetic of
  the code, the result is the binary64 value nearest to the exact one, a tie
  going to the even significand; every operation is rounded on its own, as a
  compiler does that evaluates `double` expressions in `double`.  In
  `GDoubleModel.exact` nothing is rounded: it is the arithmetic of the
  statements of the specification that take the rates as exact rationals.
* The rounding has no infinity: a result beyond the largest finite binary64
  value stays a finite rational, beyond the range of a `guint64` as the infinity
  is.  A division by a zero rate has no meaning in the embedding (`ℚ` returns
  `0`, C returns an infinity), so the statements about quotients assume a
  positive rate.
* The conversion of a `gdouble` to a `guint64` truncates toward zero.  C leaves
  the conversion undefined when the truncated value is not a `guint64`; the
  embedding reduces it modulo `2 ^ 64` there, and statements about values give
  the exact reading under the assumption that the value is representable.
* Code that never returns is modelled with fuel: `none` means that the call
  depth exceeded the fuel.
-/

namespace GES

/-! ## Machine arithmetic -/

/-- Number of values of a `guint64`. -/
def U64_MOD : ℕ := 2 ^ 64

/-- The constant `GST_CLOCK_TIME_NONE` of GStreamer, `(GstClockTime) -1`. -/
def GST_CLOCK_TIME_NONE : ℕ := 2 ^ 64 - 1

/-- Subtraction of two `guint64` values, which wraps modulo `2 ^ 64`. -/
def guint64_sub (a b : ℕ) : ℕ := (a % U64_MOD + (U64_MOD - b % U64_MOD)) % U64_MOD

/-- Conversion of a `gdouble` to a `guint64`: the fractional part is discarded
(truncation toward zero); a value outside the range is reduced modulo `2 ^ 64`. -/
def g_double_to_guint64 (x : ℚ) : ℕ := (Int.tdiv x.num (x.den : ℤ) % (2 ^ 64 : ℤ)).toNat

/-- Rounding of a rational to the nearest integer, a tie going to the even
neighbour. -/
def round_half_even (y : ℚ) : ℤ :=
  if y - (⌊y⌋ : ℚ) < 1 / 2 then ⌊y⌋
  else if 1 / 2 < y - (⌊y⌋ : ℚ) then ⌊y⌋ + 1
  else if ⌊y⌋ % 2 = 0 then ⌊y⌋ else ⌊y⌋ + 1

/-- The exponent of the last place of the binary64 values around `x`: 52 below
the binary exponent of `x`, and never below the one of the subnormal values. -/
def double_ulp_exponent (x : ℚ) : ℤ := max (Int.log 2 |x|) (-1022) - 52

/-- The value of binary64 nearest to `x`, a tie going to the even significand
(the rounding mode of C by default). -/
def round_to_double (x : ℚ) : ℚ :=
  (round_half_even (x / (2 : ℚ) ^ double_ulp_exponent x) : ℚ) * (2 : ℚ) ^ double_ulp_exponent x

/-- The arithmetic of `gdouble` values. -/
inductive GDoubleModel where
  /-- The result of every operation is rounded to binary64. -/
  | ieee754
  /-- The result of every operation is the exact one. -/
  | exact
deriving DecidableEq, Repr

/-- The rounding that an arithmetic applies to the exact result of an operation. -/
def gdouble_round : GDoubleModel → ℚ → ℚ
  | GDoubleModel.ieee754, x => round_to_double x
  | GDoubleModel.exact, x => x

/-- The conversion `(gdouble) n` of a `guint64`. -/
def gdouble_of_guint64 (m : GDoubleModel) (n : ℕ) : ℚ := gdouble_round m (n : ℚ)

/-- The product `x * y` of two `gdouble` values. -/
def gdouble_mul (m : GDoubleModel) (x y : ℚ) : ℚ := gdouble_round m (x * y)

/-- The quotient `x / y` of two `gdouble` values. -/
def gdouble_div (m : GDoubleModel) (x y : ℚ) : ℚ := gdouble_round m (x / y)

/-- The sum `x + y` of two `gdouble` values. -/
def gdouble_add (m : GDoubleModel) (x y : ℚ) : ℚ := gdouble_round m (x + y)

/-- Modelled from the spec: `DEFAULT_CLIP_RATE` is defined in `ges-internal.h`,
which is not among the sources; the data model gives a clip the default rate
1.0 and the tests read 1.0 from a new clip. -/
def DEFAULT_CLIP_RATE : ℚ := 1

/-! ## Data model -/

/-- The renderer (nle) object of a track element, reduced to the property the
rate code writes. -/
structure NleObject where
  media_duration_factor : ℚ
deriving DecidableEq, Repr

/-- The value of the `set_rate` slot of a `GESSourceClass`. -/
inductive SetRateVMethod where
  /-- The slot holds `NULL`. -/
  | null
  /-- The slot holds `ges_source_set_rate`, as `ges_source_class_init` leaves it. -/
  | ges_source_set_rate
  /-- The slot holds `ges_audio_source_set_rate`, as `ges_audio_source_class_init` leaves it. -/
  | ges_audio_source_set_rate
deriving DecidableEq, Repr

/-- A track element, child of a clip.  The fields after `is_source` are those of
a `GESSource` (`GESSourcePrivate.rate`, the class slot) and of a
`GESAudioSource` (`pitch`: `none` is a `NULL` pitch element, `some v` a pitch
element whose `rate` property is `v`). -/
structure TrackElement where
  is_source : Bool
  klass_set_rate : SetRateVMethod
  rate : ℚ
  pitch : Option ℚ
  nleobject : NleObject
deriving DecidableEq, Repr

/-- An asset: `duration` is `none` when the class of the asset has no
`duration` property. -/
structure Asset where
  duration : Option ℕ
deriving DecidableEq, Repr

/-- The properties of `GESSourceClip` (the enumeration of `ges-source-clip.c`). -/
inductive SourceClipProperty where
  | PROP_RATE
  | PROP_INPUT_DURATION
deriving DecidableEq, Repr

/-- A source clip: the timeline-element fields, the private fields of
`_GESSourceClipPrivate`, the children of the container, the asset of the
extractable, and the log of the notifications emitted by the code modelled
here. -/
structure Clip where
  start : ℕ
  inpoint : ℕ
  duration : ℕ
  maxduration : ℕ
  rate : ℚ
  input_duration : ℕ
  flags : ℕ
  children : List TrackElement
  asset : Option Asset
  notified : List SourceClipProperty
deriving DecidableEq, Repr

/-- The methods of the parent class (`GESClip`, not among the sources) that the
source clip chains up to.  They are parameters of the embedding: each one
receives the element and the value and reports whether it accepts the value;
`get_media_duration_factor` is the factor the parent class computes. -/
structure ParentClass where
  set_inpoint : Clip → ℕ → Bool
  set_duration : Clip → ℕ → Bool
  get_media_duration_factor : Clip → ℚ

/-! ## Flags of a source clip -/

/-- The flag `GES_SOURCE_CLIP_IS_SPEEDING = (1 << 0)`. -/
def GES_SOURCE_CLIP_IS_SPEEDING : ℕ := 1 <<< 0

/-- The macro `SET_FLAG`: `FLAGS (obj) |= flag`. -/
def SET_FLAG (obj : Clip) (flag : ℕ) : Clip :=
  { obj with flags := obj.flags ||| flag }

/-- The macro `UNSET_FLAG`: `FLAGS (obj) &= ~flag`, on a 32-bit word. -/
def UNSET_FLAG (obj : Clip) (flag : ℕ) : Clip :=
  { obj with flags := obj.flags &&& ((2 ^ 32 - 1) ^^^ flag) }

/-- The macro `FLAG_IS_SET`: `FLAGS (obj) == flag`, a test on the whole word. -/
def FLAG_IS_SET (obj : Clip) (flag : ℕ) : Bool :=
  obj.flags == flag

/-! ## Sources -/

/-- The function `ges_audio_source_set_rate`: fails when the pitch element is
missing, otherwise sets the `rate` of the pitch element and the
`media-duration-factor` of the nle object. -/
def ges_audio_source_set_rate (source : TrackElement) (rate : ℚ) : Bool × TrackElement :=
  match source.pitch with
  | none => (false, source)
  | some _ =>
    (true, { source with
      pitch := some rate
      nleobject := { source.nleobject with media_duration_factor := rate } })

/-- The function `ges_source_set_rate`: dispatches to the `set_rate` slot of the
class and stores the rate when the method succeeds.  A slot that holds
`ges_source_set_rate` itself calls back into this function; the fuel bounds the
depth of the calls. -/
def ges_source_set_rate : ℕ → TrackElement → ℚ → Option (Bool × TrackElement)
  | 0, _, _ => none
  | fuel + 1, self, rate =>
    match self.klass_set_rate with
    | SetRateVMethod.null => some (false, self)
    | SetRateVMethod.ges_audio_source_set_rate =>
      let res := ges_audio_source_set_rate self rate
      some (res.1, if res.1 then { res.2 with rate := rate } else res.2)
    | SetRateVMethod.ges_source_set_rate =>
      match ges_source_set_rate fuel self rate with
      | none => none
      | some res => some (res.1, if res.1 then { res.2 with rate := rate } else res.2)

/-- The function `ges_source_get_rate`. -/
def ges_source_get_rate (self : TrackElement) : ℚ := self.rate

/-! ## Timeline-element setters the source clip goes through -/

/-- Modelled from the spec: `ges_timeline_element_set_max_duration`
(`ges-timeline-element.c` is not among the sources); the recomputed
max-duration is applied to the element. -/
def ges_timeline_element_set_max_duration (self : Clip) (maxduration : ℕ) : Clip :=
  { self with maxduration := maxduration }

/-- The asset lookup shared by `_set_inpoint` and `ges_source_clip_set_rate`:
`ges_extractable_get_asset`, then `g_object_class_find_property (.., "duration")`
and `g_object_get (asset, "duration", ..)`.  The result is `none` when there is
no asset or no such property. -/
def asset_duration_pspec (source_clip : Clip) : Option ℕ :=
  match source_clip.asset with
  | none => none
  | some asset => asset.duration

/-- The method `_set_inpoint` of `ges-source-clip.c`: recomputes the
max-duration from the asset duration, then chains up. -/
def _set_inpoint (m : GDoubleModel) (parent : ParentClass) (element : Clip) (inpoint : ℕ) :
    Bool × Clip :=
  let element1 :=
    match asset_duration_pspec element with
    | some asset_duration =>
      let new_max_duration := g_double_to_guint64
        (gdouble_add m
          (gdouble_div m (gdouble_of_guint64 m (guint64_sub asset_duration inpoint)) element.rate)
          (gdouble_of_guint64 m inpoint))
      ges_timeline_element_set_max_duration element new_max_duration
    | none => element
  (parent.set_inpoint element1 inpoint, element1)

/-- The method `_set_duration` of `ges-source-clip.c`: unless the speeding flag
is set, re-derives the input duration, then chains up. -/
def _set_duration (m : GDoubleModel) (parent : ParentClass) (element : Clip) (duration : ℕ) :
    Bool × Clip :=
  let element1 :=
    if !FLAG_IS_SET element GES_SOURCE_CLIP_IS_SPEEDING then
      { element with
        input_duration :=
          g_double_to_guint64 (gdouble_mul m (gdouble_of_guint64 m duration) element.rate) }
    else element
  (parent.set_duration element1 duration, element1)

/-- Modelled from the spec: `ges_timeline_element_set_duration`
(`ges-timeline-element.c` is not among the sources) runs the duration method of
the class and stores the duration when the method accepts it; a rejected edit
leaves the duration as it was. -/
def ges_timeline_element_set_duration (m : GDoubleModel) (parent : ParentClass) (self : Clip)
    (duration : ℕ) : Clip :=
  let res := _set_duration m parent self duration
  if res.1 then { res.2 with duration := duration } else res.2

/-- Modelled from the spec: the macro `_set_duration0` of `ges-internal.h` (not
among the sources) is the internal set-duration, which is
`ges_timeline_element_set_duration`. -/
def _set_duration0 (m : GDoubleModel) (parent : ParentClass) (self : Clip) (duration : ℕ) :
    Clip :=
  ges_timeline_element_set_duration m parent self duration

/-- Modelled from the spec: `ges_timeline_element_set_inpoint`
(`ges-timeline-element.c` is not among the sources) runs the in-point method of
the class and stores the in-point when the method accepts it. -/
def ges_timeline_element_set_inpoint (m : GDoubleModel) (parent : ParentClass) (self : Clip)
    (inpoint : ℕ) : Clip :=
  let res := _set_inpoint m parent self inpoint
  if res.1 then { res.2 with inpoint := inpoint } else res.2

/-! ## Source clips -/

/-- The function `ges_source_clip_init`: the default rate and an unset input
duration. -/
def ges_source_clip_init (self : Clip) : Clip :=
  { self with rate := DEFAULT_CLIP_RATE, input_duration := GST_CLOCK_TIME_NONE }

/-- The function `ges_source_clip_set_input_duration`. -/
def ges_source_clip_set_input_duration (self : Clip) (duration : ℕ) : Clip :=
  { self with input_duration := duration }

/-- The function `ges_source_clip_get_input_duration`. -/
def ges_source_clip_get_input_duration (self : Clip) : ℕ := self.input_duration

/-- The function `ges_source_clip_get_rate`. -/
def ges_source_clip_get_rate (source_clip : Clip) : ℚ := source_clip.rate

/-- The loop of `ges_source_clip_set_rate` over the children: every child that
is a source gets `ges_source_set_rate`, whose result is ignored. -/
def set_rate_children (fuel : ℕ) : List TrackElement → ℚ → Option (List TrackElement)
  | [], _ => some []
  | tmpo :: tmp, rate =>
    if tmpo.is_source then
      match ges_source_set_rate fuel tmpo rate with
      | none => none
      | some res =>
        match set_rate_children fuel tmp rate with
        | none => none
        | some rest => some (res.2 :: rest)
    else
      match set_rate_children fuel tmp rate with
      | none => none
      | some rest => some (tmpo :: rest)

/-- The function `ges_source_clip_set_rate`. -/
def ges_source_clip_set_rate (m : GDoubleModel) (parent : ParentClass) (fuel : ℕ)
    (source_clip : Clip) (rate : ℚ) : Option Clip :=
  if source_clip.rate ≠ rate then
    if source_clip.children = [] then
      some { source_clip with rate := rate }
    else
      match set_rate_children fuel source_clip.children rate with
      | none => none
      | some children =>
        let clip1 := { source_clip with children := children }
        let clip2 :=
          match asset_duration_pspec clip1 with
          | some asset_duration =>
            let new_max_duration := g_double_to_guint64
              (gdouble_add m
                (gdouble_div m (gdouble_of_guint64 m (guint64_sub asset_duration clip1.inpoint))
                  rate)
                (gdouble_of_guint64 m clip1.inpoint))
            ges_timeline_element_set_max_duration clip1 new_max_duration
          | none => clip1
        let new_duration := g_double_to_guint64
          (gdouble_div m (gdouble_of_guint64 m clip2.input_duration) rate)
        let clip3 := SET_FLAG clip2 GES_SOURCE_CLIP_IS_SPEEDING
        let clip4 := _set_duration0 m parent clip3 new_duration
        let clip5 := UNSET_FLAG clip4 GES_SOURCE_CLIP_IS_SPEEDING
        let clip6 := { clip5 with rate := rate }
        some { clip6 with notified := clip6.notified ++ [SourceClipProperty.PROP_RATE] }
  else
    some source_clip

/-! ## Auxiliary definitions of the statements -/

/-- The state of a child after the loop of `ges_source_clip_set_rate` has passed
it, for a child whose `ges_source_set_rate` call returns. -/
def child_after_set_rate (rate : ℚ) (e : TrackElement) : TrackElement :=
  if e.is_source then
    match e.klass_set_rate with
    | SetRateVMethod.ges_audio_source_set_rate =>
      match e.pitch with
      | none => e
      | some _ =>
        { e with
          rate := rate
          pitch := some rate
          nleobject := { e.nleobject with media_duration_factor := rate } }
    | _ => e
  else e

/-- The call `ges_source_set_rate` on this child returns: the child is no source
(the loop skips it) or its class does not keep the method that
`ges_source_class_init` installs. -/
def set_rate_returns (e : TrackElement) : Bool :=
  !e.is_source || decide (e.klass_set_rate ≠ SetRateVMethod.ges_source_set_rate)

/-- The `gdouble` value of the expression
`(asset_duration - inpoint) / rate + inpoint` of `ges_source_clip_set_rate` and
`_set_inpoint`: the difference of the two `guint64` values is converted, divided
by the rate, and the converted in-point is added. -/
def max_duration_value (m : GDoubleModel) (asset_duration inpoint : ℕ) (rate : ℚ) : ℚ :=
  gdouble_add m (gdouble_div m (gdouble_of_guint64 m (guint64_sub asset_duration inpoint)) rate)
    (gdouble_of_guint64 m inpoint)

/-- The max-duration that `ges_source_clip_set_rate` and `_set_inpoint` compute
from the asset duration, an in-point and a rate: the value of the expression,
converted to a `guint64`. -/
def new_max_duration (m : GDoubleModel) (asset_duration inpoint : ℕ) (rate : ℚ) : ℕ :=
  g_double_to_guint64 (max_duration_value m asset_duration inpoint rate)

/-- The `gdouble` value of the expression `input_duration / rate` of
`ges_source_clip_set_rate`. -/
def duration_value (m : GDoubleModel) (input_duration : ℕ) (rate : ℚ) : ℚ :=
  gdouble_div m (gdouble_of_guint64 m input_duration) rate

/-- The duration that `ges_source_clip_set_rate` computes from the input duration
and the rate: the value of the expression, converted to a `guint64`. -/
def new_duration (m : GDoubleModel) (input_duration : ℕ) (rate : ℚ) : ℕ :=
  g_double_to_guint64 (duration_value m input_duration rate)

/-- The `gdouble` value of the expression `duration * rate` of `_set_duration`. -/
def input_duration_value (m : GDoubleModel) (duration : ℕ) (rate : ℚ) : ℚ :=
  gdouble_mul m (gdouble_of_guint64 m duration) rate

/-- The input duration that `_set_duration` computes from the duration and the
rate: the value of the expression, converted to a `guint64`. -/
def new_input_duration (m : GDoubleModel) (duration : ℕ) (rate : ℚ) : ℕ :=
  g_double_to_guint64 (input_duration_value m duration rate)

/-- The operations of `input_duration / rate` are exact: the rounding returns
the converted operand and the quotient as they are. -/
def duration_is_exact (m : GDoubleModel) (input_duration : ℕ) (rate : ℚ) : Prop :=
  gdouble_round m (input_duration : ℚ) = (input_duration : ℚ) ∧
  gdouble_round m ((input_duration : ℚ) / rate) = (input_duration : ℚ) / rate

/-- The operations of `duration * rate` are exact. -/
def input_duration_is_exact (m : GDoubleModel) (duration : ℕ) (rate : ℚ) : Prop :=
  gdouble_round m (duration : ℚ) = (duration : ℚ) ∧
  gdouble_round m ((duration : ℚ) * rate) = (duration : ℚ) * rate

/-- The operations of `(asset_duration - inpoint) / rate + inpoint` are exact. -/
def max_duration_is_exact (m : GDoubleModel) (asset_duration inpoint : ℕ) (rate : ℚ) : Prop :=
  gdouble_round m ((asset_duration : ℚ) - (inpoint : ℚ)) =
    (asset_duration : ℚ) - (inpoint : ℚ) ∧
  gdouble_round m (((asset_duration : ℚ) - (inpoint : ℚ)) / rate) =
    ((asset_duration : ℚ) - (inpoint : ℚ)) / rate ∧
  gdouble_round m (inpoint : ℚ) = (inpoint : ℚ) ∧
  gdouble_round m (((asset_duration : ℚ) - (inpoint : ℚ)) / rate + (inpoint : ℚ)) =
    ((asset_duration : ℚ) - (inpoint : ℚ)) / rate + (inpoint : ℚ)

/-! ## Concrete objects used to instantiate the statements -/

/-- A parent class whose setters accept every value and whose factor is 1. -/
def accepting_parent : ParentClass where
  set_inpoint := fun _ _ => true
  set_duration := fun _ _ => true
  get_media_duration_factor := fun _ => 1

/-- An audio source that has its pitch element, at rate 1.0. -/
def audio_child : TrackElement where
  is_source := true
  klass_set_rate := SetRateVMethod.ges_audio_source_set_rate
  rate := 1
  pitch := some 1
  nleobject := { media_duration_factor := 1 }

/-- An audio source whose pitch element is missing. -/
def audio_child_without_pitch : TrackElement where
  is_source := true
  klass_set_rate := SetRateVMethod.ges_audio_source_set_rate
  rate := 1
  pitch := none
  nleobject := { media_duration_factor := 1 }

/-- The clip of the example of the specification: input duration 100, asset
duration 1000, in-point 12, rate 1.0, one audio child. -/
def example_clip : Clip where
  start := 0
  inpoint := 12
  duration := 100
  maxduration := 1000
  rate := 1
  input_duration := 100
  flags := 0
  children := [audio_child]
  asset := some { duration := some 1000 }
  notified := []

/-- The clip of `test_group_ungroup_filesource_rate` before its duration is set:
rate 1.0, in-point 0, an asset of one second. -/
def filesource_clip : Clip where
  start := 0
  inpoint := 0
  duration := 0
  maxduration := 1000000000
  rate := 1
  input_duration := GST_CLOCK_TIME_NONE
  flags := 0
  children := [audio_child]
  asset := some { duration := some 1000000000 }
  notified := []

/-- A clip at rate 1.0 whose only child is an audio source without pitch element. -/
def pitchless_clip : Clip where
  start := 0
  inpoint := 0
  duration := 10
  maxduration := 1000
  rate := 1
  input_duration := 10
  flags := 0
  children := [audio_child_without_pitch]
  asset := none
  notified := []

/-- A clip at rate 2.0 whose audio child still has the factor 1.0; its asset has
the duration 1000. -/
def stale_clip : Clip where
  start := 0
  inpoint := 0
  duration := 10
  maxduration := 1000
  rate := 2
  input_duration := 10
  flags := 0
  children := [audio_child]
  asset := some { duration := some 1000 }
  notified := []

/-- A clip at rate 1.0 whose max-duration 5 is not the duration 1000 of its asset. -/
def short_max_clip : Clip where
  start := 0
  inpoint := 0
  duration := 0
  maxduration := 5
  rate := 1
  input_duration := GST_CLOCK_TIME_NONE
  flags := 0
  children := [audio_child]
  asset := some { duration := some 1000 }
  notified := []

/-- The clip of `test_filesource_rate`: start 42, duration 50, in-point 12, an
asset of one second, one audio child. -/
def test_filesource_clip : Clip where
  start := 42
  inpoint := 12
  duration := 50
  maxduration := 1000000000
  rate := 1
  input_duration := 50
  flags := 0
  children := [audio_child]
  asset := some { duration := some 1000000000 }
  notified := []

/-- A clip at rate 1.0 whose asset has the duration `2 ^ 53 + 1`, the first
natural number that is no binary64 value; its in-point is 0. -/
def long_clip : Clip where
  start := 0
  inpoint := 0
  duration := 0
  maxduration := 2 ^ 53 + 1
  rate := 1
  input_duration := GST_CLOCK_TIME_NONE
  flags := 0
  children := [audio_child]
  asset := some { duration := some (2 ^ 53 + 1) }
  notified := []

/-- The binary64 value nearest to 0.1, the value of the C constant `0.1`. -/
def tenth : ℚ := 3602879701896397 / 2 ^ 55

/-- The binary64 value nearest to 0.3, the value of the C constant `0.3`. -/
def three_tenths : ℚ := 5404319552844595 / 2 ^ 54

/-! ## Property writes -/

/-- The constant `G_MAXDOUBLE` of GLib, the largest finite `gdouble`. -/
def G_MAXDOUBLE : ℚ := (2 ^ 53 - 1) * 2 ^ 971

/-- A `GValue`, reduced to the two types that the properties of a source clip
hold. -/
structure GValue where
  v_double : ℚ
  v_uint64 : ℕ
deriving DecidableEq, Repr

/-- The function `g_value_get_double` of GLib. -/
def g_value_get_double (value : GValue) : ℚ := value.v_double

/-- The function `g_value_get_uint64` of GLib. -/
def g_value_get_uint64 (value : GValue) : ℕ := value.v_uint64

/-- The function `ges_source_clip_set_property`. -/
def ges_source_clip_set_property (m : GDoubleModel) (parent : ParentClass) (fuel : ℕ)
    (object : Clip) (property_id : SourceClipProperty) (value : GValue) : Option Clip :=
  match property_id with
  | SourceClipProperty.PROP_RATE =>
    ges_source_clip_set_rate m parent fuel object (g_value_get_double value)
  | SourceClipProperty.PROP_INPUT_DURATION =>
    some (ges_source_clip_set_input_duration object (g_value_get_uint64 value))

/-- The minimum of the param spec of `rate` in `ges_source_clip_class_init`:
`g_param_spec_double ("rate", .., 0, G_MAXDOUBLE, DEFAULT_CLIP_RATE, ..)`. -/
def rate_pspec_minimum : ℚ := 0

/-- The maximum of the param spec of `rate` in `ges_source_clip_class_init`. -/
def rate_pspec_maximum : ℚ := G_MAXDOUBLE

/-- A write of the `rate` property with `g_object_set`: GLib validates the value
against the range of the param spec and drops a value outside of it with a
warning; a value inside reaches `ges_source_clip_set_property`. -/
def g_object_set_rate (m : GDoubleModel) (parent : ParentClass) (fuel : ℕ) (object : Clip)
    (value : ℚ) : Option Clip :=
  if rate_pspec_minimum ≤ value ∧ value ≤ rate_pspec_maximum then
    ges_source_clip_set_property m parent fuel object SourceClipProperty.PROP_RATE
      { v_double := value, v_uint64 := 0 }
  else
    some object

/-- An edit of the rate from outside: a call of `ges_source_clip_set_rate` or a
write of the `rate` property. -/
inductive RateEdit where
  | call (rate : ℚ)
  | property_write (value : ℚ)
deriving DecidableEq, Repr

/-- One edit of the rate applied to a clip. -/
def apply_rate_edit (m : GDoubleModel) (parent : ParentClass) (fuel : ℕ) (clip : Clip) :
    RateEdit → Option Clip
  | RateEdit.call rate => ges_source_clip_set_rate m parent fuel clip rate
  | RateEdit.property_write value => g_object_set_rate m parent fuel clip value

/-- A sequence of edits of the rate applied to a clip, one after the other. -/
def apply_rate_edits (m : GDoubleModel) (parent : ParentClass) (fuel : ℕ) :
    Clip → List RateEdit → Option Clip
  | clip, [] => some clip
  | clip, e :: es =>
    match apply_rate_edit m parent fuel clip e with
    | none => none
    | some clip1 => apply_rate_edits m parent fuel clip1 es

/-- The edits that keep the rate positive: a call with a positive rate, and a
property write of any value but zero. -/
def rate_edit_positive : RateEdit → Prop
  | RateEdit.call rate => 0 < rate
  | RateEdit.property_write value => value ≠ 0

/-! ## Attachment of children -/

/-- Modelled from the spec: the attachment of track elements to a clip (the
container code of `ges-clip.c` is not among the sources).  The rate stored on a
clip without children is applied when the children are attached: every child
that is a source gets the rate as `media-duration-factor` of its nle object, the
max-duration is recomputed when the asset has a duration, and the duration
becomes `input_duration / rate` through the flagged internal set-duration. -/
def attach_children (m : GDoubleModel) (parent : ParentClass) (clip : Clip)
    (elements : List TrackElement) : Clip :=
  let children := elements.map (fun e =>
    if e.is_source then
      { e with nleobject := { e.nleobject with media_duration_factor := clip.rate } }
    else e)
  let clip1 := { clip with children := children }
  let clip2 :=
    match asset_duration_pspec clip1 with
    | some asset_duration =>
      ges_timeline_element_set_max_duration clip1
        (g_double_to_guint64
          (gdouble_add m
            (gdouble_div m (gdouble_of_guint64 m (guint64_sub asset_duration clip1.inpoint))
              clip1.rate)
            (gdouble_of_guint64 m clip1.inpoint)))
    | none => clip1
  let new_duration := g_double_to_guint64
    (gdouble_div m (gdouble_of_guint64 m clip2.input_duration) clip2.rate)
  let clip3 := SET_FLAG clip2 GES_SOURCE_CLIP_IS_SPEEDING
  let clip4 := _set_duration0 m parent clip3 new_duration
  UNSET_FLAG clip4 GES_SOURCE_CLIP_IS_SPEEDING

/-! ## More concrete objects -/

/-- A parent class whose setters reject every value. -/
def rejecting_parent : ParentClass where
  set_inpoint := fun _ _ => false
  set_duration := fun _ _ => false
  get_media_duration_factor := fun _ => 1

/-- A clip without children: duration 50 set at rate 1.0. -/
def childless_clip : Clip where
  start := 42
  inpoint := 0
  duration := 50
  maxduration := 1000
  rate := 1
  input_duration := 50
  flags := 0
  children := []
  asset := none
  notified := []

/-- The clip without children after `ges_source_clip_set_input_duration` has set
its input duration to 7: the duration is still 50. -/
def desynced_clip : Clip := ges_source_clip_set_input_duration childless_clip 7

/-! ## Layers, priorities and intervals -/

/-- The constant `LAYER_HEIGHT`, as `tests/check/ges/layer.c` defines it. -/
def LAYER_HEIGHT : ℕ := 1000

/-- Modelled from the spec: the priority allocator (the layer and clip code that
computes the priorities is not among the sources),
`priority = MIN_BASE + TRANSITION_BAND + layer_rank * LAYER_HEIGHT + local_rank`.
The constants `MIN_NLE_PRIO` and `TRANSITIONS_HEIGHT` of `ges-internal.h` are
parameters. -/
def priority ( MIN_NLE_PRIO TRANSITIONS_HEIGHT layer_rank local_rank : ℕ) : ℕ :=
  MIN_NLE_PRIO + TRANSITIONS_HEIGHT + layer_rank * LAYER_HEIGHT + local_rank

/-- Modelled from the spec: a local rank that exceeds the capacity of the layer
is clamped to the top of the band of the layer. -/
def clamp_local_rank (local_rank : ℕ) : ℕ := min local_rank (LAYER_HEIGHT - 1)

/-- Modelled from the spec: the priority that the nle object of a track element
receives, the allocator applied to the rank of the layer and the clamped local
rank. -/
def track_element_priority ( MIN_NLE_PRIO TRANSITIONS_HEIGHT layer_rank local_rank : ℕ) : ℕ :=
  priority MIN_NLE_PRIO TRANSITIONS_HEIGHT layer_rank (clamp_local_rank local_rank)

/-- A track element placed in a timeline: the layer of its clip, its local rank
in that layer, and the priority of its nle object. -/
structure PlacedElement where
  layer : ℕ
  local_rank : ℕ
  nle_priority : ℕ
deriving DecidableEq, Repr

/-- A timeline: its layers (each one a number) in the order of their ranks, and
the track elements placed in it. -/
structure Timeline where
  layers : List ℕ
  elements : List PlacedElement
deriving DecidableEq, Repr

/-- The rank of a layer of a timeline: its position in the sequence of layers. -/
def layer_rank (layers : List ℕ) (layer : ℕ) : ℕ := layers.indexOf layer

/-- The function `g_list_insert` of GLib: insertion at a position, at the end
when the position is beyond the end. -/
def g_list_insert (list : List ℕ) (data : ℕ) (position : ℕ) : List ℕ :=
  match list, position with
  | l, 0 => data :: l
  | [], _ + 1 => [data]
  | x :: l, n + 1 => x :: g_list_insert l data n

/-- Modelled from the spec: every priority is derived again from the ranks of
the layers. -/
def resync_priorities ( MIN_NLE_PRIO TRANSITIONS_HEIGHT : ℕ) (layers : List ℕ)
    (elements : List PlacedElement) : List PlacedElement :=
  elements.map (fun e =>
    { e with nle_priority :=
        (track_element_priority MIN_NLE_PRIO TRANSITIONS_HEIGHT (layer_rank layers e.layer)
          e.local_rank) })

/-- Modelled from the spec: `ges_timeline_move_layer` (the timeline code is not
among the sources).  The layer leaves its rank and enters at the new rank, a
rank beyond the last one being clamped to the last one; the ranks of all layers
are their positions again, and every priority is derived again. -/
def ges_timeline_move_layer ( MIN_NLE_PRIO TRANSITIONS_HEIGHT : ℕ) (timeline : Timeline)
    (layer : ℕ) (new_layer_priority : ℕ) : Timeline :=
  if layer ∈ timeline.layers then
    let layers := g_list_insert (timeline.layers.erase layer) layer new_layer_priority
    { layers := layers
      elements := resync_priorities MIN_NLE_PRIO TRANSITIONS_HEIGHT layers timeline.elements }
  else timeline

/-- A clip of a layer, reduced to its interval `[start, start + duration)`. -/
structure LayerClip where
  id : ℕ
  start : ℕ
  duration : ℕ
deriving DecidableEq, Repr

/-- Modelled from the spec: the interval of the clip intersects the half-open
interval `[a, b)`, that is the intersection of the two is not empty. -/
def clip_intersects (clip : LayerClip) (a b : ℕ) : Bool :=
  decide (max clip.start a < min (clip.start + clip.duration) b)

/-- Modelled from the spec: insertion of a clip in a sequence ordered by start,
before the first clip that does not start earlier. -/
def insert_by_start (clip : LayerClip) : List LayerClip → List LayerClip
  | [] => [clip]
  | x :: xs => if clip.start ≤ x.start then clip :: x :: xs else x :: insert_by_start clip xs

/-- Modelled from the spec: the clips of a layer ordered by start ascending, ties
in the order of insertion. -/
def sort_by_start : List LayerClip → List LayerClip
  | [] => []
  | clip :: clips => insert_by_start clip (sort_by_start clips)

/-- Modelled from the spec: `ges_layer_get_clips_in_interval` (the layer code is
not among the sources) returns the clips of the layer whose interval intersects
`[start, end)`, ordered by start. -/
def ges_layer_get_clips_in_interval (clips : List LayerClip) (start end_ : ℕ) : List LayerClip :=
  (sort_by_start clips).filter (fun clip => clip_intersects clip start end_)

/-- The three layers of `test_layer_priorities`, each with one track element of
local rank 0. -/
def three_layer_timeline ( MIN_NLE_PRIO TRANSITIONS_HEIGHT : ℕ) : Timeline where
  layers := [0, 1, 2]
  elements := resync_priorities MIN_NLE_PRIO TRANSITIONS_HEIGHT [0, 1, 2]
    [{ layer := 0, local_rank := 0, nle_priority := 0 },
     { layer := 1, local_rank := 0, nle_priority := 0 },
     { layer := 2, local_rank := 0, nle_priority := 0 }]

/-- The first clip of `test_layer_get_clips_in_interval`: start 10, duration 30. -/
def interval_clip : LayerClip := { id := 1, start := 10, duration := 30 }

/-- The second clip of `test_layer_get_clips_in_interval`: start 50, duration 10. -/
def interval_clip2 : LayerClip := { id := 2, start := 50, duration := 10 }

/-- The third clip of `test_layer_get_clips_in_interval`: start 0, duration 5. -/
def interval_clip3 : LayerClip := { id := 3, start := 0, duration := 5 }

/-! ## Media duration factor and child properties -/

/-- The method `_get_media_duration_factor` of `ges-source-clip.c`: the factor of
the parent class, divided by the rate once for every child that is a source,
then multiplied by the rate. -/
def _get_media_duration_factor (m : GDoubleModel) (parent : ParentClass) (element : Clip) : ℚ :=
  let media_duration_factor0 := parent.get_media_duration_factor element
  let media_duration_factor1 := element.children.foldl
    (fun media_duration_factor tmpo =>
      if tmpo.is_source then gdouble_div m media_duration_factor element.rate
      else media_duration_factor)
    media_duration_factor0
  gdouble_mul m media_duration_factor1 element.rate

/-- The object that owns a child property of a source: the pitch element of an
audio source, or another element of the bin, of which the embedding keeps no
state. -/
inductive SourceChild where
  | pitch
  | other
deriving DecidableEq, Repr

/-- The call `g_object_set_property (child, pspec->name, value)` of
`ges_source_set_child_property`, on the state that the embedding keeps: the
`rate` of the pitch element. -/
def g_object_set_property_child (self : TrackElement) (child : SourceChild)
    (pspec_name : String) (value : GValue) : TrackElement :=
  match child with
  | SourceChild.pitch =>
    if pspec_name = "rate" then { self with pitch := some (g_value_get_double value) } else self
  | SourceChild.other => self

/-- The function `ges_source_set_child_property`: sets the property on the child
and, when the property is named `rate`, sets the `media-duration-factor` of the
nle object to the same value. -/
def ges_source_set_child_property (self : TrackElement) (child : SourceChild)
    (pspec_name : String) (value : GValue) : TrackElement :=
  let self1 := g_object_set_property_child self child pspec_name value
  if pspec_name = "rate" then
    { self1 with
      nleobject := { self1.nleobject with media_duration_factor := g_value_get_double value } }
  else self1

/-- A write of a child property of the child at position `index` of a clip, as
`ges_source_set_child_property` performs it: the function receives the source
only, and the clip keeps every field but that child. -/
def clip_set_child_property (clip : Clip) (index : ℕ) (child : SourceChild)
    (pspec_name : String) (value : GValue) : Clip :=
  match clip.children.get? index with
  | none => clip
  | some e =>
    { clip with
      children := clip.children.set index
        (ges_source_set_child_property e child pspec_name value) }

/-! ## States reached by the public operations -/

/-- The states of a source clip that the public operations reach: a clip that
has just been initialised, whose private flags word is zero as GObject allocates
it, then any sequence of rate changes, duration changes, in-point changes and
input-duration changes. -/
inductive Reachable (m : GDoubleModel) (parent : ParentClass) : Clip → Prop where
  | init (self : Clip) (hflags : self.flags = 0) : Reachable m parent (ges_source_clip_init self)
  | set_rate (c c1 : Clip) (fuel : ℕ) (rate : ℚ) (hc : Reachable m parent c)
      (hcall : ges_source_clip_set_rate m parent fuel c rate = some c1) : Reachable m parent c1
  | set_duration (c : Clip) (duration : ℕ) (hc : Reachable m parent c) :
      Reachable m parent (ges_timeline_element_set_duration m parent c duration)
  | set_inpoint (c : Clip) (inpoint : ℕ) (hc : Reachable m parent c) :
      Reachable m parent (ges_timeline_element_set_inpoint m parent c inpoint)
  | set_input_duration (c : Clip) (duration : ℕ) (hc : Reachable m parent c) :
      Reachable m parent (ges_source_clip_set_input_duration c duration)

/-- A source whose class keeps the `set_rate` method that `ges_source_class_init`
installs. -/
def default_source : TrackElement where
  is_source := true
  klass_set_rate := SetRateVMethod.ges_source_set_rate
  rate := 1
  pitch := none
  nleobject := { media_duration_factor := 1 }

/-- A track element that is no source. -/
def effect_child : TrackElement where
  is_source := false
  klass_set_rate := SetRateVMethod.null
  rate := 1
  pitch := none
  nleobject := { media_duration_factor := 1 }

/-! ## Automatic transitions -/

/-- A regular clip of a layer: its interval `[start, start + duration)` and the
tracks in which it has a track element. -/
structure RegularClip where
  id : ℕ
  start : ℕ
  duration : ℕ
  tracks : List ℕ
deriving DecidableEq, Repr

/-- A transition of a layer in one track: the two clips that generate it, by
their numbers, and its interval. -/
structure TransitionClip where
  track : ℕ
  previous : ℕ
  next : ℕ
  start : ℕ
  duration : ℕ
deriving DecidableEq, Repr

/-- A layer as the transition engine sees it. -/
structure AutoLayer where
  auto_transition : Bool
  clips : List RegularClip
  transitions : List TransitionClip
deriving DecidableEq, Repr

/-- The end of the interval of a clip. -/
def clip_end (clip : RegularClip) : ℕ := clip.start + clip.duration

/-- The overlap of the words of the specification: the intervals of the two clips
have a non-empty intersection. -/
def intervals_intersect (a b : RegularClip) : Bool :=
  decide (max a.start b.start < min (clip_end a) (clip_end b))

/-- Modelled from the spec: the overlap that generates a transition (the layer
and timeline code of the transition engine is not among the sources), as the
assertions of `test_single_layer_automatic_transition` pin it: the next clip
starts strictly inside the previous one and ends strictly after it.  Clips with
the same start, with the same end, or one inside the other have no transition in
that test. -/
def overlaps_end (previous next : RegularClip) : Bool :=
  decide (previous.start < next.start) && decide (next.start < clip_end previous) &&
    decide (clip_end previous < clip_end next)

/-- Modelled from the spec: the transitions of an ordered pair of clips, one in
every track where both have a track element, on the intersection of the two
intervals. -/
def transitions_of_pair (previous next : RegularClip) : List TransitionClip :=
  if overlaps_end previous next then
    (previous.tracks.filter (fun track => decide (track ∈ next.tracks))).map (fun track =>
      { track := track
        previous := previous.id
        next := next.id
        start := next.start
        duration := clip_end previous - next.start })
  else []

/-- Modelled from the spec: the transitions of all pairs of clips of a layer. -/
def auto_transitions (clips : List RegularClip) : List TransitionClip :=
  clips.flatMap (fun previous => clips.flatMap (fun next => transitions_of_pair previous next))

/-- Two transitions are at the same place: same track, same start. -/
def same_place (t1 t2 : TransitionClip) : Bool :=
  decide (t1.track = t2.track) && decide (t1.start = t2.start)

/-- Some two transitions of the sequence are at the same place. -/
def transitions_collide : List TransitionClip → Bool
  | [] => false
  | t :: ts => ts.any (same_place t) || transitions_collide ts

/-- Modelled from the spec: the reconciliation that follows an edit.  With
`auto_transition` the transitions are derived again from the clips; an edit that
would put two transitions at the same place, as the test words it, is rejected
and leaves the layer as it was.  Without `auto_transition` the transitions stay
in place. -/
def reconcile (layer : AutoLayer) (clips : List RegularClip) : Bool × AutoLayer :=
  if layer.auto_transition then
    if transitions_collide (auto_transitions clips) then (false, layer)
    else (true, { layer with clips := clips, transitions := auto_transitions clips })
  else (true, { layer with clips := clips })

/-- The edits of a layer that trigger the transition engine. -/
inductive LayerEdit where
  | add (clip : RegularClip)
  | remove (id : ℕ)
  | move (id : ℕ) (start : ℕ)
  | trim (id : ℕ) (start : ℕ)
  | set_duration (id : ℕ) (duration : ℕ)
deriving DecidableEq, Repr

/-- The clips of a layer after an edit: a move keeps the duration, a trim keeps
the end. -/
def edited_clips (clips : List RegularClip) : LayerEdit → List RegularClip
  | LayerEdit.add clip => clips ++ [clip]
  | LayerEdit.remove id => clips.filter (fun c => decide (c.id ≠ id))
  | LayerEdit.move id start =>
    clips.map (fun c => if c.id = id then { c with start := start } else c)
  | LayerEdit.trim id start =>
    clips.map (fun c =>
      if c.id = id then { c with start := start, duration := clip_end c - start } else c)
  | LayerEdit.set_duration id duration =>
    clips.map (fun c => if c.id = id then { c with duration := duration } else c)

/-- Modelled from the spec: an edit of a layer, followed by the reconciliation. -/
def apply_layer_edit (layer : AutoLayer) (edit : LayerEdit) : Bool × AutoLayer :=
  reconcile layer (edited_clips layer.clips edit)

/-- A sequence of edits, each applied to the layer that the one before left,
with the results they report. -/
def apply_layer_edits : AutoLayer → List LayerEdit → List Bool × AutoLayer
  | layer, [] => ([], layer)
  | layer, edit :: edits =>
    let step := apply_layer_edit layer edit
    let rest := apply_layer_edits step.2 edits
    (step.1 :: rest.1, rest.2)

/-- The number of clips that `ges_layer_get_clips` returns: the regular clips and
the transitions. -/
def layer_clip_count (layer : AutoLayer) : ℕ := layer.clips.length + layer.transitions.length

/-- An empty layer with `auto_transition` set. -/
def empty_auto_layer : AutoLayer := { auto_transition := true, clips := [], transitions := [] }

/-- A test clip with the number `id`, with a track element in the audio track 0
and in the video track 1. -/
def test_clip (id start duration : ℕ) : RegularClip :=
  { id := id, start := start, duration := duration, tracks := [0, 1] }

/-- The edits of `test_single_layer_automatic_transition` up to the third clip
at 1100: `src` has the number 0, `src1` the number 1, `src2` the number 2. -/
def single_layer_edits : List LayerEdit :=
  [LayerEdit.add (test_clip 0 0 1000), LayerEdit.add (test_clip 1 500 1000),
   LayerEdit.move 0 250, LayerEdit.move 1 250, LayerEdit.trim 1 500, LayerEdit.trim 0 500,
   LayerEdit.trim 0 750, LayerEdit.move 0 500, LayerEdit.move 0 600,
   LayerEdit.add (test_clip 2 1250 1000), LayerEdit.set_duration 0 800,
   LayerEdit.set_duration 0 500, LayerEdit.move 2 1100]

/-! ## Lemmas -/

/-! ### Rounding to binary64 -/

theorem round_half_even_intCast (n : ℤ) : round_half_even (n : ℚ) = n := by
  unfold round_half_even
  simp

theorem floor_le_round_half_even (y : ℚ) : ⌊y⌋ ≤ round_half_even y := by
  unfold round_half_even
  split_ifs <;> omega

theorem round_half_even_le_floor_add_one (y : ℚ) : round_half_even y ≤ ⌊y⌋ + 1 := by
  unfold round_half_even
  split_ifs <;> omega

theorem le_round_half_even {y : ℚ} {k : ℤ} (h : (k : ℚ) ≤ y) : k ≤ round_half_even y :=
  le_trans (Int.le_floor.mpr h) (floor_le_round_half_even y)

theorem round_half_even_le {y : ℚ} {k : ℤ} (h : y ≤ (k : ℚ)) : round_half_even y ≤ k := by
  rcases eq_or_lt_of_le h with h1 | h1
  · rw [h1, round_half_even_intCast]
  · have h2 : ⌊y⌋ < k := Int.floor_lt.mpr h1
    have h3 := round_half_even_le_floor_add_one y
    omega

theorem two_zpow_pos (t : ℤ) : (0 : ℚ) < (2 : ℚ) ^ t := zpow_pos (by norm_num) t

/-- A rational that is a whole number of units of its last place is a binary64
value: the rounding returns it. -/
theorem round_to_double_of_int (x : ℚ) (k : ℤ)
    (h : x = (k : ℚ) * (2 : ℚ) ^ double_ulp_exponent x) : round_to_double x = x := by
  unfold round_to_double
  have hq := two_zpow_pos (double_ulp_exponent x)
  have h1 : x / (2 : ℚ) ^ double_ulp_exponent x = (k : ℚ) := by
    rw [div_eq_iff (ne_of_gt hq)]
    exact h
  rw [h1, round_half_even_intCast]
  exact h.symm

/-- The binary64 values: a significand below `2 ^ 53` in absolute value, times a
power of two not below the smallest one. -/
theorem round_to_double_representable (x : ℚ) (mant k : ℤ) (hx : x = (mant : ℚ) * (2 : ℚ) ^ k)
    (hm : |mant| < 2 ^ 53) (hk : -1074 ≤ k) : round_to_double x = x := by
  by_cases h0 : x = 0
  · subst h0
    unfold round_to_double
    simp [round_half_even]
  have hpos : 0 < |x| := abs_pos.mpr h0
  have hlog : Int.log 2 |x| < k + 53 := by
    rw [← Int.lt_zpow_iff_log_lt (by norm_num) hpos]
    rw [hx, abs_mul, abs_of_pos (two_zpow_pos k)]
    have h3 : (((2 : ℕ) : ℚ)) ^ (k + 53) = (2 : ℚ) ^ (53 : ℕ) * (2 : ℚ) ^ k := by
      rw [Nat.cast_ofNat, zpow_add₀ (by norm_num : (2 : ℚ) ≠ 0), mul_comm]
      norm_cast
    rw [h3]
    apply mul_lt_mul_of_pos_right _ (two_zpow_pos k)
    have : ((|mant| : ℤ) : ℚ) < ((2 ^ 53 : ℤ) : ℚ) := by exact_mod_cast hm
    simpa using this
  have ht : double_ulp_exponent x ≤ k := by
    unfold double_ulp_exponent
    have := max_le (a := Int.log 2 |x|) (b := -1022) (c := k + 52) (by omega) (by omega)
    omega
  obtain ⟨n, hn⟩ := Int.eq_ofNat_of_zero_le (sub_nonneg.mpr ht)
  apply round_to_double_of_int x (mant * 2 ^ n)
  have h2 : (2 : ℚ) ^ k = (2 : ℚ) ^ (n : ℤ) * (2 : ℚ) ^ double_ulp_exponent x := by
    rw [← zpow_add₀ (by norm_num : (2 : ℚ) ≠ 0), ← hn]
    congr 1
    omega
  generalize double_ulp_exponent x = t at h2 ⊢
  rw [hx, h2]
  push_cast
  rw [zpow_natCast]
  ring

/-- Every natural number up to `2 ^ 53` is a binary64 value. -/
theorem round_to_double_natCast (n : ℕ) (h : n ≤ 2 ^ 53) : round_to_double (n : ℚ) = n := by
  rcases Nat.lt_or_eq_of_le h with h1 | h1
  · apply round_to_double_representable (n : ℚ) (n : ℤ) 0
    · simp
    · rw [abs_of_nonneg (Int.natCast_nonneg n)]
      exact_mod_cast h1
    · norm_num
  · apply round_to_double_representable (n : ℚ) 1 53
    · rw [h1]
      norm_num
    · norm_num
    · norm_num

theorem gdouble_round_ieee754 (x : ℚ) :
    gdouble_round GDoubleModel.ieee754 x = round_to_double x := rfl

theorem gdouble_round_exact (x : ℚ) : gdouble_round GDoubleModel.exact x = x := rfl

theorem gdouble_round_natCast (m : GDoubleModel) (n : ℕ) (h : n ≤ 2 ^ 53) :
    gdouble_round m (n : ℚ) = n := by
  cases m
  · exact round_to_double_natCast n h
  · rfl

theorem round_to_double_zero : round_to_double 0 = 0 := by
  unfold round_to_double
  simp [round_half_even]

theorem round_to_double_nonneg {x : ℚ} (hx : 0 ≤ x) : 0 ≤ round_to_double x := by
  unfold round_to_double
  have hq := two_zpow_pos (double_ulp_exponent x)
  have h1 : (0 : ℤ) ≤ round_half_even (x / (2 : ℚ) ^ double_ulp_exponent x) :=
    le_round_half_even (by simpa using div_nonneg hx (le_of_lt hq))
  have h2 : (0 : ℚ) ≤ (round_half_even (x / (2 : ℚ) ^ double_ulp_exponent x) : ℚ) := by
    exact_mod_cast h1
  exact mul_nonneg h2 (le_of_lt hq)

/-- A natural number is a whole number of units of any last place that is at most
one. -/
theorem natCast_eq_int_mul_zpow (n : ℕ) (t : ℤ) (ht : t ≤ 0) :
    ∃ k : ℤ, (n : ℚ) = (k : ℚ) * (2 : ℚ) ^ t := by
  obtain ⟨j, hj⟩ := Int.eq_ofNat_of_zero_le (neg_nonneg.mpr ht)
  refine ⟨(n : ℤ) * 2 ^ j, ?_⟩
  have h1 : t = -(j : ℤ) := by omega
  rw [h1, zpow_neg, zpow_natCast]
  push_cast
  field_simp

theorem round_to_double_le_of_int {x : ℚ} {k : ℤ}
    (h : x ≤ (k : ℚ) * (2 : ℚ) ^ double_ulp_exponent x) :
    round_to_double x ≤ (k : ℚ) * (2 : ℚ) ^ double_ulp_exponent x := by
  unfold round_to_double
  have hq := two_zpow_pos (double_ulp_exponent x)
  have h1 : round_half_even (x / (2 : ℚ) ^ double_ulp_exponent x) ≤ k :=
    round_half_even_le ((div_le_iff₀ hq).mpr h)
  have h2 : (round_half_even (x / (2 : ℚ) ^ double_ulp_exponent x) : ℚ) ≤ (k : ℚ) := by
    exact_mod_cast h1
  exact mul_le_mul_of_nonneg_right h2 (le_of_lt hq)

theorem le_round_to_double_of_int {x : ℚ} {k : ℤ}
    (h : (k : ℚ) * (2 : ℚ) ^ double_ulp_exponent x ≤ x) :
    (k : ℚ) * (2 : ℚ) ^ double_ulp_exponent x ≤ round_to_double x := by
  unfold round_to_double
  have hq := two_zpow_pos (double_ulp_exponent x)
  have h1 : k ≤ round_half_even (x / (2 : ℚ) ^ double_ulp_exponent x) :=
    le_round_half_even ((le_div_iff₀ hq).mpr h)
  have h2 : (k : ℚ) ≤ (round_half_even (x / (2 : ℚ) ^ double_ulp_exponent x) : ℚ) := by
    exact_mod_cast h1
  exact mul_le_mul_of_nonneg_right h2 (le_of_lt hq)

theorem two_pow_53_le_of_ulp_exponent_pos {x : ℚ} (hx : 0 < x)
    (ht : 0 < double_ulp_exponent x) : (2 : ℚ) ^ (53 : ℕ) ≤ x := by
  have h1 : (53 : ℤ) ≤ Int.log 2 |x| := by
    unfold double_ulp_exponent at ht
    rcases le_total (Int.log 2 |x|) (-1022) with h | h
    · rw [max_eq_right h] at ht
      omega
    · rw [max_eq_left h] at ht
      omega
  rw [abs_of_pos hx] at h1
  have h2 := (Int.zpow_le_iff_le_log (b := 2) (by norm_num) hx).mpr h1
  have h3 : (2 : ℚ) ^ (53 : ℕ) = (2 : ℚ) ^ ((53 : ℕ) : ℤ) := (zpow_natCast _ _).symm
  rw [h3]
  simpa using h2

/-- The rounding does not pass a natural number up to `2 ^ 53` from below. -/
theorem round_to_double_le_natCast {x : ℚ} {n : ℕ} (hn : n ≤ 2 ^ 53) (h0 : 0 ≤ x)
    (hx : x ≤ (n : ℚ)) : round_to_double x ≤ (n : ℚ) := by
  rcases eq_or_lt_of_le h0 with h1 | h1
  · rw [← h1, round_to_double_zero]
    exact Nat.cast_nonneg n
  rcases le_or_lt (double_ulp_exponent x) 0 with ht | ht
  · obtain ⟨k, hk⟩ := natCast_eq_int_mul_zpow n (double_ulp_exponent x) ht
    rw [hk] at hx ⊢
    exact round_to_double_le_of_int hx
  · have h2 := two_pow_53_le_of_ulp_exponent_pos h1 ht
    have h3 : ((n : ℕ) : ℚ) ≤ ((2 ^ 53 : ℕ) : ℚ) := by exact_mod_cast hn
    have h4 : x = (n : ℚ) := by
      apply le_antisymm hx
      calc (n : ℚ) ≤ ((2 ^ 53 : ℕ) : ℚ) := h3
        _ = (2 : ℚ) ^ (53 : ℕ) := by norm_num
        _ ≤ x := h2
    rw [h4, round_to_double_natCast n hn]

/-- The rounding does not pass a natural number up to `2 ^ 53` from above. -/
theorem natCast_le_round_to_double {x : ℚ} {n : ℕ} (hn : n ≤ 2 ^ 53)
    (hx : (n : ℚ) ≤ x) : (n : ℚ) ≤ round_to_double x := by
  rcases Nat.eq_zero_or_pos n with h1 | h1
  · subst h1
    simpa using round_to_double_nonneg (by simpa using hx)
  have hpos : 0 < x := lt_of_lt_of_le (by exact_mod_cast h1) hx
  rcases le_or_lt (double_ulp_exponent x) 0 with ht | ht
  · obtain ⟨k, hk⟩ := natCast_eq_int_mul_zpow n (double_ulp_exponent x) ht
    rw [hk] at hx ⊢
    exact le_round_to_double_of_int hx
  · have h2 : (-1022 : ℤ) ≤ Int.log 2 |x| := by
      unfold double_ulp_exponent at ht
      rcases le_total (Int.log 2 |x|) (-1022) with h | h
      · rw [max_eq_right h] at ht
        omega
      · exact h
    have h3 : double_ulp_exponent x = Int.log 2 |x| - 52 := by
      unfold double_ulp_exponent
      rw [max_eq_left h2]
    have h4 : ((2 ^ 52 : ℤ) : ℚ) * (2 : ℚ) ^ double_ulp_exponent x ≤ x := by
      have h5 := Int.zpow_log_le_self (b := 2) (r := x) (by norm_num) hpos
      rw [abs_of_pos hpos] at h3
      have h6 : ((2 ^ 52 : ℤ) : ℚ) * (2 : ℚ) ^ double_ulp_exponent x
          = (2 : ℚ) ^ Int.log 2 x := by
        rw [h3]
        have : ((2 ^ 52 : ℤ) : ℚ) = (2 : ℚ) ^ (52 : ℤ) := by norm_num
        rw [this, ← zpow_add₀ (by norm_num : (2 : ℚ) ≠ 0)]
        congr 1
        omega
      rw [h6]
      simpa using h5
    have h7 := le_round_to_double_of_int h4
    have h8 : (1 : ℚ) ≤ (2 : ℚ) ^ double_ulp_exponent x := by
      have := one_le_zpow₀ (a := (2 : ℚ)) (by norm_num) (le_of_lt ht)
      exact this
    have h9 : ((n : ℕ) : ℚ) ≤ ((2 ^ 53 : ℕ) : ℚ) := by exact_mod_cast hn
    calc (n : ℚ) ≤ ((2 ^ 53 : ℕ) : ℚ) := h9
      _ = ((2 ^ 52 : ℤ) : ℚ) * 2 := by norm_num
      _ ≤ ((2 ^ 52 : ℤ) : ℚ) * (2 : ℚ) ^ double_ulp_exponent x := by
          apply mul_le_mul_of_nonneg_left _ (by norm_num)
          have : (2 : ℚ) ^ (1 : ℤ) ≤ (2 : ℚ) ^ double_ulp_exponent x :=
            zpow_le_zpow_right₀ (by norm_num) (by omega)
          simpa using this
      _ ≤ round_to_double x := h7

theorem gdouble_round_nonneg (m : GDoubleModel) {x : ℚ} (hx : 0 ≤ x) : 0 ≤ gdouble_round m x := by
  cases m
  · exact round_to_double_nonneg hx
  · exact hx

theorem gdouble_round_le_natCast (m : GDoubleModel) {x : ℚ} {n : ℕ} (hn : n ≤ 2 ^ 53)
    (h0 : 0 ≤ x) (hx : x ≤ (n : ℚ)) : gdouble_round m x ≤ (n : ℚ) := by
  cases m
  · exact round_to_double_le_natCast hn h0 hx
  · exact hx

theorem natCast_le_gdouble_round (m : GDoubleModel) {x : ℚ} {n : ℕ} (hn : n ≤ 2 ^ 53)
    (hx : (n : ℚ) ≤ x) : (n : ℚ) ≤ gdouble_round m x := by
  cases m
  · exact natCast_le_round_to_double hn hx
  · exact hx

theorem round_half_even_down {y : ℚ} {f : ℤ} (h1 : (f : ℚ) ≤ y) (h2 : y < (f : ℚ) + 1 / 2) :
    round_half_even y = f := by
  have hf : ⌊y⌋ = f := Int.floor_eq_iff.mpr ⟨h1, by linarith⟩
  unfold round_half_even
  rw [hf, if_pos (by linarith)]

theorem round_half_even_up {y : ℚ} {f : ℤ} (h1 : (f : ℚ) + 1 / 2 < y) (h2 : y < (f : ℚ) + 1) :
    round_half_even y = f + 1 := by
  have hf : ⌊y⌋ = f := Int.floor_eq_iff.mpr ⟨by linarith, h2⟩
  unfold round_half_even
  rw [hf, if_neg (by linarith), if_pos (by linarith)]

theorem round_half_even_tie {y : ℚ} {f : ℤ} (h : y = (f : ℚ) + 1 / 2) :
    round_half_even y = if f % 2 = 0 then f else f + 1 := by
  have hf : ⌊y⌋ = f := Int.floor_eq_iff.mpr ⟨by linarith, by linarith⟩
  unfold round_half_even
  rw [hf, if_neg (by linarith), if_neg (by linarith)]

/-- The rounding of a positive value whose binary exponent is known. -/
theorem round_to_double_eval {x : ℚ} (e N : ℤ) (h1 : (2 : ℚ) ^ e ≤ x) (h2 : x < (2 : ℚ) ^ (e + 1))
    (h3 : -1022 ≤ e) (hN : round_half_even (x / (2 : ℚ) ^ (e - 52)) = N) :
    round_to_double x = (N : ℚ) * (2 : ℚ) ^ (e - 52) := by
  have hpos : 0 < x := lt_of_lt_of_le (two_zpow_pos e) h1
  have hlog : Int.log 2 |x| = e := by
    rw [abs_of_pos hpos]
    apply le_antisymm
    · have := (Int.lt_zpow_iff_log_lt (b := 2) (by norm_num) hpos).mp (by simpa using h2)
      omega
    · exact (Int.zpow_le_iff_le_log (b := 2) (by norm_num) hpos).mp (by simpa using h1)
  have ht : double_ulp_exponent x = e - 52 := by
    unfold double_ulp_exponent
    rw [hlog, max_eq_left h3]
  unfold round_to_double
  rw [ht, hN]

/-! ### Conversions and setters -/


theorem tdiv_num_den_of_nonneg {x : ℚ} (hx : 0 ≤ x) : Int.tdiv x.num (x.den : ℤ) = ⌊x⌋ := by
  rw [Rat.floor_def]
  have h1 : 0 ≤ x.num := Rat.num_nonneg.mpr hx
  have h2 : (0 : ℤ) ≤ (x.den : ℤ) := Int.natCast_nonneg _
  exact Int.tdiv_eq_ediv h1 h2

theorem g_double_to_guint64_of_nonneg {x : ℚ} (hx : 0 ≤ x) :
    g_double_to_guint64 x = ⌊x⌋₊ % 2 ^ 64 := by
  unfold g_double_to_guint64
  rw [tdiv_num_den_of_nonneg hx]
  have h : ⌊x⌋ = ((⌊x⌋₊ : ℕ) : ℤ) := (Int.natCast_floor_eq_floor hx).symm
  rw [h]
  have : ((⌊x⌋₊ : ℕ) : ℤ) % (2 ^ 64 : ℤ) = ((⌊x⌋₊ % 2 ^ 64 : ℕ) : ℤ) := by
    push_cast
    rfl
  rw [this, Int.toNat_natCast]

theorem g_double_to_guint64_natCast (n : ℕ) : g_double_to_guint64 (n : ℚ) = n % 2 ^ 64 := by
  rw [g_double_to_guint64_of_nonneg (Nat.cast_nonneg n), Nat.floor_natCast]

theorem g_double_to_guint64_eq_floor {x : ℚ} (hx : 0 ≤ x) (hlt : x < 2 ^ 64) :
    g_double_to_guint64 x = ⌊x⌋₊ := by
  rw [g_double_to_guint64_of_nonneg hx]
  apply Nat.mod_eq_of_lt
  rw [Nat.floor_lt hx]
  exact_mod_cast hlt

theorem guint64_sub_of_le {a b : ℕ} (hba : b ≤ a) (ha : a < 2 ^ 64) : guint64_sub a b = a - b := by
  unfold guint64_sub U64_MOD
  have hb : b < 2 ^ 64 := lt_of_le_of_lt hba ha
  rw [Nat.mod_eq_of_lt ha, Nat.mod_eq_of_lt hb]
  have : a + (2 ^ 64 - b) = (a - b) + 2 ^ 64 := by omega
  rw [this, Nat.add_mod_right]
  exact Nat.mod_eq_of_lt (by omega)

theorem ges_source_set_rate_of_returns (fuel : ℕ) (e : TrackElement) (rate : ℚ)
    (hs : e.is_source = true) (h : set_rate_returns e = true) :
    ∃ b, ges_source_set_rate (fuel + 1) e rate = some (b, child_after_set_rate rate e) := by
  cases hk : e.klass_set_rate with
  | null =>
    exact ⟨false, by simp [ges_source_set_rate, child_after_set_rate, hk, hs]⟩
  | ges_source_set_rate =>
    simp [set_rate_returns, hs, hk] at h
  | ges_audio_source_set_rate =>
    cases hp : e.pitch with
    | none =>
      exact ⟨false, by
        simp [ges_source_set_rate, child_after_set_rate, ges_audio_source_set_rate, hk, hs, hp]⟩
    | some v =>
      exact ⟨true, by
        simp [ges_source_set_rate, child_after_set_rate, ges_audio_source_set_rate, hk, hs, hp]⟩

theorem set_rate_children_of_returns (fuel : ℕ) (rate : ℚ) (l : List TrackElement)
    (h : l.all set_rate_returns = true) :
    set_rate_children (fuel + 1) l rate = some (l.map (child_after_set_rate rate)) := by
  induction l with
  | nil => rfl
  | cons e tl ih =>
    rw [List.all_cons, Bool.and_eq_true] at h
    have iht := ih h.2
    cases hs : e.is_source with
    | false =>
      simp [set_rate_children, hs, iht, child_after_set_rate]
    | true =>
      obtain ⟨b, hb⟩ := ges_source_set_rate_of_returns fuel e rate hs h.1
      simp [set_rate_children, hs, iht, hb]

theorem flags_speeding_of_le_one {f : ℕ} (h : f ≤ 1) :
    (f ||| GES_SOURCE_CLIP_IS_SPEEDING) = GES_SOURCE_CLIP_IS_SPEEDING := by
  have h01 : f = 0 ∨ f = 1 := by omega
  rcases h01 with h0 | h1
  · subst h0; decide
  · subst h1; decide

theorem new_max_duration_eq (m : GDoubleModel) (a i : ℕ) (r : ℚ) :
    g_double_to_guint64
      (gdouble_add m (gdouble_div m (gdouble_of_guint64 m (guint64_sub a i)) r)
        (gdouble_of_guint64 m i)) = new_max_duration m a i r := rfl

theorem new_duration_eq (m : GDoubleModel) (n : ℕ) (r : ℚ) :
    g_double_to_guint64 (gdouble_div m (gdouble_of_guint64 m n) r) = new_duration m n r := rfl

theorem new_input_duration_eq (m : GDoubleModel) (d : ℕ) (r : ℚ) :
    g_double_to_guint64 (gdouble_mul m (gdouble_of_guint64 m d) r) = new_input_duration m d r :=
  rfl

theorem set_duration_hook_frame (m : GDoubleModel) (parent : ParentClass) (c : Clip) (d : ℕ) :
    (_set_duration m parent c d).2.rate = c.rate ∧
    (_set_duration m parent c d).2.children = c.children ∧
    (_set_duration m parent c d).2.maxduration = c.maxduration ∧
    (_set_duration m parent c d).2.notified = c.notified ∧
    (_set_duration m parent c d).2.inpoint = c.inpoint ∧
    (_set_duration m parent c d).2.start = c.start ∧
    (_set_duration m parent c d).2.asset = c.asset ∧
    (_set_duration m parent c d).2.flags = c.flags ∧
    (_set_duration m parent c d).2.duration = c.duration := by
  unfold _set_duration
  by_cases h : FLAG_IS_SET c GES_SOURCE_CLIP_IS_SPEEDING = true <;> simp [h]

theorem set_duration_hook_input (m : GDoubleModel) (parent : ParentClass) (c : Clip) (d : ℕ) :
    (_set_duration m parent c d).2.input_duration =
      if FLAG_IS_SET c GES_SOURCE_CLIP_IS_SPEEDING then c.input_duration
      else new_input_duration m d c.rate := by
  unfold _set_duration new_input_duration input_duration_value
  by_cases h : FLAG_IS_SET c GES_SOURCE_CLIP_IS_SPEEDING = true <;> simp [h]

theorem set_duration0_frame (m : GDoubleModel) (parent : ParentClass) (c : Clip) (d : ℕ) :
    (_set_duration0 m parent c d).rate = c.rate ∧
    (_set_duration0 m parent c d).children = c.children ∧
    (_set_duration0 m parent c d).maxduration = c.maxduration ∧
    (_set_duration0 m parent c d).notified = c.notified ∧
    (_set_duration0 m parent c d).inpoint = c.inpoint ∧
    (_set_duration0 m parent c d).start = c.start ∧
    (_set_duration0 m parent c d).asset = c.asset ∧
    (_set_duration0 m parent c d).flags = c.flags ∧
    (_set_duration0 m parent c d).input_duration =
      (_set_duration m parent c d).2.input_duration := by
  have h := set_duration_hook_frame m parent c d
  unfold _set_duration0 ges_timeline_element_set_duration
  by_cases hb : (_set_duration m parent c d).1 = true
  · simp only [hb, if_true]
    exact ⟨h.1, h.2.1, h.2.2.1, h.2.2.2.1, h.2.2.2.2.1, h.2.2.2.2.2.1, h.2.2.2.2.2.2.1,
      h.2.2.2.2.2.2.2.1, trivial⟩
  · simp only [hb]
    exact ⟨h.1, h.2.1, h.2.2.1, h.2.2.2.1, h.2.2.2.2.1, h.2.2.2.2.2.1, h.2.2.2.2.2.2.1,
      h.2.2.2.2.2.2.2.1, rfl⟩

theorem set_duration0_duration (m : GDoubleModel) (parent : ParentClass) (c : Clip) (d : ℕ) :
    (_set_duration0 m parent c d).duration =
      if (_set_duration m parent c d).1 then d else c.duration := by
  have h := set_duration_hook_frame m parent c d
  unfold _set_duration0 ges_timeline_element_set_duration
  by_cases hb : (_set_duration m parent c d).1 = true
  · simp [hb]
  · simp only [hb]
    exact h.2.2.2.2.2.2.2.2

theorem set_rate_with_children (m : GDoubleModel) (parent : ParentClass) (fuel : ℕ) (c : Clip)
    (r : ℚ) (hne : c.rate ≠ r) (hch : c.children ≠ [])
    (hret : c.children.all set_rate_returns = true) :
    ∃ c1, ges_source_clip_set_rate m parent (fuel + 1) c r = some c1 ∧
      c1.rate = r ∧
      c1.children = c.children.map (child_after_set_rate r) ∧
      c1.maxduration =
        (match asset_duration_pspec c with
         | some a => new_max_duration m a c.inpoint r
         | none => c.maxduration) ∧
      c1.notified = c.notified ++ [SourceClipProperty.PROP_RATE] ∧
      c1.inpoint = c.inpoint ∧ c1.start = c.start ∧ c1.asset = c.asset ∧
      (c.flags ≤ 1 → c1.input_duration = c.input_duration ∧ c1.flags = 0) ∧
      ((∀ x, parent.set_duration x (new_duration m c.input_duration r) = true) →
        c1.duration = new_duration m c.input_duration r) := by
  have hloop := set_rate_children_of_returns fuel r c.children hret
  unfold ges_source_clip_set_rate
  rw [if_pos hne, if_neg hch, hloop]
  have hasset : asset_duration_pspec { c with children := c.children.map (child_after_set_rate r) }
      = asset_duration_pspec c := rfl
  refine ⟨_, rfl, ?_⟩
  simp only [hasset, new_max_duration_eq, new_duration_eq]
  generalize hc2 :
    (match asset_duration_pspec c with
      | some asset_duration =>
        ges_timeline_element_set_max_duration
          { c with children := c.children.map (child_after_set_rate r) }
          (new_max_duration m asset_duration c.inpoint r)
      | none => { c with children := c.children.map (child_after_set_rate r) }) = c2
  have h2 : c2.children = c.children.map (child_after_set_rate r) ∧
      c2.maxduration = (match asset_duration_pspec c with
         | some a => new_max_duration m a c.inpoint r
         | none => c.maxduration) ∧
      c2.notified = c.notified ∧ c2.inpoint = c.inpoint ∧ c2.start = c.start ∧
      c2.asset = c.asset ∧ c2.input_duration = c.input_duration ∧ c2.flags = c.flags := by
    subst hc2
    cases asset_duration_pspec c <;> simp [ges_timeline_element_set_max_duration]
  obtain ⟨h2c, h2m, h2n, h2i, h2s, h2a, h2d, h2f⟩ := h2
  have hf := set_duration0_frame m parent (SET_FLAG c2 GES_SOURCE_CLIP_IS_SPEEDING)
    (new_duration m c2.input_duration r)
  have hd := set_duration0_duration m parent (SET_FLAG c2 GES_SOURCE_CLIP_IS_SPEEDING)
    (new_duration m c2.input_duration r)
  have hi := set_duration_hook_input m parent (SET_FLAG c2 GES_SOURCE_CLIP_IS_SPEEDING)
    (new_duration m c2.input_duration r)
  obtain ⟨f1, f2, f3, f4, f5, f6, f7, f8, f9⟩ := hf
  refine ⟨trivial, ?_, ?_, ?_, ?_, ?_, ?_, ?_, ?_⟩
  · simp only [UNSET_FLAG]; rw [f2]; exact h2c
  · simp only [UNSET_FLAG]; rw [f3]; exact h2m
  · simp only [UNSET_FLAG]; rw [f4]; simp [SET_FLAG, h2n]
  · simp only [UNSET_FLAG]; rw [f5]; exact h2i
  · simp only [UNSET_FLAG]; rw [f6]; exact h2s
  · simp only [UNSET_FLAG]; rw [f7]; exact h2a
  · intro hfl
    have hset : (SET_FLAG c2 GES_SOURCE_CLIP_IS_SPEEDING).flags = GES_SOURCE_CLIP_IS_SPEEDING := by
      simp only [SET_FLAG, h2f]
      exact flags_speeding_of_le_one hfl
    constructor
    · simp only [UNSET_FLAG]
      rw [f9, hi]
      simp only [FLAG_IS_SET, hset, beq_self_eq_true, if_true]
      simpa [SET_FLAG] using h2d
    · simp only [UNSET_FLAG]
      rw [f8, hset]
      decide
  · intro hacc
    simp only [UNSET_FLAG]
    rw [hd, h2d]
    simp only [_set_duration, hacc, if_true]

theorem asset_duration_pspec_some {c : Clip} {s : Asset} {a : ℕ}
    (hs : c.asset = some s) (ha : s.duration = some a) : asset_duration_pspec c = some a := by
  simp [asset_duration_pspec, hs, ha]

theorem asset_duration_pspec_none {c : Clip}
    (h : c.asset = none ∨ ∃ s, c.asset = some s ∧ s.duration = none) :
    asset_duration_pspec c = none := by
  rcases h with h | ⟨s, hs, hd⟩
  · simp [asset_duration_pspec, h]
  · simp [asset_duration_pspec, hs, hd]

theorem gdouble_of_guint64_natCast (m : GDoubleModel) (n : ℕ) (h : n ≤ 2 ^ 53) :
    gdouble_of_guint64 m n = (n : ℚ) := gdouble_round_natCast m n h

theorem max_duration_value_exact {m : GDoubleModel} {a i : ℕ} {r : ℚ} (hia : i ≤ a)
    (ha : a < 2 ^ 64) (hex : max_duration_is_exact m a i r) :
    max_duration_value m a i r = ((a : ℚ) - (i : ℚ)) / r + (i : ℚ) := by
  obtain ⟨h1, h2, h3, h4⟩ := hex
  unfold max_duration_value gdouble_add gdouble_div gdouble_of_guint64
  rw [guint64_sub_of_le hia ha, Nat.cast_sub hia, h1, h2, h3, h4]

theorem new_max_duration_exact {m : GDoubleModel} {a i : ℕ} {r : ℚ} (hr : 0 < r) (hia : i ≤ a)
    (ha : a < 2 ^ 64) (hex : max_duration_is_exact m a i r)
    (hfit : ((a : ℚ) - (i : ℚ)) / r + (i : ℚ) < 2 ^ 64) :
    new_max_duration m a i r = ⌊((a : ℚ) - (i : ℚ)) / r + (i : ℚ)⌋₊ := by
  unfold new_max_duration
  rw [max_duration_value_exact hia ha hex]
  have hnn : (0 : ℚ) ≤ ((a : ℚ) - (i : ℚ)) / r + (i : ℚ) := by
    have h1 : (0 : ℚ) ≤ (a : ℚ) - (i : ℚ) := by
      have : (i : ℚ) ≤ (a : ℚ) := by exact_mod_cast hia
      linarith
    have h2 : (0 : ℚ) ≤ (i : ℚ) := Nat.cast_nonneg i
    have h3 : (0 : ℚ) ≤ ((a : ℚ) - (i : ℚ)) / r := div_nonneg h1 hr.le
    linarith
  exact g_double_to_guint64_eq_floor hnn hfit

theorem duration_value_exact {m : GDoubleModel} {n : ℕ} {r : ℚ} (hex : duration_is_exact m n r) :
    duration_value m n r = (n : ℚ) / r := by
  obtain ⟨h1, h2⟩ := hex
  unfold duration_value gdouble_div gdouble_of_guint64
  rw [h1, h2]

theorem new_duration_exact {m : GDoubleModel} {n : ℕ} {r : ℚ} (hr : 0 < r)
    (hex : duration_is_exact m n r) (hfit : (n : ℚ) / r < 2 ^ 64) :
    new_duration m n r = ⌊(n : ℚ) / r⌋₊ := by
  unfold new_duration
  rw [duration_value_exact hex]
  exact g_double_to_guint64_eq_floor (div_nonneg (Nat.cast_nonneg _) hr.le) hfit

theorem input_duration_value_exact {m : GDoubleModel} {d : ℕ} {r : ℚ}
    (hex : input_duration_is_exact m d r) : input_duration_value m d r = (d : ℚ) * r := by
  obtain ⟨h1, h2⟩ := hex
  unfold input_duration_value gdouble_mul gdouble_of_guint64
  rw [h1, h2]

theorem new_input_duration_exact {m : GDoubleModel} {d : ℕ} {r : ℚ} (hr : 0 ≤ r)
    (hex : input_duration_is_exact m d r) (hfit : (d : ℚ) * r < 2 ^ 64) :
    new_input_duration m d r = ⌊(d : ℚ) * r⌋₊ := by
  unfold new_input_duration
  rw [input_duration_value_exact hex]
  exact g_double_to_guint64_eq_floor (mul_nonneg (Nat.cast_nonneg _) hr) hfit

/-- The operations are exact when the operand and the quotient are natural
numbers up to `2 ^ 53`. -/
theorem duration_is_exact_of_natCast (m : GDoubleModel) {n k : ℕ} {r : ℚ} (hn : n ≤ 2 ^ 53)
    (hk : k ≤ 2 ^ 53) (h : (n : ℚ) / r = (k : ℚ)) : duration_is_exact m n r :=
  ⟨gdouble_round_natCast m n hn, by rw [h]; exact gdouble_round_natCast m k hk⟩

theorem input_duration_is_exact_of_natCast (m : GDoubleModel) {d k : ℕ} {r : ℚ} (hd : d ≤ 2 ^ 53)
    (hk : k ≤ 2 ^ 53) (h : (d : ℚ) * r = (k : ℚ)) : input_duration_is_exact m d r :=
  ⟨gdouble_round_natCast m d hd, by rw [h]; exact gdouble_round_natCast m k hk⟩

theorem max_duration_is_exact_of_natCast (m : GDoubleModel) {a i k : ℕ} {r : ℚ} (hia : i ≤ a)
    (ha : a ≤ 2 ^ 53) (hk : k + i ≤ 2 ^ 53) (h : ((a : ℚ) - (i : ℚ)) / r = (k : ℚ)) :
    max_duration_is_exact m a i r := by
  have h1 : (a : ℚ) - (i : ℚ) = ((a - i : ℕ) : ℚ) := (Nat.cast_sub hia).symm
  refine ⟨?_, ?_, gdouble_round_natCast m i (by omega), ?_⟩
  · rw [h1]
    exact gdouble_round_natCast m (a - i) (by omega)
  · rw [h]
    exact gdouble_round_natCast m k (by omega)
  · rw [h]
    have h2 : (k : ℚ) + (i : ℚ) = ((k + i : ℕ) : ℚ) := (Nat.cast_add k i).symm
    rw [h2]
    exact gdouble_round_natCast m (k + i) hk

theorem new_duration_natCast (m : GDoubleModel) {n k : ℕ} {r : ℚ} (hn : n ≤ 2 ^ 53)
    (hk : k ≤ 2 ^ 53) (h : (n : ℚ) / r = (k : ℚ)) : new_duration m n r = k := by
  unfold new_duration
  rw [duration_value_exact (duration_is_exact_of_natCast m hn hk h), h,
    g_double_to_guint64_natCast]
  exact Nat.mod_eq_of_lt (by omega)

theorem new_input_duration_natCast (m : GDoubleModel) {d k : ℕ} {r : ℚ} (hd : d ≤ 2 ^ 53)
    (hk : k ≤ 2 ^ 53) (h : (d : ℚ) * r = (k : ℚ)) : new_input_duration m d r = k := by
  unfold new_input_duration
  rw [input_duration_value_exact (input_duration_is_exact_of_natCast m hd hk h), h,
    g_double_to_guint64_natCast]
  exact Nat.mod_eq_of_lt (by omega)

theorem new_max_duration_natCast (m : GDoubleModel) {a i k : ℕ} {r : ℚ} (hia : i ≤ a)
    (ha : a ≤ 2 ^ 53) (hk : k + i ≤ 2 ^ 53) (h : ((a : ℚ) - (i : ℚ)) / r = (k : ℚ)) :
    new_max_duration m a i r = k + i := by
  unfold new_max_duration
  rw [max_duration_value_exact hia (by omega) (max_duration_is_exact_of_natCast m hia ha hk h), h]
  have h2 : (k : ℚ) + (i : ℚ) = ((k + i : ℕ) : ℚ) := (Nat.cast_add k i).symm
  rw [h2, g_double_to_guint64_natCast]
  exact Nat.mod_eq_of_lt (by omega)

theorem child_after_set_rate_spec (r : ℚ) (e : TrackElement) :
    (e.is_source = false → child_after_set_rate r e = e) ∧
    (e.is_source = true →
      e.klass_set_rate = SetRateVMethod.ges_audio_source_set_rate → e.pitch ≠ none →
      (child_after_set_rate r e).nleobject.media_duration_factor = r ∧
      ges_source_get_rate (child_after_set_rate r e) = r) ∧
    (e.is_source = true →
      (e.klass_set_rate = SetRateVMethod.null ∨ e.pitch = none) →
      child_after_set_rate r e = e) := by
  refine ⟨fun hs => ?_, fun hs hk hp => ?_, fun hs h => ?_⟩
  · simp [child_after_set_rate, hs]
  · cases hpv : e.pitch with
    | none => exact absurd hpv hp
    | some v => simp [child_after_set_rate, hs, hk, hpv, ges_source_get_rate]
  · rcases h with hk | hp
    · simp [child_after_set_rate, hs, hk]
    · cases hk : e.klass_set_rate <;> simp [child_after_set_rate, hs, hk, hp]

theorem set_rate_returns_child_after (r : ℚ) (l : List TrackElement)
    (h : l.all set_rate_returns = true) :
    (l.map (child_after_set_rate r)).all set_rate_returns = true := by
  rw [List.all_eq_true] at h ⊢
  intro e1 he1
  obtain ⟨e, he, rfl⟩ := List.mem_map.mp he1
  have hx := h e he
  unfold child_after_set_rate
  cases hs : e.is_source with
  | false => simpa [hs] using hx
  | true =>
    cases hk : e.klass_set_rate with
    | null => simp [set_rate_returns, hk]
    | ges_source_set_rate => simp [set_rate_returns, hs, hk] at hx
    | ges_audio_source_set_rate =>
      cases hp : e.pitch <;> simp [set_rate_returns, hk]

theorem set_duration_at_rest (m : GDoubleModel) (parent : ParentClass) (c0 : Clip) (d : ℕ)
    (hacc : ∀ x v, parent.set_duration x v = true) (hflags : c0.flags = 0) :
    (ges_timeline_element_set_duration m parent c0 d).duration = d ∧
    (ges_timeline_element_set_duration m parent c0 d).input_duration =
      new_input_duration m d c0.rate ∧
    (ges_timeline_element_set_duration m parent c0 d).rate = c0.rate ∧
    (ges_timeline_element_set_duration m parent c0 d).flags = 0 ∧
    (ges_timeline_element_set_duration m parent c0 d).children = c0.children ∧
    (ges_timeline_element_set_duration m parent c0 d).asset = c0.asset ∧
    (ges_timeline_element_set_duration m parent c0 d).inpoint = c0.inpoint ∧
    (ges_timeline_element_set_duration m parent c0 d).maxduration = c0.maxduration := by
  have hf := set_duration0_frame m parent c0 d
  have hd := set_duration0_duration m parent c0 d
  have hi := set_duration_hook_input m parent c0 d
  have hfl : FLAG_IS_SET c0 GES_SOURCE_CLIP_IS_SPEEDING = false := by
    simp [FLAG_IS_SET, hflags, GES_SOURCE_CLIP_IS_SPEEDING]
  unfold _set_duration0 at hf hd
  obtain ⟨f1, f2, f3, _, f5, _, f7, f8, f9⟩ := hf
  refine ⟨?_, ?_, f1, by rw [f8, hflags], f2, f7, f5, f3⟩
  · rw [hd]
    simp [_set_duration, hacc]
  · rw [f9, hi, hfl]
    simp

/-! ### Values that binary64 rounds -/

theorem round_to_double_two_pow_53_add_one : round_to_double (2 ^ 53 + 1) = 2 ^ 53 := by
  rw [round_to_double_eval 53 (2 ^ 52) (by norm_num) (by norm_num) (by norm_num)]
  · norm_num
  · rw [round_half_even_tie (f := 2 ^ 52) (by norm_num)]
    norm_num

theorem gdouble_of_guint64_two_pow_53_add_one :
    gdouble_of_guint64 GDoubleModel.ieee754 (2 ^ 53 + 1) = 2 ^ 53 := by
  have h : (((2 ^ 53 + 1 : ℕ)) : ℚ) = 2 ^ 53 + 1 := by norm_num
  rw [gdouble_of_guint64, gdouble_round_ieee754, h]
  exact round_to_double_two_pow_53_add_one

theorem round_to_double_two_pow_53 : round_to_double (2 ^ 53) = 2 ^ 53 := by
  have h := round_to_double_natCast (2 ^ 53) (le_refl _)
  simpa using h

theorem new_input_duration_two_pow_53_add_one :
    new_input_duration GDoubleModel.ieee754 (2 ^ 53 + 1) 1 = 2 ^ 53 := by
  unfold new_input_duration input_duration_value gdouble_mul
  rw [gdouble_of_guint64_two_pow_53_add_one, mul_one, gdouble_round_ieee754,
    round_to_double_two_pow_53]
  have h := g_double_to_guint64_natCast (2 ^ 53)
  simpa using h

theorem new_max_duration_two_pow_53_add_one :
    new_max_duration GDoubleModel.ieee754 (2 ^ 53 + 1) 0 1 = 2 ^ 53 := by
  have hs : guint64_sub (2 ^ 53 + 1) 0 = 2 ^ 53 + 1 := by
    rw [guint64_sub_of_le (Nat.zero_le _) (by norm_num)]
    rfl
  unfold new_max_duration max_duration_value gdouble_add gdouble_div
  rw [hs, gdouble_of_guint64_two_pow_53_add_one, div_one]
  have h0 : gdouble_of_guint64 GDoubleModel.ieee754 0 = 0 := by
    simpa using gdouble_of_guint64_natCast GDoubleModel.ieee754 0 (by norm_num)
  rw [h0, gdouble_round_ieee754, gdouble_round_ieee754, round_to_double_two_pow_53, add_zero,
    round_to_double_two_pow_53]
  have h := g_double_to_guint64_natCast (2 ^ 53)
  simpa using h

theorem round_to_double_two_pow_53_add_three : round_to_double (2 ^ 53 + 3) = 2 ^ 53 + 4 := by
  rw [round_to_double_eval 53 (2 ^ 52 + 2) (by norm_num) (by norm_num) (by norm_num)]
  · norm_num
  · rw [round_half_even_tie (f := 2 ^ 52 + 1) (by norm_num)]
    norm_num

theorem round_to_double_two_pow_53_add_four : round_to_double (2 ^ 53 + 4) = 2 ^ 53 + 4 :=
  round_to_double_representable (2 ^ 53 + 4) (2 ^ 52 + 2) 1 (by norm_num) (by norm_num)
    (by norm_num)

theorem new_max_duration_at_two_pow_53_add_one :
    new_max_duration GDoubleModel.ieee754 (2 ^ 53 + 1) (2 ^ 53 + 1) 1 = 2 ^ 53 := by
  have hs : guint64_sub (2 ^ 53 + 1) (2 ^ 53 + 1) = 0 := by
    rw [guint64_sub_of_le (le_refl _) (by norm_num)]
    exact Nat.sub_self _
  unfold new_max_duration max_duration_value gdouble_add gdouble_div
  have h0 : gdouble_of_guint64 GDoubleModel.ieee754 0 = 0 := by
    simpa using gdouble_of_guint64_natCast GDoubleModel.ieee754 0 (by norm_num)
  rw [hs, h0, gdouble_of_guint64_two_pow_53_add_one, div_one, gdouble_round_ieee754,
    gdouble_round_ieee754, round_to_double_zero, zero_add, round_to_double_two_pow_53]
  have h := g_double_to_guint64_natCast (2 ^ 53)
  simpa using h

theorem new_max_duration_two_pow_53_add_three :
    new_max_duration GDoubleModel.ieee754 (2 ^ 53 + 3) 0 1 = 2 ^ 53 + 4 := by
  have hs : guint64_sub (2 ^ 53 + 3) 0 = 2 ^ 53 + 3 := by
    rw [guint64_sub_of_le (Nat.zero_le _) (by norm_num)]
    rfl
  have h3 : gdouble_of_guint64 GDoubleModel.ieee754 (2 ^ 53 + 3) = 2 ^ 53 + 4 := by
    have h : (((2 ^ 53 + 3 : ℕ)) : ℚ) = 2 ^ 53 + 3 := by norm_num
    rw [gdouble_of_guint64, gdouble_round_ieee754, h]
    exact round_to_double_two_pow_53_add_three
  have h0 : gdouble_of_guint64 GDoubleModel.ieee754 0 = 0 := by
    simpa using gdouble_of_guint64_natCast GDoubleModel.ieee754 0 (by norm_num)
  unfold new_max_duration max_duration_value gdouble_add gdouble_div
  rw [hs, h3, h0, div_one, gdouble_round_ieee754, gdouble_round_ieee754,
    round_to_double_two_pow_53_add_four, add_zero, round_to_double_two_pow_53_add_four]
  have h := g_double_to_guint64_natCast (2 ^ 53 + 4)
  have hc : (((2 ^ 53 + 4 : ℕ)) : ℚ) = 2 ^ 53 + 4 := by norm_num
  rw [hc] at h
  rw [h]
  norm_num

/-- The quotient `50 / 0.1` in binary64: the exact quotient is below 500 by less
than half a unit of the last place, and rounds to 500. -/
theorem round_to_double_fifty_div_tenth : round_to_double (50 / tenth) = 500 := by
  rw [round_to_double_eval 8 (500 * 2 ^ 44) (by norm_num [tenth]) (by norm_num [tenth])
    (by norm_num)]
  · norm_num
  · have h := round_half_even_up (y := 50 / tenth / 2 ^ ((8 : ℤ) - 52)) (f := 500 * 2 ^ 44 - 1)
      (by norm_num [tenth]) (by norm_num [tenth])
    simpa using h

/-- The product `50 * 0.3` in binary64: the exact product is below 15 by less
than half a unit of the last place, and rounds to 15. -/
theorem round_to_double_fifty_mul_three_tenths : round_to_double (50 * three_tenths) = 15 := by
  rw [round_to_double_eval 3 (15 * 2 ^ 49) (by norm_num [three_tenths])
    (by norm_num [three_tenths]) (by norm_num)]
  · norm_num
  · have h := round_half_even_up (y := 50 * three_tenths / 2 ^ ((3 : ℤ) - 52))
      (f := 15 * 2 ^ 49 - 1) (by norm_num [three_tenths]) (by norm_num [three_tenths])
    simpa using h

/-- The quotient `999999988 / 0.1` in binary64 rounds to 9999999880. -/
theorem round_to_double_second_div_tenth :
    round_to_double (999999988 / tenth) = 9999999880 := by
  rw [round_to_double_eval 33 (9999999880 * 2 ^ 19) (by norm_num [tenth]) (by norm_num [tenth])
    (by norm_num)]
  · norm_num
  · have h := round_half_even_up (y := 999999988 / tenth / 2 ^ ((33 : ℤ) - 52))
      (f := 9999999880 * 2 ^ 19 - 1) (by norm_num [tenth]) (by norm_num [tenth])
    simpa using h

/-! ### Bounds of the max-duration -/

theorem max_duration_value_bounds (m : GDoubleModel) {a i : ℕ} {r : ℚ} (hia : i ≤ a)
    (ha : a ≤ 2 ^ 53) (hr : 0 < r) :
    (i : ℚ) ≤ max_duration_value m a i r ∧
    (1 ≤ r → max_duration_value m a i r ≤ (a : ℚ)) ∧
    (r ≤ 1 → (a : ℚ) ≤ max_duration_value m a i r) := by
  have ha64 : a < 2 ^ 64 := lt_of_le_of_lt ha (by norm_num)
  have hi53 : i ≤ 2 ^ 53 := le_trans hia ha
  have hd53 : a - i ≤ 2 ^ 53 := le_trans (Nat.sub_le a i) ha
  have hcast : ((a - i : ℕ) : ℚ) + (i : ℚ) = (a : ℚ) := by
    rw [Nat.cast_sub hia]
    ring
  have hval : max_duration_value m a i r =
      gdouble_round m (gdouble_round m (((a - i : ℕ) : ℚ) / r) + (i : ℚ)) := by
    unfold max_duration_value gdouble_add gdouble_div
    rw [guint64_sub_of_le hia ha64, gdouble_of_guint64_natCast m (a - i) hd53,
      gdouble_of_guint64_natCast m i hi53]
  have hx0 : (0 : ℚ) ≤ ((a - i : ℕ) : ℚ) / r := div_nonneg (Nat.cast_nonneg _) hr.le
  have hq0 : (0 : ℚ) ≤ gdouble_round m (((a - i : ℕ) : ℚ) / r) := gdouble_round_nonneg m hx0
  rw [hval]
  refine ⟨?_, fun hr1 => ?_, fun hr1 => ?_⟩
  · exact natCast_le_gdouble_round m hi53 (by linarith)
  · have hq : gdouble_round m (((a - i : ℕ) : ℚ) / r) ≤ ((a - i : ℕ) : ℚ) :=
      gdouble_round_le_natCast m hd53 hx0 (div_le_self (Nat.cast_nonneg _) hr1)
    exact gdouble_round_le_natCast m ha (by linarith [(Nat.cast_nonneg i : (0 : ℚ) ≤ (i : ℚ))])
      (by linarith)
  · have hge : ((a - i : ℕ) : ℚ) ≤ ((a - i : ℕ) : ℚ) / r := by
      rw [le_div_iff₀ hr]
      have h0 : (0 : ℚ) ≤ ((a - i : ℕ) : ℚ) := Nat.cast_nonneg _
      nlinarith
    have hq : ((a - i : ℕ) : ℚ) ≤ gdouble_round m (((a - i : ℕ) : ℚ) / r) :=
      natCast_le_gdouble_round m hd53 hge
    exact natCast_le_gdouble_round m ha (by linarith)

/-! ## The rate model checked against the tests -/

/-- The values that `test_filesource_rate` checks, in the arithmetic of the code:
rate 2.0 gives the duration 25 and the max-duration
`0.5 * (GST_SECOND - 12) + 12`, then rate 0.5 gives the duration 100 and the
max-duration `2 * (GST_SECOND - 12) + 12`. -/
theorem test_filesource_rate_trace :
    ∃ c1 c2,
      ges_source_clip_set_rate GDoubleModel.ieee754 accepting_parent 1 test_filesource_clip 2
        = some c1 ∧
      c1.duration = 25 ∧ c1.maxduration = 500000006 ∧ c1.rate = 2 ∧
      ges_source_clip_set_rate GDoubleModel.ieee754 accepting_parent 1 c1 (1 / 2) = some c2 ∧
      c2.duration = 100 ∧ c2.maxduration = 1999999988 ∧ c2.rate = 1 / 2 := by
  obtain ⟨c1, h1, g1, g2, g3, _, g5, _, g7, g8, g9⟩ :=
    set_rate_with_children GDoubleModel.ieee754 accepting_parent 0 test_filesource_clip 2
      (by norm_num [test_filesource_clip]) (by simp [test_filesource_clip])
      (by simp [test_filesource_clip, set_rate_returns, audio_child])
  have hin1 : c1.input_duration = 50 := (g8 (by simp [test_filesource_clip])).1
  have hch1 : c1.children ≠ [] := by rw [g2]; simp [test_filesource_clip]
  have hret1 : c1.children.all set_rate_returns = true := by
    rw [g2]
    exact set_rate_returns_child_after 2 _
      (by simp [test_filesource_clip, set_rate_returns, audio_child])
  obtain ⟨c2, h2, k1, _, k3, _, _, _, _, _, k9⟩ :=
    set_rate_with_children GDoubleModel.ieee754 accepting_parent 0 c1 (1 / 2)
      (by rw [g1]; norm_num) hch1 hret1
  have hd1 : c1.duration = 25 := by
    rw [g9 (fun _ => rfl)]
    exact new_duration_natCast _ (by norm_num [test_filesource_clip]) (by norm_num)
      (by norm_num [test_filesource_clip])
  have hm1 : c1.maxduration = 500000006 := by
    rw [g3]
    have hp : asset_duration_pspec test_filesource_clip = some 1000000000 := rfl
    rw [hp]
    simp only
    rw [new_max_duration_natCast _ (k := 499999994) (by norm_num [test_filesource_clip])
      (by norm_num) (by norm_num [test_filesource_clip]) (by norm_num [test_filesource_clip])]
    rfl
  have hd2 : c2.duration = 100 := by
    rw [k9 (fun _ => rfl), hin1]
    exact new_duration_natCast _ (by norm_num) (by norm_num) (by norm_num)
  have hm2 : c2.maxduration = 1999999988 := by
    rw [k3]
    have hp : asset_duration_pspec c1 = some 1000000000 := by
      simp [asset_duration_pspec, g7, test_filesource_clip]
    rw [hp]
    simp only
    have hi : c1.inpoint = 12 := g5
    rw [hi, new_max_duration_natCast _ (k := 1999999976) (by norm_num) (by norm_num)
      (by norm_num) (by norm_num)]
  exact ⟨c1, c2, h1, hd1, hm1, g1, h2, hd2, hm2, k1⟩

/-- The two arithmetics on values that binary64 rounds.  At rate 0.1 an input
duration of 50 gives the duration 500 in the arithmetic of the code, where the
exact quotient truncates to 499; at rate 0.3 a duration of 50 gives the input
duration 15, where the exact product truncates to 14; at rate 0.1 an asset of
one second with the in-point 12 gives the max-duration 9999999892, where the
exact value truncates to 9999999891. -/
theorem ieee754_against_exact :
    new_duration GDoubleModel.ieee754 50 tenth = 500 ∧
    new_duration GDoubleModel.exact 50 tenth = 499 ∧
    new_input_duration GDoubleModel.ieee754 50 three_tenths = 15 ∧
    new_input_duration GDoubleModel.exact 50 three_tenths = 14 ∧
    new_max_duration GDoubleModel.ieee754 1000000000 12 tenth = 9999999892 ∧
    new_max_duration GDoubleModel.exact 1000000000 12 tenth = 9999999891 := by
  have h50 : gdouble_of_guint64 GDoubleModel.ieee754 50 = 50 := by
    simpa using gdouble_of_guint64_natCast GDoubleModel.ieee754 50 (by norm_num)
  have h12 : gdouble_of_guint64 GDoubleModel.ieee754 12 = 12 := by
    simpa using gdouble_of_guint64_natCast GDoubleModel.ieee754 12 (by norm_num)
  have hsub : guint64_sub 1000000000 12 = 999999988 := by decide
  have hs : gdouble_of_guint64 GDoubleModel.ieee754 999999988 = 999999988 := by
    simpa using gdouble_of_guint64_natCast GDoubleModel.ieee754 999999988 (by norm_num)
  refine ⟨?_, ?_, ?_, ?_, ?_, ?_⟩
  · unfold new_duration duration_value gdouble_div
    rw [h50, gdouble_round_ieee754, round_to_double_fifty_div_tenth]
    have h := g_double_to_guint64_natCast 500
    simpa using h
  · unfold new_duration duration_value gdouble_div gdouble_of_guint64
    rw [gdouble_round_exact, gdouble_round_exact,
      g_double_to_guint64_eq_floor (by norm_num [tenth]) (by norm_num [tenth])]
    rw [Nat.floor_eq_iff (by norm_num [tenth])]
    constructor <;> norm_num [tenth]
  · unfold new_input_duration input_duration_value gdouble_mul
    rw [h50, gdouble_round_ieee754, round_to_double_fifty_mul_three_tenths]
    have h := g_double_to_guint64_natCast 15
    simpa using h
  · unfold new_input_duration input_duration_value gdouble_mul gdouble_of_guint64
    rw [gdouble_round_exact, gdouble_round_exact,
      g_double_to_guint64_eq_floor (by norm_num [three_tenths]) (by norm_num [three_tenths])]
    rw [Nat.floor_eq_iff (by norm_num [three_tenths])]
    constructor <;> norm_num [three_tenths]
  · unfold new_max_duration max_duration_value gdouble_add gdouble_div
    rw [hsub, hs, h12, gdouble_round_ieee754, gdouble_round_ieee754,
      round_to_double_second_div_tenth]
    have h1 : (9999999880 : ℚ) + 12 = ((9999999892 : ℕ) : ℚ) := by norm_num
    rw [h1, round_to_double_natCast _ (by norm_num), g_double_to_guint64_natCast]
    norm_num
  · unfold new_max_duration max_duration_value gdouble_add gdouble_div gdouble_of_guint64
    rw [hsub, gdouble_round_exact, gdouble_round_exact, gdouble_round_exact,
      gdouble_round_exact,
      g_double_to_guint64_eq_floor (by norm_num [tenth]) (by norm_num [tenth])]
    rw [Nat.floor_eq_iff (by norm_num [tenth])]
    constructor <;> norm_num [tenth]

/-! ## Statements of the specification -/

/-- C1: on a clip with children, a rate `r > 0` different from the current rate
leaves the duration at `input_duration / r` converted to a `guint64`, that is
truncated toward zero, where `input_duration` is the value at the time of the
call and the quotient is the `gdouble` quotient that the code computes, in
either arithmetic; it is the exact quotient truncated toward zero when the
operations are exact and the quotient fits 64 bits (the parent class accepting
the duration, and every child call returning). -/
theorem set_rate_duration (m : GDoubleModel) (parent : ParentClass) (fuel : ℕ) (c : Clip) (r : ℚ)
    (hch : c.children ≠ []) (hret : c.children.all set_rate_returns = true)
    (hr : 0 < r) (hne : c.rate ≠ r)
    (hacc : ∀ x, parent.set_duration x
      (g_double_to_guint64 (gdouble_div m (gdouble_of_guint64 m c.input_duration) r)) = true) :
    ∃ c1, ges_source_clip_set_rate m parent (fuel + 1) c r = some c1 ∧
      c1.duration =
        g_double_to_guint64 (gdouble_div m (gdouble_of_guint64 m c.input_duration) r) ∧
      (duration_is_exact m c.input_duration r → (c.input_duration : ℚ) / r < 2 ^ 64 →
        c1.duration = ⌊(c.input_duration : ℚ) / r⌋₊) := by
  obtain ⟨c1, h1, _, _, _, _, _, _, _, _, hd⟩ :=
    set_rate_with_children m parent fuel c r hne hch hret
  refine ⟨c1, h1, hd hacc, fun hex hlt => ?_⟩
  rw [hd hacc]
  exact new_duration_exact hr hex hlt

/-- The example of C1, in the arithmetic of the code: input duration 100 and rate
2.0 give the duration 50. -/
theorem set_rate_duration_witness :
    ∃ c1, ges_source_clip_set_rate GDoubleModel.ieee754 accepting_parent 1 example_clip 2
        = some c1 ∧
      c1.duration = 50 := by
  obtain ⟨c1, h1, _, h3⟩ :=
    set_rate_duration GDoubleModel.ieee754 accepting_parent 0 example_clip 2
      (by simp [example_clip]) (by simp [example_clip, set_rate_returns, audio_child])
      (by norm_num) (by norm_num [example_clip]) (fun _ => rfl)
  refine ⟨c1, h1, ?_⟩
  rw [h3 (duration_is_exact_of_natCast _ (k := 50) (by norm_num [example_clip]) (by norm_num)
    (by norm_num [example_clip])) (by norm_num [example_clip])]
  norm_num [example_clip]

/-- C2: a rate change leaves the input duration of the clip as it was, with or
without children and whatever the rate: the internal set-duration runs with the
speeding flag set, so that the duration method does not re-derive it (the flags
word holding no bit but the declared one, and every child call returning). -/
theorem set_rate_keeps_input_duration (m : GDoubleModel) (parent : ParentClass) (fuel : ℕ)
    (c : Clip) (r : ℚ)
    (hflags : c.flags ≤ 1) (hret : c.children.all set_rate_returns = true) :
    ∃ c1, ges_source_clip_set_rate m parent (fuel + 1) c r = some c1 ∧
      c1.input_duration = c.input_duration := by
  by_cases hne : c.rate ≠ r
  · by_cases hch : c.children = []
    · exact ⟨{ c with rate := r }, by simp [ges_source_clip_set_rate, hne, hch], rfl⟩
    · obtain ⟨c1, h1, _, _, _, _, _, _, _, hi, _⟩ :=
        set_rate_with_children m parent fuel c r hne hch hret
      exact ⟨c1, h1, (hi hflags).1⟩
  · exact ⟨c, by simp [ges_source_clip_set_rate, hne], rfl⟩

/-- The input duration 100 of the example clip survives a change to rate 2.0. -/
theorem set_rate_keeps_input_duration_witness :
    ∃ c1, ges_source_clip_set_rate GDoubleModel.ieee754 accepting_parent 1 example_clip 2
        = some c1 ∧
      c1.input_duration = 100 :=
  set_rate_keeps_input_duration GDoubleModel.ieee754 accepting_parent 0 example_clip 2
    (by simp [example_clip]) (by simp [example_clip, set_rate_returns, audio_child])

/-- C3: on a clip with children and a rate `r > 0` different from the current
one, when the asset has a `duration` property the max-duration becomes
`(asset_duration - in_point) / r + in_point` converted to a `guint64`, in the
`gdouble` operations of the code and at the current in-point; it is the exact
value truncated toward zero when the in-point does not exceed the asset
duration, the operations are exact and the value fits 64 bits; without an asset
or without that property the max-duration stays. -/
theorem set_rate_max_duration (m : GDoubleModel) (parent : ParentClass) (fuel : ℕ) (c : Clip)
    (r : ℚ) (hch : c.children ≠ []) (hret : c.children.all set_rate_returns = true)
    (hr : 0 < r) (hne : c.rate ≠ r) :
    ∃ c1, ges_source_clip_set_rate m parent (fuel + 1) c r = some c1 ∧
      (∀ s a, c.asset = some s → s.duration = some a →
        c1.maxduration = g_double_to_guint64
          (gdouble_add m (gdouble_div m (gdouble_of_guint64 m (guint64_sub a c.inpoint)) r)
            (gdouble_of_guint64 m c.inpoint)) ∧
        (c.inpoint ≤ a → a < 2 ^ 64 → max_duration_is_exact m a c.inpoint r →
          ((a : ℚ) - (c.inpoint : ℚ)) / r + (c.inpoint : ℚ) < 2 ^ 64 →
          c1.maxduration = ⌊((a : ℚ) - (c.inpoint : ℚ)) / r + (c.inpoint : ℚ)⌋₊)) ∧
      ((c.asset = none ∨ ∃ s, c.asset = some s ∧ s.duration = none) →
        c1.maxduration = c.maxduration) := by
  obtain ⟨c1, h1, _, _, hm, _⟩ := set_rate_with_children m parent fuel c r hne hch hret
  refine ⟨c1, h1, ?_, ?_⟩
  · intro s a hs ha
    rw [asset_duration_pspec_some hs ha] at hm
    refine ⟨hm, fun hia ha64 hex hfit => ?_⟩
    rw [hm]
    exact new_max_duration_exact hr hia ha64 hex hfit
  · intro hnone
    rw [asset_duration_pspec_none hnone] at hm
    exact hm

/-- The example of C3, in the arithmetic of the code: asset duration 1000,
in-point 12 and rate 2.0 give 506. -/
theorem set_rate_max_duration_witness :
    ∃ c1, ges_source_clip_set_rate GDoubleModel.ieee754 accepting_parent 1 example_clip 2
        = some c1 ∧
      c1.maxduration = 506 := by
  obtain ⟨c1, h1, h2, _⟩ :=
    set_rate_max_duration GDoubleModel.ieee754 accepting_parent 0 example_clip 2
      (by simp [example_clip]) (by simp [example_clip, set_rate_returns, audio_child])
      (by norm_num) (by norm_num [example_clip])
  refine ⟨c1, h1, ?_⟩
  have h := (h2 { duration := some 1000 } 1000 rfl rfl).2
    (by simp [example_clip]) (by norm_num)
    (max_duration_is_exact_of_natCast _ (k := 494) (by norm_num [example_clip]) (by norm_num)
      (by norm_num [example_clip]) (by norm_num [example_clip]))
    (by norm_num [example_clip])
  rw [h]
  norm_num [example_clip]

/-- C4: the duration method `_set_duration` with the speeding flag clear sets the
input duration to `d * rate` converted to a `guint64`, the product being the
`gdouble` product that the code computes at the current rate, and hands the
updated clip to the duration setter of the parent class; the value is the exact
product truncated toward zero when the operations are exact and the product
fits 64 bits; with the flag set the input duration stays (the flags word
holding no bit but the declared one). -/
theorem set_duration_input_duration (m : GDoubleModel) (parent : ParentClass) (c : Clip) (d : ℕ)
    (hflags : c.flags ≤ 1) :
    (c.flags.testBit 0 = false →
      (_set_duration m parent c d).2.input_duration =
        g_double_to_guint64 (gdouble_mul m (gdouble_of_guint64 m d) c.rate) ∧
      (_set_duration m parent c d).2.rate = c.rate ∧
      (_set_duration m parent c d).1 = parent.set_duration
        { c with
          input_duration :=
            g_double_to_guint64 (gdouble_mul m (gdouble_of_guint64 m d) c.rate) } d ∧
      (0 ≤ c.rate → input_duration_is_exact m d c.rate → (d : ℚ) * c.rate < 2 ^ 64 →
        (_set_duration m parent c d).2.input_duration = ⌊(d : ℚ) * c.rate⌋₊)) ∧
    (c.flags.testBit 0 = true →
      (_set_duration m parent c d).2.input_duration = c.input_duration) := by
  have h01 : c.flags = 0 ∨ c.flags = 1 := by omega
  rcases h01 with h0 | h1
  · refine ⟨fun _ => ?_, fun hb => ?_⟩
    · have hin : (_set_duration m parent c d).2.input_duration =
          g_double_to_guint64 (gdouble_mul m (gdouble_of_guint64 m d) c.rate) := by
        simp [_set_duration, FLAG_IS_SET, h0, GES_SOURCE_CLIP_IS_SPEEDING]
      refine ⟨hin, ?_, ?_, fun hr hex hfit => ?_⟩
      · simp [_set_duration, FLAG_IS_SET, h0, GES_SOURCE_CLIP_IS_SPEEDING]
      · simp [_set_duration, FLAG_IS_SET, h0, GES_SOURCE_CLIP_IS_SPEEDING]
      · rw [hin]
        exact new_input_duration_exact hr hex hfit
    · rw [h0] at hb
      simp at hb
  · refine ⟨fun hb => ?_, fun _ => ?_⟩
    · rw [h1] at hb
      simp at hb
    · simp [_set_duration, FLAG_IS_SET, h1, GES_SOURCE_CLIP_IS_SPEEDING]

/-- The example of C4, in the arithmetic of the code: a duration of 5 set at rate
2.0 gives the input duration 10. -/
theorem set_duration_input_duration_witness :
    (_set_duration GDoubleModel.ieee754 accepting_parent stale_clip 5).2.input_duration = 10 := by
  have h := ((set_duration_input_duration GDoubleModel.ieee754 accepting_parent stale_clip 5
    (by simp [stale_clip])).1 (by simp [stale_clip])).2.2.2 (by norm_num [stale_clip])
    (input_duration_is_exact_of_natCast _ (k := 10) (by norm_num) (by norm_num)
      (by norm_num [stale_clip])) (by norm_num [stale_clip])
  rw [h]
  norm_num [stale_clip]

/-- C5: the in-point method `_set_inpoint`, at a positive current rate, sets the
max-duration to `(asset_duration - i) / rate + i` converted to a `guint64`, in
the `gdouble` operations of the code, at the in-point being set and the current
rate (the exact value truncated toward zero when `i` does not exceed the asset
duration, the operations are exact and the value fits 64 bits); the rate and
the input duration stay, and without a `duration` property of the asset the
max-duration stays. -/
theorem set_inpoint_max_duration (m : GDoubleModel) (parent : ParentClass) (c : Clip) (i : ℕ)
    (hr : 0 < c.rate) :
    (∀ s a, c.asset = some s → s.duration = some a →
      (_set_inpoint m parent c i).2.maxduration = g_double_to_guint64
        (gdouble_add m (gdouble_div m (gdouble_of_guint64 m (guint64_sub a i)) c.rate)
          (gdouble_of_guint64 m i)) ∧
      (i ≤ a → a < 2 ^ 64 → max_duration_is_exact m a i c.rate →
        ((a : ℚ) - (i : ℚ)) / c.rate + (i : ℚ) < 2 ^ 64 →
        (_set_inpoint m parent c i).2.maxduration =
          ⌊((a : ℚ) - (i : ℚ)) / c.rate + (i : ℚ)⌋₊)) ∧
    ((c.asset = none ∨ ∃ s, c.asset = some s ∧ s.duration = none) →
      (_set_inpoint m parent c i).2.maxduration = c.maxduration) ∧
    (_set_inpoint m parent c i).2.rate = c.rate ∧
    (_set_inpoint m parent c i).2.input_duration = c.input_duration := by
  refine ⟨?_, ?_, ?_, ?_⟩
  · intro s a hs ha
    have hm : (_set_inpoint m parent c i).2.maxduration = new_max_duration m a i c.rate := by
      simp [_set_inpoint, asset_duration_pspec_some hs ha,
        ges_timeline_element_set_max_duration, new_max_duration, max_duration_value]
    refine ⟨hm, fun hia ha64 hex hfit => ?_⟩
    rw [hm]
    exact new_max_duration_exact hr hia ha64 hex hfit
  · intro hnone
    simp [_set_inpoint, asset_duration_pspec_none hnone]
  · unfold _set_inpoint
    cases asset_duration_pspec c <;> simp [ges_timeline_element_set_max_duration]
  · unfold _set_inpoint
    cases asset_duration_pspec c <;> simp [ges_timeline_element_set_max_duration]

/-- An in-point of 12 set at rate 2.0 on an asset of duration 1000 gives the
max-duration 506, in the arithmetic of the code. -/
theorem set_inpoint_max_duration_witness :
    (_set_inpoint GDoubleModel.ieee754 accepting_parent stale_clip 12).2.maxduration = 506 := by
  have h := ((set_inpoint_max_duration GDoubleModel.ieee754 accepting_parent stale_clip 12
    (by norm_num [stale_clip])).1 { duration := some 1000 } 1000 rfl rfl).2
    (by norm_num) (by norm_num)
    (max_duration_is_exact_of_natCast _ (k := 494) (by norm_num) (by norm_num)
      (by norm_num) (by norm_num [stale_clip]))
    (by norm_num [stale_clip])
  rw [h]
  norm_num [stale_clip]

/-- C6, as amended: after a rate change to `r`, different from the current rate,
on a clip with children whose calls return, every source child whose method
succeeds (an audio source that has its pitch element) has `r` itself as the
`media-duration-factor` of its nle object; a source child whose method fails (no
pitch element, or no method in the class) and a child that is no source are left
as they were. -/
theorem set_rate_children_media_duration_factor (m : GDoubleModel) (parent : ParentClass)
    (fuel : ℕ) (c : Clip)
    (r : ℚ) (hch : c.children ≠ []) (hret : c.children.all set_rate_returns = true)
    (hne : c.rate ≠ r) :
    ∃ c1, ges_source_clip_set_rate m parent (fuel + 1) c r = some c1 ∧
      List.Forall₂ (fun e e1 =>
        (e.is_source = false → e1 = e) ∧
        (e.is_source = true →
          e.klass_set_rate = SetRateVMethod.ges_audio_source_set_rate → e.pitch ≠ none →
          e1.nleobject.media_duration_factor = r) ∧
        (e.is_source = true →
          (e.klass_set_rate = SetRateVMethod.null ∨ e.pitch = none) → e1 = e))
        c.children c1.children := by
  obtain ⟨c1, h1, _, hc, _⟩ := set_rate_with_children m parent fuel c r hne hch hret
  refine ⟨c1, h1, ?_⟩
  rw [hc, List.forall₂_map_right_iff, List.forall₂_same]
  intro e _
  have h := child_after_set_rate_spec r e
  exact ⟨h.1, fun hs hk hp => (h.2.1 hs hk hp).1, h.2.2⟩

/-- C6 fails as stated: an audio source without pitch element keeps the factor 1.0
after a change to rate 2.0, and a change to the rate the clip already has leaves
a source child at the factor 1.0. -/
theorem set_rate_children_counterexample :
    (∃ c1, ges_source_clip_set_rate GDoubleModel.ieee754 accepting_parent 1 pitchless_clip 2
        = some c1 ∧
      ∃ e ∈ c1.children, e.is_source = true ∧ e.nleobject.media_duration_factor ≠ 2) ∧
    (∃ c1, ges_source_clip_set_rate GDoubleModel.ieee754 accepting_parent 1 stale_clip 2 = some c1 ∧
      ∃ e ∈ c1.children, e.is_source = true ∧ e.nleobject.media_duration_factor ≠ 2) := by
  constructor
  · obtain ⟨c1, h1, _, hc, _⟩ :=
      set_rate_with_children GDoubleModel.ieee754 accepting_parent 0 pitchless_clip 2
        (by norm_num [pitchless_clip]) (by simp [pitchless_clip])
        (by simp [pitchless_clip, set_rate_returns, audio_child_without_pitch])
    refine ⟨c1, h1, audio_child_without_pitch, ?_, rfl, ?_⟩
    · rw [hc]
      simp [pitchless_clip, child_after_set_rate, audio_child_without_pitch]
    · norm_num [audio_child_without_pitch]
  · refine ⟨stale_clip, by simp [ges_source_clip_set_rate, stale_clip], audio_child, ?_, rfl, ?_⟩
    · simp [stale_clip]
    · norm_num [audio_child]

/-- The audio child of the example clip has the factor 2.0 after a change to rate
2.0. -/
theorem set_rate_children_media_duration_factor_witness :
    ∃ c1, ges_source_clip_set_rate GDoubleModel.ieee754 accepting_parent 1 example_clip 2
        = some c1 ∧
      ∀ e1 ∈ c1.children, e1.nleobject.media_duration_factor = 2 := by
  obtain ⟨c1, h1, h2⟩ :=
    set_rate_children_media_duration_factor GDoubleModel.ieee754 accepting_parent 0
      example_clip 2
      (by simp [example_clip]) (by simp [example_clip, set_rate_returns, audio_child])
      (by norm_num [example_clip])
  refine ⟨c1, h1, ?_⟩
  have hex : example_clip.children = [audio_child] := rfl
  rw [hex, List.forall₂_cons_left_iff] at h2
  obtain ⟨e1, l, he, hl, heq⟩ := h2
  rw [List.forall₂_nil_left_iff] at hl
  subst hl
  rw [heq]
  intro e he1
  rw [List.mem_singleton] at he1
  subst he1
  exact he.2.1 rfl rfl (by simp [audio_child])

/-- C7: a rate change to the current rate does nothing: the call returns the
clip as it was, children and notification log included, whatever the fuel. -/
theorem set_rate_same_rate_noop (m : GDoubleModel) (parent : ParentClass) (fuel : ℕ) (c : Clip) :
    ges_source_clip_set_rate m parent fuel c c.rate = some c := by
  simp [ges_source_clip_set_rate]

/-- C8: a rate change is idempotent: on every clip whose child calls return, and
for every rate, the second application of the same rate returns the state that
the first one returned. -/
theorem set_rate_idempotent (m : GDoubleModel) (parent : ParentClass) (fuel : ℕ) (c : Clip) (r : ℚ)
    (hret : c.children.all set_rate_returns = true) :
    ∃ c1, ges_source_clip_set_rate m parent (fuel + 1) c r = some c1 ∧
      ges_source_clip_set_rate m parent (fuel + 1) c1 r = some c1 := by
  by_cases hne : c.rate ≠ r
  · by_cases hch : c.children = []
    · refine ⟨{ c with rate := r }, by simp [ges_source_clip_set_rate, hne, hch], ?_⟩
      simp [ges_source_clip_set_rate]
    · obtain ⟨c1, h1, hrate, _⟩ := set_rate_with_children m parent fuel c r hne hch hret
      refine ⟨c1, h1, ?_⟩
      simp [ges_source_clip_set_rate, hrate]
  · refine ⟨c, by simp [ges_source_clip_set_rate, hne], by simp [ges_source_clip_set_rate, hne]⟩

/-- The second change of the example clip to rate 2.0 returns the state of the
first. -/
theorem set_rate_idempotent_witness :
    ∃ c1, ges_source_clip_set_rate GDoubleModel.ieee754 accepting_parent 1 example_clip 2
        = some c1 ∧
      ges_source_clip_set_rate GDoubleModel.ieee754 accepting_parent 1 c1 2 = some c1 :=
  set_rate_idempotent GDoubleModel.ieee754 accepting_parent 0 example_clip 2
    (by simp [example_clip, set_rate_returns, audio_child])

/-- C9: after a rate change to `r` the getter returns `r`, on a clip with
children (whose calls return) and on a clip without; a clip that has just been
initialised returns the default rate 1.0. -/
theorem get_rate_after_set_rate (m : GDoubleModel) (parent : ParentClass) (fuel : ℕ)
    (c self : Clip) (r : ℚ)
    (hret : c.children.all set_rate_returns = true) :
    (∃ c1, ges_source_clip_set_rate m parent (fuel + 1) c r = some c1 ∧
      ges_source_clip_get_rate c1 = r) ∧
    ges_source_clip_get_rate (ges_source_clip_init self) = 1 := by
  refine ⟨?_, rfl⟩
  by_cases hne : c.rate ≠ r
  · by_cases hch : c.children = []
    · exact ⟨{ c with rate := r }, by simp [ges_source_clip_set_rate, hne, hch], rfl⟩
    · obtain ⟨c1, h1, hrate, _⟩ := set_rate_with_children m parent fuel c r hne hch hret
      exact ⟨c1, h1, hrate⟩
  · refine ⟨c, by simp [ges_source_clip_set_rate, hne], ?_⟩
    simpa [ges_source_clip_get_rate] using hne

/-- The example clip reads rate 2.0 after a change to 2.0, and 1.0 once initialised. -/
theorem get_rate_after_set_rate_witness :
    (∃ c1, ges_source_clip_set_rate GDoubleModel.ieee754 accepting_parent 1 example_clip 2
        = some c1 ∧
      ges_source_clip_get_rate c1 = 2) ∧
    ges_source_clip_get_rate (ges_source_clip_init example_clip) = 1 :=
  get_rate_after_set_rate GDoubleModel.ieee754 accepting_parent 0 example_clip example_clip 2
    (by simp [example_clip, set_rate_returns, audio_child])

/-- C10, as amended: on a clip with children whose duration `d` was set at rate
1.0 outside a rate change, with `d` a `gdouble` value (as every natural number
up to `2 ^ 53` is), a change to any rate `r > 0` followed by a change to 1.0
leaves the duration at `d`; when moreover `r` differs from 1.0, the asset has a
`duration` property, the in-point does not exceed it and the operations on the
asset duration and the in-point are exact at rate 1.0 (as they are up to
`2 ^ 53`), the max-duration is the asset duration. -/
theorem set_rate_round_trip (m : GDoubleModel) (parent : ParentClass) (fuel : ℕ) (c0 : Clip)
    (d : ℕ) (r : ℚ) (hacc : ∀ x v, parent.set_duration x v = true)
    (hrate : c0.rate = 1) (hflags : c0.flags = 0)
    (hch : c0.children ≠ []) (hret : c0.children.all set_rate_returns = true)
    (hd : d < 2 ^ 64) (hdx : gdouble_round m (d : ℚ) = (d : ℚ)) (hr : 0 < r) :
    ∃ c1 c2,
      ges_source_clip_set_rate m parent (fuel + 1)
        (ges_timeline_element_set_duration m parent c0 d) r = some c1 ∧
      ges_source_clip_set_rate m parent (fuel + 1) c1 1 = some c2 ∧
      c2.duration = d ∧
      (r ≠ 1 → ∀ s a, c0.asset = some s → s.duration = some a → c0.inpoint ≤ a →
        a < 2 ^ 64 → max_duration_is_exact m a c0.inpoint 1 → c2.maxduration = a) := by
  obtain ⟨e1, e2, e3, e4, e5, e6, e7, _⟩ := set_duration_at_rest m parent c0 d hacc hflags
  generalize ges_timeline_element_set_duration m parent c0 d = c at e1 e2 e3 e4 e5 e6 e7 ⊢
  have hin : c.input_duration = d := by
    rw [e2, hrate]
    unfold new_input_duration input_duration_value gdouble_mul gdouble_of_guint64
    rw [hdx, mul_one, hdx, g_double_to_guint64_natCast]
    exact Nat.mod_eq_of_lt hd
  by_cases hr1 : r = 1
  · subst hr1
    have hc : c.rate = 1 := by rw [e3, hrate]
    refine ⟨c, c, ?_, ?_, e1, fun h => absurd rfl h⟩
    · simp [ges_source_clip_set_rate, hc]
    · simp [ges_source_clip_set_rate, hc]
  · have hne : c.rate ≠ r := by
      rw [e3, hrate]
      exact fun h => hr1 h.symm
    have hchc : c.children ≠ [] := by rw [e5]; exact hch
    have hretc : c.children.all set_rate_returns = true := by rw [e5]; exact hret
    obtain ⟨c1, h1, g1, g2, _, _, g5, _, g7, g8, _⟩ :=
      set_rate_with_children m parent fuel c r hne hchc hretc
    have hne1 : c1.rate ≠ 1 := by rw [g1]; exact hr1
    have hch1 : c1.children ≠ [] := by
      rw [g2]
      simpa using hchc
    have hret1 : c1.children.all set_rate_returns = true := by
      rw [g2]
      exact set_rate_returns_child_after r c.children hretc
    obtain ⟨c2, h2, _, _, k3, _, _, _, _, _, k9⟩ :=
      set_rate_with_children m parent fuel c1 1 hne1 hch1 hret1
    have hin1 : c1.input_duration = d := by
      rw [(g8 (by rw [e4]; exact Nat.zero_le 1)).1, hin]
    refine ⟨c1, c2, h1, h2, ?_, ?_⟩
    · rw [k9 (fun x => hacc x _), hin1]
      unfold new_duration duration_value gdouble_div gdouble_of_guint64
      rw [hdx, div_one, hdx, g_double_to_guint64_natCast]
      exact Nat.mod_eq_of_lt hd
    · intro _ s a hs ha hia ha64 hex
      have hs1 : c1.asset = some s := by rw [g7, e6]; exact hs
      rw [asset_duration_pspec_some hs1 ha] at k3
      simp only at k3
      rw [k3, g5, e7]
      have hfit : ((a : ℚ) - (c0.inpoint : ℚ)) / 1 + (c0.inpoint : ℚ) < 2 ^ 64 := by
        rw [div_one, sub_add_cancel]
        exact_mod_cast ha64
      rw [new_max_duration_exact one_pos hia ha64 hex hfit, div_one, sub_add_cancel]
      exact Nat.floor_natCast a

/-- C10 fails as stated.  At rate 1.0 both changes do nothing, and a max-duration
of 5 stays where the asset duration is 1000.  In the arithmetic of the code a
duration of `2 ^ 53 + 1` set at rate 1.0 on an asset of that duration comes back
from the rates 2.0 and 1.0 as `2 ^ 53`, and so does the max-duration: the
conversion to a `gdouble` rounds the odd value. -/
theorem set_rate_round_trip_counterexample :
    (short_max_clip.rate = 1 ∧ short_max_clip.flags = 0 ∧ short_max_clip.children ≠ [] ∧
      short_max_clip.asset = some { duration := some 1000 } ∧ short_max_clip.inpoint ≤ 1000 ∧
      ∃ c2,
        ges_source_clip_set_rate GDoubleModel.ieee754 accepting_parent 1
          (ges_timeline_element_set_duration GDoubleModel.ieee754 accepting_parent
            short_max_clip 10) 1 = some c2 ∧
        ges_source_clip_set_rate GDoubleModel.ieee754 accepting_parent 1 c2 1 = some c2 ∧
        c2.duration = 10 ∧ c2.maxduration = 5 ∧ c2.maxduration ≠ 1000) ∧
    (long_clip.rate = 1 ∧ long_clip.flags = 0 ∧ long_clip.children ≠ [] ∧
      long_clip.asset = some { duration := some (2 ^ 53 + 1) } ∧
      long_clip.inpoint ≤ 2 ^ 53 + 1 ∧
      ∃ c1 c2,
        ges_source_clip_set_rate GDoubleModel.ieee754 accepting_parent 1
          (ges_timeline_element_set_duration GDoubleModel.ieee754 accepting_parent
            long_clip (2 ^ 53 + 1)) 2 = some c1 ∧
        ges_source_clip_set_rate GDoubleModel.ieee754 accepting_parent 1 c1 1 = some c2 ∧
        c2.duration = 2 ^ 53 ∧ c2.duration ≠ 2 ^ 53 + 1 ∧
        c2.maxduration = 2 ^ 53 ∧ c2.maxduration ≠ 2 ^ 53 + 1) := by
  constructor
  · obtain ⟨e1, _, e3, _, _, _, _, e8⟩ :=
      set_duration_at_rest GDoubleModel.ieee754 accepting_parent short_max_clip 10
        (fun _ _ => rfl) rfl
    have hrate : (ges_timeline_element_set_duration GDoubleModel.ieee754 accepting_parent
        short_max_clip 10).rate = 1 := by
      rw [e3]; rfl
    have hmax : (ges_timeline_element_set_duration GDoubleModel.ieee754 accepting_parent
        short_max_clip 10).maxduration = 5 := by
      rw [e8]; rfl
    refine ⟨rfl, rfl, by simp [short_max_clip], rfl, by simp [short_max_clip], _, ?_, ?_, e1,
      hmax, ?_⟩
    · simp [ges_source_clip_set_rate, hrate]
    · simp [ges_source_clip_set_rate, hrate]
    · rw [hmax]; norm_num
  · obtain ⟨_, e2, e3, e4, e5, e6, e7, _⟩ :=
      set_duration_at_rest GDoubleModel.ieee754 accepting_parent long_clip (2 ^ 53 + 1)
        (fun _ _ => rfl) rfl
    generalize ges_timeline_element_set_duration GDoubleModel.ieee754 accepting_parent
      long_clip (2 ^ 53 + 1) = c at e2 e3 e4 e5 e6 e7 ⊢
    have hin : c.input_duration = 2 ^ 53 := by
      rw [e2]
      exact new_input_duration_two_pow_53_add_one
    have hretc : c.children.all set_rate_returns = true := by
      rw [e5]
      simp [long_clip, set_rate_returns, audio_child]
    obtain ⟨c1, h1, g1, g2, _, _, g5, _, g7, g8, _⟩ :=
      set_rate_with_children GDoubleModel.ieee754 accepting_parent 0 c 2
        (by rw [e3]; norm_num [long_clip]) (by rw [e5]; simp [long_clip]) hretc
    obtain ⟨c2, h2, _, _, k3, _, _, _, _, _, k9⟩ :=
      set_rate_with_children GDoubleModel.ieee754 accepting_parent 0 c1 1
        (by rw [g1]; norm_num) (by rw [g2, e5]; simp [long_clip])
        (by rw [g2]; exact set_rate_returns_child_after 2 c.children hretc)
    have hin1 : c1.input_duration = 2 ^ 53 := by
      rw [(g8 (by rw [e4]; exact Nat.zero_le 1)).1, hin]
    have hd2 : c2.duration = 2 ^ 53 := by
      rw [k9 (fun _ => rfl), hin1]
      exact new_duration_natCast _ (le_refl _) (le_refl _) (by norm_num)
    have hm2 : c2.maxduration = 2 ^ 53 := by
      have hp : asset_duration_pspec c1 = some (2 ^ 53 + 1) := by
        simp [asset_duration_pspec, g7, e6, long_clip]
      rw [hp] at k3
      simp only at k3
      rw [k3, g5, e7]
      exact new_max_duration_two_pow_53_add_one
    refine ⟨rfl, rfl, by simp [long_clip], rfl, by simp [long_clip], c1, c2, h1, h2, hd2, ?_,
      hm2, ?_⟩
    · rw [hd2]; norm_num
    · rw [hm2]; norm_num

/-- The values of `test_group_ungroup_filesource_rate`, in the arithmetic of the
code: duration 10 at rate 1.0, then rate 2.0 and rate 1.0 again give the
duration 10 and the max-duration of one second. -/
theorem set_rate_round_trip_witness :
    ∃ c1 c2,
      ges_source_clip_set_rate GDoubleModel.ieee754 accepting_parent 1
        (ges_timeline_element_set_duration GDoubleModel.ieee754 accepting_parent
          filesource_clip 10) 2 = some c1 ∧
      ges_source_clip_set_rate GDoubleModel.ieee754 accepting_parent 1 c1 1 = some c2 ∧
      c2.duration = 10 ∧ c2.maxduration = 1000000000 := by
  obtain ⟨c1, c2, h1, h2, h3, h4⟩ :=
    set_rate_round_trip GDoubleModel.ieee754 accepting_parent 0 filesource_clip 10 2
      (fun _ _ => rfl) rfl rfl (by simp [filesource_clip])
      (by simp [filesource_clip, set_rate_returns, audio_child]) (by norm_num)
      (gdouble_round_natCast _ 10 (by norm_num)) (by norm_num)
  exact ⟨c1, c2, h1, h2, h3,
    h4 (by norm_num) { duration := some 1000000000 } 1000000000 rfl rfl
      (by simp [filesource_clip]) (by norm_num)
      (max_duration_is_exact_of_natCast _ (k := 1000000000) (by simp [filesource_clip])
        (by norm_num) (by norm_num [filesource_clip]) (by norm_num [filesource_clip]))⟩

/-! ## Lemmas on edits of the rate and on attachment -/

theorem set_rate_returns_with_rate (m : GDoubleModel) (parent : ParentClass) (fuel : ℕ) (c : Clip)
    (r : ℚ)
    (hret : c.children.all set_rate_returns = true) :
    ∃ c1, ges_source_clip_set_rate m parent (fuel + 1) c r = some c1 ∧ c1.rate = r ∧
      c1.children.all set_rate_returns = true := by
  by_cases hne : c.rate ≠ r
  · by_cases hch : c.children = []
    · exact ⟨{ c with rate := r }, by simp [ges_source_clip_set_rate, hne, hch], rfl, hret⟩
    · obtain ⟨c1, h1, hrate, hc, _⟩ := set_rate_with_children m parent fuel c r hne hch hret
      refine ⟨c1, h1, hrate, ?_⟩
      rw [hc]
      exact set_rate_returns_child_after r c.children hret
  · refine ⟨c, by simp [ges_source_clip_set_rate, hne], ?_, hret⟩
    simpa using hne

theorem apply_rate_edit_positive (m : GDoubleModel) (parent : ParentClass) (fuel : ℕ) (c : Clip)
    (e : RateEdit)
    (hret : c.children.all set_rate_returns = true) (hc : 0 < c.rate)
    (he : rate_edit_positive e) :
    ∃ c1, apply_rate_edit m parent (fuel + 1) c e = some c1 ∧ 0 < c1.rate ∧
      c1.children.all set_rate_returns = true := by
  cases e with
  | call r =>
    obtain ⟨c1, h1, hrate, hr1⟩ := set_rate_returns_with_rate m parent fuel c r hret
    exact ⟨c1, h1, by rw [hrate]; exact he, hr1⟩
  | property_write v =>
    by_cases hv : rate_pspec_minimum ≤ v ∧ v ≤ rate_pspec_maximum
    · obtain ⟨c1, h1, hrate, hr1⟩ := set_rate_returns_with_rate m parent fuel c v hret
      refine ⟨c1, ?_, ?_, hr1⟩
      · simp only [apply_rate_edit, g_object_set_rate, if_pos hv, ges_source_clip_set_property,
          g_value_get_double]
        exact h1
      · rw [hrate]
        have h0 : (0 : ℚ) ≤ v := hv.1
        exact lt_of_le_of_ne h0 (fun h => he h.symm)
    · exact ⟨c, by simp only [apply_rate_edit, g_object_set_rate, if_neg hv], hc, hret⟩

theorem apply_rate_edits_positive (m : GDoubleModel) (parent : ParentClass) (fuel : ℕ)
    (edits : List RateEdit) :
    ∀ c : Clip, c.children.all set_rate_returns = true → 0 < c.rate →
      (∀ e ∈ edits, rate_edit_positive e) →
      ∃ c1, apply_rate_edits m parent (fuel + 1) c edits = some c1 ∧ 0 < c1.rate := by
  induction edits with
  | nil =>
    intro c _ hc _
    exact ⟨c, rfl, hc⟩
  | cons e es ih =>
    intro c hret hc hall
    obtain ⟨c1, h1, hc1, hret1⟩ :=
      apply_rate_edit_positive m parent fuel c e hret hc (hall e (List.mem_cons_self e es))
    obtain ⟨c2, h2, hc2⟩ := ih c1 hret1 hc1 (fun x hx => hall x (List.mem_cons_of_mem e hx))
    exact ⟨c2, by simp only [apply_rate_edits, h1]; exact h2, hc2⟩

theorem attach_children_spec (m : GDoubleModel) (parent : ParentClass) (c : Clip)
    (els : List TrackElement) :
    (attach_children m parent c els).rate = c.rate ∧
    (attach_children m parent c els).children = els.map (fun e =>
      if e.is_source then
        { e with nleobject := { e.nleobject with media_duration_factor := c.rate } }
      else e) ∧
    (c.flags ≤ 1 → (attach_children m parent c els).input_duration = c.input_duration) ∧
    ((∀ x, parent.set_duration x (new_duration m c.input_duration c.rate) = true) →
      (attach_children m parent c els).duration =
        new_duration m c.input_duration c.rate) := by
  unfold attach_children
  simp only
  generalize hch : els.map (fun e =>
      if e.is_source then
        { e with nleobject := { e.nleobject with media_duration_factor := c.rate } }
      else e) = children
  have hasset : asset_duration_pspec { c with children := children } = asset_duration_pspec c :=
    rfl
  simp only [hasset, new_max_duration_eq, new_duration_eq]
  generalize hc2 :
    (match asset_duration_pspec c with
      | some asset_duration =>
        ges_timeline_element_set_max_duration { c with children := children }
          (new_max_duration m asset_duration c.inpoint c.rate)
      | none => { c with children := children }) = c2
  have h2 : c2.children = children ∧ c2.rate = c.rate ∧
      c2.input_duration = c.input_duration ∧ c2.flags = c.flags := by
    subst hc2
    cases asset_duration_pspec c <;> simp [ges_timeline_element_set_max_duration]
  obtain ⟨h2c, h2r, h2d, h2f⟩ := h2
  have hf := set_duration0_frame m parent (SET_FLAG c2 GES_SOURCE_CLIP_IS_SPEEDING)
    (new_duration m c2.input_duration c2.rate)
  have hd := set_duration0_duration m parent (SET_FLAG c2 GES_SOURCE_CLIP_IS_SPEEDING)
    (new_duration m c2.input_duration c2.rate)
  have hi := set_duration_hook_input m parent (SET_FLAG c2 GES_SOURCE_CLIP_IS_SPEEDING)
    (new_duration m c2.input_duration c2.rate)
  obtain ⟨f1, f2, _, _, _, _, _, _, f9⟩ := hf
  refine ⟨?_, ?_, ?_, ?_⟩
  · simp only [UNSET_FLAG]; rw [f1]; exact h2r
  · simp only [UNSET_FLAG]; rw [f2]; exact h2c
  · intro hfl
    have hset : (SET_FLAG c2 GES_SOURCE_CLIP_IS_SPEEDING).flags = GES_SOURCE_CLIP_IS_SPEEDING := by
      simp only [SET_FLAG, h2f]
      exact flags_speeding_of_le_one hfl
    simp only [UNSET_FLAG]
    rw [f9, hi]
    simp only [FLAG_IS_SET, hset, beq_self_eq_true, if_true]
    simpa [SET_FLAG] using h2d
  · intro hacc
    simp only [UNSET_FLAG]
    rw [hd, h2d, h2r]
    simp only [_set_duration, hacc, if_true]

/-! ## Statements of the specification, continued -/

/-- C11: a rate change on a clip without children only stores the rate: the call
returns, whatever the fuel, the clip with the new rate and every other field,
the notification log included, as it was. -/
theorem set_rate_without_children (m : GDoubleModel) (parent : ParentClass) (fuel : ℕ) (c : Clip)
    (r : ℚ)
    (hch : c.children = []) :
    ges_source_clip_set_rate m parent fuel c r = some { c with rate := r } := by
  by_cases hne : c.rate ≠ r
  · simp [ges_source_clip_set_rate, hne, hch]
  · have hr : c.rate = r := by simpa using hne
    subst hr
    simp [ges_source_clip_set_rate]

/-- The clip without children at rate 2.0: the duration 50, the max-duration and
the input duration 50 are those of before. -/
theorem set_rate_without_children_witness :
    ges_source_clip_set_rate GDoubleModel.ieee754 accepting_parent 0 childless_clip 2 =
      some { childless_clip with rate := 2 } :=
  set_rate_without_children GDoubleModel.ieee754 accepting_parent 0 childless_clip 2 rfl

/-- C12: a rate set on a clip without children is stored, and the attachment of
children applies it: every child that is a source has the stored rate as
`media-duration-factor`, and the duration is `input_duration / rate` converted
to a `guint64`, the quotient being the `gdouble` quotient of the arithmetic
(the exact quotient truncated toward zero when the operations are exact and the
quotient fits 64 bits; the parent class accepting the duration; the flags word
holding no bit but the declared one). -/
theorem deferred_rate_applied_on_attach (m : GDoubleModel) (parent : ParentClass) (fuel : ℕ)
    (c : Clip) (r : ℚ) (els : List TrackElement) (hch : c.children = [])
    (hflags : c.flags ≤ 1) (hr : 0 < r)
    (hacc : ∀ x, parent.set_duration x
      (g_double_to_guint64 (gdouble_div m (gdouble_of_guint64 m c.input_duration) r)) = true) :
    ∃ c1, ges_source_clip_set_rate m parent fuel c r = some c1 ∧
      ges_source_clip_get_rate c1 = r ∧ c1.children = [] ∧
      (∀ e ∈ (attach_children m parent c1 els).children, e.is_source = true →
        e.nleobject.media_duration_factor = r) ∧
      (attach_children m parent c1 els).children.length = els.length ∧
      (attach_children m parent c1 els).input_duration = c.input_duration ∧
      (attach_children m parent c1 els).duration =
        g_double_to_guint64 (gdouble_div m (gdouble_of_guint64 m c.input_duration) r) ∧
      (duration_is_exact m c.input_duration r → (c.input_duration : ℚ) / r < 2 ^ 64 →
        (attach_children m parent c1 els).duration = ⌊(c.input_duration : ℚ) / r⌋₊) := by
  have hset : ges_source_clip_set_rate m parent fuel c r = some { c with rate := r } := by
    by_cases hne : c.rate ≠ r
    · simp [ges_source_clip_set_rate, hne, hch]
    · have hr : c.rate = r := by simpa using hne
      subst hr
      simp [ges_source_clip_set_rate]
  obtain ⟨_, a2, a3, a4⟩ := attach_children_spec m parent { c with rate := r } els
  have hdur := a4 hacc
  refine ⟨_, hset, rfl, hch, ?_, ?_, a3 hflags, hdur, fun hex hlt => ?_⟩
  · intro e he hs
    rw [a2] at he
    obtain ⟨e0, _, rfl⟩ := List.mem_map.mp he
    by_cases h0 : e0.is_source = true
    · simp [h0]
    · simp [h0] at hs
  · rw [a2, List.length_map]
  · rw [hdur]
    exact new_duration_exact hr hex hlt

/-- The clip without children, set to rate 2.0 and then given an audio child, in
the arithmetic of the code: the child has the factor 2.0 and the duration is
25. -/
theorem deferred_rate_applied_on_attach_witness :
    ∃ c1, ges_source_clip_set_rate GDoubleModel.ieee754 accepting_parent 0 childless_clip 2
        = some c1 ∧
      (∀ e ∈ (attach_children GDoubleModel.ieee754 accepting_parent c1 [audio_child]).children,
        e.is_source = true → e.nleobject.media_duration_factor = 2) ∧
      (attach_children GDoubleModel.ieee754 accepting_parent c1 [audio_child]).duration = 25 := by
  obtain ⟨c1, h1, _, _, h4, _, _, _, h8⟩ :=
    deferred_rate_applied_on_attach GDoubleModel.ieee754 accepting_parent 0
      childless_clip 2 [audio_child] rfl (by simp [childless_clip]) (by norm_num) (fun _ => rfl)
  refine ⟨c1, h1, h4, ?_⟩
  rw [h8 (duration_is_exact_of_natCast _ (k := 25) (by norm_num [childless_clip]) (by norm_num)
    (by norm_num [childless_clip])) (by norm_num [childless_clip])]
  norm_num [childless_clip]

/-- C13, as amended: from a clip that has just been initialised, a sequence of
calls of `ges_source_clip_set_rate` with positive rates and of writes of the
`rate` property with values other than zero returns a clip whose rate is
positive; a write of a negative value is dropped by the range of the property. -/
theorem rate_stays_positive (m : GDoubleModel) (parent : ParentClass) (fuel : ℕ) (self : Clip)
    (edits : List RateEdit) (hret : self.children.all set_rate_returns = true)
    (hpos : ∀ e ∈ edits, rate_edit_positive e) :
    ∃ c, apply_rate_edits m parent (fuel + 1) (ges_source_clip_init self) edits = some c ∧
      0 < ges_source_clip_get_rate c :=
  apply_rate_edits_positive m parent fuel edits (ges_source_clip_init self) hret
    (by simp [ges_source_clip_init, DEFAULT_CLIP_RATE]) hpos

/-- C13 fails as stated: on a new clip a write of 0 to the `rate` property, which
the declared range admits, stores the rate 0, and a call with the rate -1 stores
-1. -/
theorem rate_stays_positive_counterexample :
    (∃ c, apply_rate_edits GDoubleModel.ieee754 accepting_parent 1
        (ges_source_clip_init childless_clip) [RateEdit.property_write 0] = some c ∧
      ges_source_clip_get_rate c ≤ 0) ∧
    (∃ c, apply_rate_edits GDoubleModel.ieee754 accepting_parent 1
        (ges_source_clip_init childless_clip) [RateEdit.call (-1)] = some c ∧
      ges_source_clip_get_rate c ≤ 0) := by
  constructor
  · refine ⟨{ ges_source_clip_init childless_clip with rate := 0 }, ?_, le_refl _⟩
    have hrange : rate_pspec_minimum ≤ (0 : ℚ) ∧ (0 : ℚ) ≤ rate_pspec_maximum := by
      constructor
      · exact le_refl _
      · norm_num [rate_pspec_maximum, G_MAXDOUBLE]
    simp only [apply_rate_edits, apply_rate_edit, g_object_set_rate, if_pos hrange,
      ges_source_clip_set_property, g_value_get_double]
    simp [ges_source_clip_set_rate, ges_source_clip_init, DEFAULT_CLIP_RATE, childless_clip]
  · refine ⟨{ ges_source_clip_init childless_clip with rate := -1 }, ?_, by
      norm_num [ges_source_clip_get_rate]⟩
    simp only [apply_rate_edits, apply_rate_edit]
    have h : (ges_source_clip_init childless_clip).rate ≠ -1 := by
      norm_num [ges_source_clip_init, DEFAULT_CLIP_RATE]
    have h2 : (ges_source_clip_init childless_clip).children = [] := rfl
    rw [ges_source_clip_set_rate, if_pos h, if_pos h2]

/-- A new clip set to rate 2.0 by a call, then written -3 (dropped) and 1/2
through the property, has a positive rate. -/
theorem rate_stays_positive_witness :
    ∃ c, apply_rate_edits GDoubleModel.ieee754 accepting_parent 1
        (ges_source_clip_init childless_clip)
        [RateEdit.call 2, RateEdit.property_write (-3), RateEdit.property_write (1 / 2)]
        = some c ∧
      0 < ges_source_clip_get_rate c :=
  rate_stays_positive GDoubleModel.ieee754 accepting_parent 0 childless_clip
    [RateEdit.call 2, RateEdit.property_write (-3), RateEdit.property_write (1 / 2)] rfl (by
      intro e he
      simp only [List.mem_cons, List.mem_singleton, List.not_mem_nil, or_false] at he
      rcases he with h | h | h <;> subst h <;> norm_num [rate_edit_positive])

/-- C14, as amended: `_set_duration` with the current duration of the clip leaves
every field but the input duration as it was; it leaves the whole clip as it was
when the speeding flag is set or when the input duration already is
`duration * rate` converted to a `guint64` (the `gdouble` product of the
arithmetic), and the setter of the timeline element then returns the clip
unchanged; with the flag clear it stores that product as input duration. -/
theorem set_duration_same_value (m : GDoubleModel) (parent : ParentClass) (c : Clip) :
    ((FLAG_IS_SET c GES_SOURCE_CLIP_IS_SPEEDING = true ∨
        c.input_duration =
          g_double_to_guint64 (gdouble_mul m (gdouble_of_guint64 m c.duration) c.rate)) →
      (_set_duration m parent c c.duration).2 = c ∧
      ges_timeline_element_set_duration m parent c c.duration = c) ∧
    (FLAG_IS_SET c GES_SOURCE_CLIP_IS_SPEEDING = false →
      (_set_duration m parent c c.duration).2 =
        { c with
          input_duration :=
            g_double_to_guint64 (gdouble_mul m (gdouble_of_guint64 m c.duration) c.rate) }) := by
  have key : (FLAG_IS_SET c GES_SOURCE_CLIP_IS_SPEEDING = true ∨
        c.input_duration =
          g_double_to_guint64 (gdouble_mul m (gdouble_of_guint64 m c.duration) c.rate)) →
      (_set_duration m parent c c.duration).2 = c := by
    intro h
    by_cases hf : FLAG_IS_SET c GES_SOURCE_CLIP_IS_SPEEDING = true
    · simp [_set_duration, hf]
    · rcases h with h | h
      · exact absurd h hf
      · simp only [_set_duration, hf]
        rw [← h]
        rfl
  refine ⟨fun h => ⟨key h, ?_⟩, fun hf => ?_⟩
  · have hk := key h
    unfold ges_timeline_element_set_duration
    by_cases hb : (_set_duration m parent c c.duration).1 = true
    · simp only [hb, if_true, hk]
    · simp only [hb, hk]
      rfl
  · simp [_set_duration, hf]

/-- C14 fails as stated: on the clip whose input duration was set to 7 while its
duration is 50, `_set_duration` with the duration 50 stores the input duration
50. -/
theorem set_duration_same_value_counterexample :
    desynced_clip.duration = 50 ∧ desynced_clip.input_duration = 7 ∧
    (_set_duration GDoubleModel.ieee754 accepting_parent desynced_clip 50).2.input_duration
      = 50 ∧
    (_set_duration GDoubleModel.ieee754 accepting_parent desynced_clip 50).2 ≠ desynced_clip := by
  have h : (_set_duration GDoubleModel.ieee754 accepting_parent desynced_clip 50).2.input_duration
      = 50 := by
    rw [set_duration_hook_input]
    have hf : FLAG_IS_SET desynced_clip GES_SOURCE_CLIP_IS_SPEEDING = false := by decide
    rw [hf]
    simp only [Bool.false_eq_true, if_false]
    exact new_input_duration_natCast _ (by norm_num) (by norm_num)
      (by norm_num [desynced_clip, ges_source_clip_set_input_duration, childless_clip])
  refine ⟨rfl, rfl, h, fun heq => ?_⟩
  rw [heq] at h
  have h7 : desynced_clip.input_duration = 7 := rfl
  omega

/-- The clip without children, whose input duration 50 is its duration at rate
1.0, is left as it was by a set-duration to 50. -/
theorem set_duration_same_value_witness :
    (_set_duration GDoubleModel.ieee754 accepting_parent childless_clip 50).2 = childless_clip ∧
    ges_timeline_element_set_duration GDoubleModel.ieee754 accepting_parent childless_clip 50
      = childless_clip := by
  have h50 : childless_clip.input_duration =
      g_double_to_guint64 (gdouble_mul GDoubleModel.ieee754
        (gdouble_of_guint64 GDoubleModel.ieee754 childless_clip.duration) childless_clip.rate) := by
    rw [new_input_duration_eq, new_input_duration_natCast _ (k := 50)
      (by norm_num [childless_clip]) (by norm_num) (by norm_num [childless_clip])]
    rfl
  exact (set_duration_same_value GDoubleModel.ieee754 accepting_parent childless_clip).1
    (Or.inr h50)

/-- C15 on the code: with a parent class that rejects the value, `_set_inpoint`
returns FALSE and has replaced the max-duration 1000 by 506, and `_set_duration`
returns FALSE and has replaced the input duration 10 by 14, in the arithmetic of
the code and in the exact one. -/
theorem failed_edit_changes_clip (m : GDoubleModel) :
    (_set_inpoint m rejecting_parent stale_clip 12).1 = false ∧
    stale_clip.maxduration = 1000 ∧
    (_set_inpoint m rejecting_parent stale_clip 12).2.maxduration = 506 ∧
    (_set_duration m rejecting_parent stale_clip 7).1 = false ∧
    stale_clip.input_duration = 10 ∧
    (_set_duration m rejecting_parent stale_clip 7).2.input_duration = 14 := by
  refine ⟨rfl, rfl, ?_, rfl, rfl, ?_⟩
  · have hm : (_set_inpoint m rejecting_parent stale_clip 12).2.maxduration =
        new_max_duration m 1000 12 stale_clip.rate := by
      simp [_set_inpoint, asset_duration_pspec, stale_clip,
        ges_timeline_element_set_max_duration, new_max_duration, max_duration_value]
    rw [hm, new_max_duration_natCast m (k := 494) (by norm_num) (by norm_num) (by norm_num)
      (by norm_num [stale_clip])]
  · rw [set_duration_hook_input]
    have hf : FLAG_IS_SET stale_clip GES_SOURCE_CLIP_IS_SPEEDING = false := by decide
    rw [hf]
    simp only [Bool.false_eq_true, if_false]
    exact new_input_duration_natCast m (by norm_num) (by norm_num) (by norm_num [stale_clip])

/-- C16, as amended: on a clip with children, a rate `r > 0` different from the
current one sets the duration to `input_duration / r` converted to a `guint64`
(the `gdouble` quotient of the arithmetic), which is the duration of before the
call divided by `r` when the input duration equals that duration (a duration
set at rate 1.0), and the max-duration to
`(asset_duration - inpoint) / r + inpoint`, computed the same way, when the
asset has a duration. -/
theorem set_rate_documented_duration (m : GDoubleModel) (parent : ParentClass) (fuel : ℕ)
    (c : Clip) (r : ℚ) (hch : c.children ≠ [])
    (hret : c.children.all set_rate_returns = true) (hr : 0 < r) (hne : c.rate ≠ r)
    (hacc : ∀ x, parent.set_duration x
      (g_double_to_guint64 (gdouble_div m (gdouble_of_guint64 m c.input_duration) r)) = true) :
    ∃ c1, ges_source_clip_set_rate m parent (fuel + 1) c r = some c1 ∧
      c1.duration =
        g_double_to_guint64 (gdouble_div m (gdouble_of_guint64 m c.input_duration) r) ∧
      (c.input_duration = c.duration →
        c1.duration =
          g_double_to_guint64 (gdouble_div m (gdouble_of_guint64 m c.duration) r) ∧
        (duration_is_exact m c.duration r → (c.duration : ℚ) / r < 2 ^ 64 →
          c1.duration = ⌊(c.duration : ℚ) / r⌋₊)) ∧
      (∀ s a, c.asset = some s → s.duration = some a →
        c1.maxduration = g_double_to_guint64
          (gdouble_add m (gdouble_div m (gdouble_of_guint64 m (guint64_sub a c.inpoint)) r)
            (gdouble_of_guint64 m c.inpoint))) := by
  obtain ⟨c1, h1, _, _, hm, _, _, _, _, _, hd⟩ :=
    set_rate_with_children m parent fuel c r hne hch hret
  refine ⟨c1, h1, hd hacc, fun hin => ?_, fun s a hs ha => ?_⟩
  · rw [← hin]
    refine ⟨hd hacc, fun hex hlt => ?_⟩
    rw [hd hacc]
    exact new_duration_exact hr hex hlt
  · rw [asset_duration_pspec_some hs ha] at hm
    exact hm

/-- C16 fails as stated, on the values of `test_filesource_rate`: at rate 2.0 the
duration is 25, and the change to rate 0.5 gives 100, the input duration 50
divided by 0.5, where the duration of before divided by 0.5 is 50. -/
theorem set_rate_documented_duration_counterexample :
    ∃ c1 c2,
      ges_source_clip_set_rate GDoubleModel.ieee754 accepting_parent 1 test_filesource_clip 2
        = some c1 ∧
      c1.duration = 25 ∧
      ges_source_clip_set_rate GDoubleModel.ieee754 accepting_parent 1 c1 (1 / 2) = some c2 ∧
      c2.duration = 100 ∧
      g_double_to_guint64 (gdouble_div GDoubleModel.ieee754
        (gdouble_of_guint64 GDoubleModel.ieee754 c1.duration) (1 / 2)) = 50 ∧
      c2.duration ≠ g_double_to_guint64 (gdouble_div GDoubleModel.ieee754
        (gdouble_of_guint64 GDoubleModel.ieee754 c1.duration) (1 / 2)) := by
  obtain ⟨c1, c2, h1, hd1, _, _, h2, hd2, _, _⟩ := test_filesource_rate_trace
  have h50 : g_double_to_guint64 (gdouble_div GDoubleModel.ieee754
      (gdouble_of_guint64 GDoubleModel.ieee754 c1.duration) (1 / 2)) = 50 := by
    rw [hd1]
    exact new_duration_natCast _ (by norm_num) (by norm_num) (by norm_num)
  refine ⟨c1, c2, h1, hd1, h2, hd2, h50, ?_⟩
  rw [h50, hd2]
  norm_num

/-- The example clip, whose input duration 100 is its duration, at rate 2.0, in
the arithmetic of the code: the duration is 50 and the max-duration 506. -/
theorem set_rate_documented_duration_witness :
    ∃ c1, ges_source_clip_set_rate GDoubleModel.ieee754 accepting_parent 1 example_clip 2
        = some c1 ∧
      c1.duration = 50 ∧ c1.maxduration = 506 := by
  obtain ⟨c1, h1, _, h3, h4⟩ :=
    set_rate_documented_duration GDoubleModel.ieee754 accepting_parent 0 example_clip 2
      (by simp [example_clip]) (by simp [example_clip, set_rate_returns, audio_child])
      (by norm_num) (by norm_num [example_clip]) (fun _ => rfl)
  refine ⟨c1, h1, ?_, ?_⟩
  · rw [(h3 rfl).2 (duration_is_exact_of_natCast _ (k := 50) (by norm_num [example_clip])
      (by norm_num) (by norm_num [example_clip])) (by norm_num [example_clip])]
    norm_num [example_clip]
  · rw [h4 { duration := some 1000 } 1000 rfl rfl]
    exact new_max_duration_natCast _ (k := 494) (by norm_num [example_clip]) (by norm_num)
      (by norm_num [example_clip]) (by norm_num [example_clip])

/-! ## Lemmas on layers and intervals -/

theorem g_list_insert_perm (x : ℕ) : ∀ (l : List ℕ) (n : ℕ), (g_list_insert l x n).Perm
    (x :: l) := by
  intro l
  induction l with
  | nil =>
    intro n
    cases n <;> simp [g_list_insert]
  | cons y l ih =>
    intro n
    cases n with
    | zero => simp [g_list_insert]
    | succ n =>
      simp only [g_list_insert]
      exact ((ih n).cons y).trans (List.Perm.swap x y l)

theorem g_list_insert_erase (x : ℕ) :
    ∀ (l : List ℕ) (n : ℕ), x ∉ l → (g_list_insert l x n).erase x = l := by
  intro l
  induction l with
  | nil =>
    intro n _
    cases n <;> simp [g_list_insert]
  | cons y l ih =>
    intro n hx
    have hne : y ≠ x := fun h => hx (by rw [h]; exact List.mem_cons_self x l)
    have hxl : x ∉ l := fun h => hx (List.mem_cons_of_mem y h)
    cases n with
    | zero => simp [g_list_insert]
    | succ n =>
      simp only [g_list_insert]
      rw [List.erase_cons_tail (by simpa using hne), ih n hxl]

theorem g_list_insert_indexOf (x : ℕ) :
    ∀ (l : List ℕ) (n : ℕ), x ∉ l → (g_list_insert l x n).indexOf x = min n l.length := by
  intro l
  induction l with
  | nil =>
    intro n _
    cases n <;> simp [g_list_insert]
  | cons y l ih =>
    intro n hx
    have hne : y ≠ x := fun h => hx (by rw [h]; exact List.mem_cons_self x l)
    have hxl : x ∉ l := fun h => hx (List.mem_cons_of_mem y h)
    cases n with
    | zero => simp [g_list_insert]
    | succ n =>
      simp only [g_list_insert]
      rw [List.indexOf_cons_ne _ hne, ih n hxl, List.length_cons]
      omega

theorem map_indexOf_eq_range (l : List ℕ) (h : l.Nodup) :
    l.map (fun x => l.indexOf x) = List.range l.length := by
  apply List.ext_getElem
  · simp
  · intro i h1 h2
    simp only [List.getElem_map, List.getElem_range]
    exact List.indexOf_getElem h i (by simpa using h1)

theorem move_layer_layers ( MIN_NLE_PRIO TRANSITIONS_HEIGHT : ℕ) (t : Timeline) (layer j : ℕ)
    (hmem : layer ∈ t.layers) :
    (ges_timeline_move_layer MIN_NLE_PRIO TRANSITIONS_HEIGHT t layer j).layers =
      g_list_insert (t.layers.erase layer) layer j := by
  simp [ges_timeline_move_layer, hmem]

theorem mem_insert_by_start (c x : LayerClip) :
    ∀ l : List LayerClip, x ∈ insert_by_start c l ↔ x = c ∨ x ∈ l := by
  intro l
  induction l with
  | nil => simp [insert_by_start]
  | cons y ys ih =>
    simp only [insert_by_start]
    by_cases h : c.start ≤ y.start
    · simp [h]
    · simp only [h, if_false, List.mem_cons, ih]
      tauto

theorem insert_by_start_perm (c : LayerClip) :
    ∀ l : List LayerClip, (insert_by_start c l).Perm (c :: l) := by
  intro l
  induction l with
  | nil => simp [insert_by_start]
  | cons y ys ih =>
    simp only [insert_by_start]
    by_cases h : c.start ≤ y.start
    · simp [h]
    · simp only [h, if_false]
      exact (ih.cons y).trans (List.Perm.swap c y ys)

theorem insert_by_start_sorted (c : LayerClip) :
    ∀ l : List LayerClip, l.Pairwise (fun x y => x.start ≤ y.start) →
      (insert_by_start c l).Pairwise (fun x y => x.start ≤ y.start) := by
  intro l
  induction l with
  | nil =>
    intro _
    simp [insert_by_start]
  | cons y ys ih =>
    intro hs
    rw [List.pairwise_cons] at hs
    simp only [insert_by_start]
    by_cases h : c.start ≤ y.start
    · simp only [h, if_true]
      rw [List.pairwise_cons]
      refine ⟨?_, List.pairwise_cons.mpr hs⟩
      intro z hz
      rcases List.mem_cons.mp hz with hz | hz
      · rw [hz]; exact h
      · exact le_trans h (hs.1 z hz)
    · simp only [h, if_false]
      rw [List.pairwise_cons]
      refine ⟨?_, ih hs.2⟩
      intro z hz
      rcases (mem_insert_by_start c z ys).mp hz with hz | hz
      · rw [hz]; omega
      · exact hs.1 z hz

theorem sort_by_start_perm : ∀ l : List LayerClip, (sort_by_start l).Perm l := by
  intro l
  induction l with
  | nil => exact List.Perm.refl _
  | cons c cs ih =>
    simp only [sort_by_start]
    exact (insert_by_start_perm c _).trans (ih.cons c)

theorem sort_by_start_sorted :
    ∀ l : List LayerClip, (sort_by_start l).Pairwise (fun x y => x.start ≤ y.start) := by
  intro l
  induction l with
  | nil => exact List.Pairwise.nil
  | cons c cs ih =>
    simp only [sort_by_start]
    exact insert_by_start_sorted c _ ih

theorem clip_intersects_iff (c : LayerClip) (a b : ℕ) :
    clip_intersects c a b = true ↔
      ∃ t, c.start ≤ t ∧ t < c.start + c.duration ∧ a ≤ t ∧ t < b := by
  simp only [clip_intersects, decide_eq_true_eq]
  constructor
  · intro h
    refine ⟨max c.start a, le_max_left _ _, ?_, le_max_right _ _, ?_⟩
    · exact lt_of_lt_of_le h (min_le_left _ _)
    · exact lt_of_lt_of_le h (min_le_right _ _)
  · rintro ⟨t, h1, h2, h3, h4⟩
    exact lt_of_le_of_lt (max_le h1 h3) (lt_min h2 h4)
/-! ## Statements of the specification on layers and intervals -/

/-- C17: the priority of a track element whose local rank is within the band of
its layer is `MIN_NLE_PRIO + TRANSITIONS_HEIGHT + layer_rank * 1000 + local_rank`:
a single clip on a layer of rank 0, 1 and 31 gets the base plus 0, 1000 and
31000, and three clips on a layer of rank 2 get 2000 plus the base plus 0, 1
and 2. -/
theorem priority_formula ( MIN_NLE_PRIO TRANSITIONS_HEIGHT : ℕ) :
    (∀ layer_rank local_rank, local_rank < LAYER_HEIGHT →
      track_element_priority MIN_NLE_PRIO TRANSITIONS_HEIGHT layer_rank local_rank =
        MIN_NLE_PRIO + TRANSITIONS_HEIGHT + layer_rank * 1000 + local_rank) ∧
    track_element_priority MIN_NLE_PRIO TRANSITIONS_HEIGHT 0 0 =
      MIN_NLE_PRIO + TRANSITIONS_HEIGHT + 0 ∧
    track_element_priority MIN_NLE_PRIO TRANSITIONS_HEIGHT 1 0 =
      MIN_NLE_PRIO + TRANSITIONS_HEIGHT + 1000 ∧
    track_element_priority MIN_NLE_PRIO TRANSITIONS_HEIGHT 31 0 =
      MIN_NLE_PRIO + TRANSITIONS_HEIGHT + 31000 ∧
    track_element_priority MIN_NLE_PRIO TRANSITIONS_HEIGHT 2 0 =
      2000 + MIN_NLE_PRIO + TRANSITIONS_HEIGHT + 0 ∧
    track_element_priority MIN_NLE_PRIO TRANSITIONS_HEIGHT 2 1 =
      2000 + MIN_NLE_PRIO + TRANSITIONS_HEIGHT + 1 ∧
    track_element_priority MIN_NLE_PRIO TRANSITIONS_HEIGHT 2 2 =
      2000 + MIN_NLE_PRIO + TRANSITIONS_HEIGHT + 2 := by
  have key : ∀ layer_rank local_rank, local_rank < LAYER_HEIGHT →
      track_element_priority MIN_NLE_PRIO TRANSITIONS_HEIGHT layer_rank local_rank =
        MIN_NLE_PRIO + TRANSITIONS_HEIGHT + layer_rank * 1000 + local_rank := by
    intro l r hr
    unfold LAYER_HEIGHT at hr
    simp only [track_element_priority, priority, clamp_local_rank, LAYER_HEIGHT]
    omega
  refine ⟨key, ?_, ?_, ?_, ?_, ?_, ?_⟩
  · rw [key 0 0 (by decide)]
  · rw [key 1 0 (by decide)]
  · rw [key 31 0 (by decide)]
  · rw [key 2 0 (by decide)]; omega
  · rw [key 2 1 (by decide)]; omega
  · rw [key 2 2 (by decide)]; omega

/-- With `MIN_NLE_PRIO = 2` and `TRANSITIONS_HEIGHT = 1`, local rank 2 on the
layer of rank 2 has the priority 2005. -/
theorem priority_formula_witness : track_element_priority 2 1 2 2 = 2005 :=
  (priority_formula 2 1).1 2 2 (by decide)

/-- C18: priorities do not collide across layers: a track element of a layer of
lower rank has a lower priority than one of a layer of higher rank, whatever the
local ranks, because a local rank is clamped to the band of its layer; the
priority stays within the band of its layer; and on local ranks below
`LAYER_HEIGHT` the priority determines the layer rank and the local rank. -/
theorem priority_no_collision ( MIN_NLE_PRIO TRANSITIONS_HEIGHT l1 l2 r1 r2 : ℕ) :
    (l1 < l2 →
      track_element_priority MIN_NLE_PRIO TRANSITIONS_HEIGHT l1 r1 <
        track_element_priority MIN_NLE_PRIO TRANSITIONS_HEIGHT l2 r2) ∧
    ( MIN_NLE_PRIO + TRANSITIONS_HEIGHT + l1 * LAYER_HEIGHT ≤
        track_element_priority MIN_NLE_PRIO TRANSITIONS_HEIGHT l1 r1 ∧
      track_element_priority MIN_NLE_PRIO TRANSITIONS_HEIGHT l1 r1 <
        MIN_NLE_PRIO + TRANSITIONS_HEIGHT + (l1 + 1) * LAYER_HEIGHT) ∧
    (r1 < LAYER_HEIGHT → r2 < LAYER_HEIGHT →
      track_element_priority MIN_NLE_PRIO TRANSITIONS_HEIGHT l1 r1 =
        track_element_priority MIN_NLE_PRIO TRANSITIONS_HEIGHT l2 r2 →
      l1 = l2 ∧ r1 = r2) := by
  simp only [track_element_priority, priority, clamp_local_rank, LAYER_HEIGHT]
  refine ⟨fun h => ?_, ⟨?_, ?_⟩, fun h1 h2 h => ?_⟩
  · omega
  · omega
  · omega
  · omega

/-- Local rank 5000 on the layer of rank 0 stays below local rank 0 on the layer
of rank 1. -/
theorem priority_no_collision_witness :
    track_element_priority 2 1 0 5000 < track_element_priority 2 1 1 0 :=
  (priority_no_collision 2 1 0 1 5000 0).1 (by decide)

/-- C19: `ges_timeline_move_layer` of a layer of the timeline to a rank `j` below
the number of layers keeps the layers, whose ranks are the numbers below the
number of layers again, puts the moved layer at rank `j`, keeps the order of the
other layers, and leaves every track element with the priority that the
allocator gives for the new rank of its layer. -/
theorem move_layer_renumbers ( MIN_NLE_PRIO TRANSITIONS_HEIGHT : ℕ) (t : Timeline)
    (layer j : ℕ) (hnodup : t.layers.Nodup) (hmem : layer ∈ t.layers)
    (hj : j < t.layers.length) :
    (ges_timeline_move_layer MIN_NLE_PRIO TRANSITIONS_HEIGHT t layer j).layers.Perm t.layers ∧
    (t.layers.map (layer_rank
      (ges_timeline_move_layer MIN_NLE_PRIO TRANSITIONS_HEIGHT t layer j).layers)).Perm
        (List.range t.layers.length) ∧
    layer_rank (ges_timeline_move_layer MIN_NLE_PRIO TRANSITIONS_HEIGHT t layer j).layers layer
      = j ∧
    (ges_timeline_move_layer MIN_NLE_PRIO TRANSITIONS_HEIGHT t layer j).layers.erase layer =
      t.layers.erase layer ∧
    (ges_timeline_move_layer MIN_NLE_PRIO TRANSITIONS_HEIGHT t layer j).elements.length =
      t.elements.length ∧
    (∀ e ∈ (ges_timeline_move_layer MIN_NLE_PRIO TRANSITIONS_HEIGHT t layer j).elements,
      e.nle_priority = track_element_priority MIN_NLE_PRIO TRANSITIONS_HEIGHT
        (layer_rank (ges_timeline_move_layer MIN_NLE_PRIO TRANSITIONS_HEIGHT t layer j).layers
          e.layer) e.local_rank) := by
  have hl := move_layer_layers MIN_NLE_PRIO TRANSITIONS_HEIGHT t layer j hmem
  have hnot : layer ∉ t.layers.erase layer := List.Nodup.not_mem_erase hnodup
  have hperm : (g_list_insert (t.layers.erase layer) layer j).Perm t.layers :=
    (g_list_insert_perm layer _ j).trans (List.perm_cons_erase hmem).symm
  have hlen : (t.layers.erase layer).length = t.layers.length - 1 :=
    List.length_erase_of_mem hmem
  refine ⟨?_, ?_, ?_, ?_, ?_, ?_⟩
  · rw [hl]; exact hperm
  · rw [hl]
    have hnd : (g_list_insert (t.layers.erase layer) layer j).Nodup :=
      hperm.nodup_iff.mpr hnodup
    have hmap := map_indexOf_eq_range _ hnd
    have hp : (t.layers.map (layer_rank (g_list_insert (t.layers.erase layer) layer j))).Perm
        ((g_list_insert (t.layers.erase layer) layer j).map
          (layer_rank (g_list_insert (t.layers.erase layer) layer j))) :=
      (hperm.symm).map _
    have hrange : (g_list_insert (t.layers.erase layer) layer j).map
        (layer_rank (g_list_insert (t.layers.erase layer) layer j)) =
        List.range t.layers.length := by
      rw [show layer_rank (g_list_insert (t.layers.erase layer) layer j) =
        (fun x => (g_list_insert (t.layers.erase layer) layer j).indexOf x) from rfl, hmap,
        hperm.length_eq]
    rw [← hrange]
    exact hp
  · rw [hl]
    unfold layer_rank
    rw [g_list_insert_indexOf layer _ j hnot, hlen]
    omega
  · rw [hl]
    exact g_list_insert_erase layer _ j hnot
  · simp [ges_timeline_move_layer, hmem, resync_priorities]
  · intro e he
    simp only [ges_timeline_move_layer, hmem, if_true, resync_priorities] at he ⊢
    obtain ⟨e0, _, rfl⟩ := List.mem_map.mp he
    rfl

/-- The move of `test_layer_priorities`: with the layers 0, 1, 2, the layer 0
moved to rank 2 leaves the ranks 2, 0, 1. -/
theorem move_layer_renumbers_witness :
    [0, 1, 2].map (layer_rank
      (ges_timeline_move_layer 2 1 (three_layer_timeline 2 1) 0 2).layers) = [2, 0, 1] ∧
    layer_rank (ges_timeline_move_layer 2 1 (three_layer_timeline 2 1) 0 2).layers 0 = 2 := by
  have h := move_layer_renumbers 2 1 (three_layer_timeline 2 1) 0 2 (by decide) (by decide)
    (by decide)
  exact ⟨by decide, h.2.2.1⟩

/-- C20: `ges_layer_get_clips_in_interval` returns the clips of the layer whose
interval meets `[a, b)` in at least one point, each as often as the layer holds
it, ordered by start ascending; for the clip `[10, 40)` the queries that overlap
it return it and the two queries that touch an end return nothing. -/
theorem get_clips_in_interval_spec (clips : List LayerClip) (a b : ℕ) :
    (∀ c, c ∈ ges_layer_get_clips_in_interval clips a b ↔
      c ∈ clips ∧ ∃ t, c.start ≤ t ∧ t < c.start + c.duration ∧ a ≤ t ∧ t < b) ∧
    (ges_layer_get_clips_in_interval clips a b).Perm
      (clips.filter (fun c => clip_intersects c a b)) ∧
    (ges_layer_get_clips_in_interval clips a b).Pairwise (fun x y => x.start ≤ y.start) ∧
    ges_layer_get_clips_in_interval [interval_clip] 0 30 = [interval_clip] ∧
    ges_layer_get_clips_in_interval [interval_clip] 0 11 = [interval_clip] ∧
    ges_layer_get_clips_in_interval [interval_clip] 30 50 = [interval_clip] ∧
    ges_layer_get_clips_in_interval [interval_clip] 39 50 = [interval_clip] ∧
    ges_layer_get_clips_in_interval [interval_clip] 10 40 = [interval_clip] ∧
    ges_layer_get_clips_in_interval [interval_clip] 0 50 = [interval_clip] ∧
    ges_layer_get_clips_in_interval [interval_clip] 20 30 = [interval_clip] ∧
    ges_layer_get_clips_in_interval [interval_clip] 0 10 = [] ∧
    ges_layer_get_clips_in_interval [interval_clip] 40 50 = [] := by
  refine ⟨?_, ?_, ?_, by decide, by decide, by decide, by decide, by decide, by decide,
    by decide, by decide, by decide⟩
  · intro c
    unfold ges_layer_get_clips_in_interval
    rw [List.mem_filter, (sort_by_start_perm clips).mem_iff, clip_intersects_iff]
  · unfold ges_layer_get_clips_in_interval
    exact (sort_by_start_perm clips).filter _
  · unfold ges_layer_get_clips_in_interval
    exact (sort_by_start_sorted clips).filter _

/-- The queries of `test_layer_get_clips_in_interval` on three clips: `(4, 52)`
returns the three of them by start, `(39, 65)` the two that reach into it. -/
theorem get_clips_in_interval_test :
    ges_layer_get_clips_in_interval [interval_clip, interval_clip2, interval_clip3] 4 52 =
      [interval_clip3, interval_clip, interval_clip2] ∧
    ges_layer_get_clips_in_interval [interval_clip, interval_clip2, interval_clip3] 39 65 =
      [interval_clip, interval_clip2] := by
  constructor <;> decide

/-! ## Statements on sources -/

/-- C23: `ges_source_set_rate` on a source whose class has the audio method or no
method returns the result of the method and stores the rate only on success: an
audio source with its pitch element returns TRUE with the rate stored, the pitch
rate and the `media-duration-factor` set; an audio source without pitch element
and a source without method return FALSE and are left as they were, so that
`ges_source_get_rate` still returns the rate of before. -/
theorem source_set_rate_result (fuel : ℕ) (e : TrackElement) (r : ℚ) :
    (e.klass_set_rate = SetRateVMethod.ges_audio_source_set_rate →
      ∃ e1, ges_source_set_rate (fuel + 1) e r =
          some ((ges_audio_source_set_rate e r).1, e1) ∧
        ((ges_audio_source_set_rate e r).1 = true → ges_source_get_rate e1 = r) ∧
        ((ges_audio_source_set_rate e r).1 = false →
          ges_source_get_rate e1 = ges_source_get_rate e)) ∧
    (e.klass_set_rate = SetRateVMethod.ges_audio_source_set_rate → e.pitch ≠ none →
      ∃ e1, ges_source_set_rate (fuel + 1) e r = some (true, e1) ∧
        ges_source_get_rate e1 = r ∧ e1.pitch = some r ∧
        e1.nleobject.media_duration_factor = r) ∧
    (e.klass_set_rate = SetRateVMethod.ges_audio_source_set_rate → e.pitch = none →
      ges_source_set_rate (fuel + 1) e r = some (false, e)) ∧
    (e.klass_set_rate = SetRateVMethod.null →
      ges_source_set_rate (fuel + 1) e r = some (false, e)) := by
  refine ⟨fun hk => ?_, fun hk hp => ?_, fun hk hp => ?_, fun hk => ?_⟩
  · cases hp : e.pitch with
    | none =>
      exact ⟨e, by simp [ges_source_set_rate, ges_audio_source_set_rate, hk, hp],
        by simp [ges_audio_source_set_rate, hp], fun _ => rfl⟩
    | some v =>
      refine ⟨{ e with
          rate := r
          pitch := some r
          nleobject := { e.nleobject with media_duration_factor := r } },
        by simp [ges_source_set_rate, ges_audio_source_set_rate, hk, hp], fun _ => rfl, ?_⟩
      simp [ges_audio_source_set_rate, hp]
  · cases hpv : e.pitch with
    | none => exact absurd hpv hp
    | some v =>
      exact ⟨{ e with
          rate := r
          pitch := some r
          nleobject := { e.nleobject with media_duration_factor := r } },
        by simp [ges_source_set_rate, ges_audio_source_set_rate, hk, hpv], rfl, rfl, rfl⟩
  · simp [ges_source_set_rate, ges_audio_source_set_rate, hk, hp]
  · simp [ges_source_set_rate, hk]

/-- The audio child with its pitch element accepts rate 2.0. -/
theorem source_set_rate_result_witness :
    ∃ e1, ges_source_set_rate 1 audio_child 2 = some (true, e1) ∧
      ges_source_get_rate e1 = 2 ∧ e1.pitch = some 2 ∧
      e1.nleobject.media_duration_factor = 2 :=
  (source_set_rate_result 0 audio_child 2).2.1 rfl (by simp [audio_child])

/-- C24 on the code: for a source whose class keeps the method that
`ges_source_class_init` installs, `ges_source_set_rate` calls itself with the
same arguments, and no depth of calls gives a result. -/
theorem default_set_rate_never_returns (fuel : ℕ) (r : ℚ) :
    ges_source_set_rate fuel default_source r = none := by
  induction fuel with
  | zero => rfl
  | succ n ih =>
    have hk : default_source.klass_set_rate = SetRateVMethod.ges_source_set_rate := rfl
    simp [ges_source_set_rate, hk, ih]

/-- C25 on the code: a clip at rate 1.0 whose only child is an audio source
without pitch element ends a change to rate 2.0 with the rate 2.0, while the
child, whose method returned FALSE, still has the rate 1.0, in either
arithmetic. -/
theorem clip_rate_differs_from_child (m : GDoubleModel) :
    ∃ c1, ges_source_clip_set_rate m accepting_parent 1 pitchless_clip 2 = some c1 ∧
      ges_source_clip_get_rate c1 = 2 ∧
      ges_source_set_rate 1 audio_child_without_pitch 2 =
        some (false, audio_child_without_pitch) ∧
      ∃ e ∈ c1.children, e.is_source = true ∧ ges_source_get_rate e = 1 ∧
        ges_source_get_rate e ≠ ges_source_clip_get_rate c1 := by
  obtain ⟨c1, h1, hr, hc, _⟩ :=
    set_rate_with_children m accepting_parent 0 pitchless_clip 2
      (by norm_num [pitchless_clip]) (by simp [pitchless_clip])
      (by simp [pitchless_clip, set_rate_returns, audio_child_without_pitch])
  refine ⟨c1, h1, hr, ?_, audio_child_without_pitch, ?_, rfl, rfl, ?_⟩
  · simp [ges_source_set_rate, ges_audio_source_set_rate, audio_child_without_pitch]
  · rw [hc]
    simp [pitchless_clip, child_after_set_rate, audio_child_without_pitch]
  · rw [ges_source_clip_get_rate, hr]
    norm_num [ges_source_get_rate, audio_child_without_pitch]

/-! ## Lemmas on reachable states, drift and bounds -/

theorem set_inpoint_flags (m : GDoubleModel) (parent : ParentClass) (c : Clip) (i : ℕ) :
    (ges_timeline_element_set_inpoint m parent c i).flags = c.flags := by
  unfold ges_timeline_element_set_inpoint _set_inpoint
  cases asset_duration_pspec c <;>
    simp only [ges_timeline_element_set_max_duration] <;> split <;> rfl

theorem set_rate_flags (m : GDoubleModel) (parent : ParentClass) (fuel : ℕ) (c c1 : Clip) (r : ℚ)
    (hflags : c.flags = 0) (hcall : ges_source_clip_set_rate m parent fuel c r = some c1) :
    c1.flags = 0 := by
  by_cases hne : c.rate ≠ r
  · by_cases hch : c.children = []
    · simp [ges_source_clip_set_rate, hne, hch] at hcall
      rw [← hcall]
      exact hflags
    · unfold ges_source_clip_set_rate at hcall
      rw [if_pos hne, if_neg hch] at hcall
      cases hloop : set_rate_children fuel c.children r with
      | none => simp [hloop] at hcall
      | some children =>
        simp only [hloop, Option.some.injEq] at hcall
        rw [← hcall]
        simp only [UNSET_FLAG]
        rw [(set_duration0_frame m parent _ _).2.2.2.2.2.2.2.1]
        have hf : ∀ x : Clip, x.flags = 0 →
            (SET_FLAG x GES_SOURCE_CLIP_IS_SPEEDING).flags &&&
              ((2 ^ 32 - 1) ^^^ GES_SOURCE_CLIP_IS_SPEEDING) = 0 := by
          intro x hx
          simp only [SET_FLAG, hx]
          decide
        apply hf
        cases asset_duration_pspec { c with children := children } <;>
          simp [ges_timeline_element_set_max_duration, hflags]
  · simp [ges_source_clip_set_rate, hne] at hcall
    rw [← hcall]
    exact hflags

theorem reachable_flags (m : GDoubleModel) (parent : ParentClass) (c : Clip)
    (h : Reachable m parent c) :
    c.flags = 0 := by
  induction h with
  | init self hflags => exact hflags
  | set_rate c c1 fuel rate _ hcall ih => exact set_rate_flags m parent fuel c c1 rate ih hcall
  | set_duration c d _ ih =>
    have h8 := (set_duration0_frame m parent c d).2.2.2.2.2.2.2.1
    unfold _set_duration0 at h8
    rw [h8, ih]
  | set_inpoint c i _ ih => rw [set_inpoint_flags, ih]
  | set_input_duration c d _ ih => exact ih

theorem foldl_divide_sources (r : ℚ) :
    ∀ (l : List TrackElement) (p : ℚ),
      l.foldl (fun m e => if e.is_source then m / r else m) p =
        p / r ^ (l.countP (fun e => e.is_source)) := by
  intro l
  induction l with
  | nil =>
    intro p
    simp
  | cons e tl ih =>
    intro p
    simp only [List.foldl_cons]
    rw [ih]
    by_cases hs : e.is_source = true
    · simp only [hs, if_true]
      rw [List.countP_cons_of_pos _ _ hs, pow_succ, div_div, mul_comm]
    · simp only [hs]
      rw [List.countP_cons_of_neg _ _ hs]
      simp

/-! ## Statements on flags, drift, bounds and child properties -/

/-- C26: in every state that the public operations reach, the flags word is zero
when the operation returns, the whole-word test `FLAG_IS_SET` agrees with the
test of bit 0, also on the state with the flag set in which
`ges_source_clip_set_rate` runs its internal set-duration, and a duration change
re-derives the input duration as `duration * rate`. -/
theorem reachable_flag_clear (m : GDoubleModel) (parent : ParentClass) (c : Clip)
    (h : Reachable m parent c) :
    c.flags = 0 ∧
    FLAG_IS_SET c GES_SOURCE_CLIP_IS_SPEEDING = c.flags.testBit 0 ∧
    FLAG_IS_SET (SET_FLAG c GES_SOURCE_CLIP_IS_SPEEDING) GES_SOURCE_CLIP_IS_SPEEDING =
      (SET_FLAG c GES_SOURCE_CLIP_IS_SPEEDING).flags.testBit 0 ∧
    (UNSET_FLAG (SET_FLAG c GES_SOURCE_CLIP_IS_SPEEDING) GES_SOURCE_CLIP_IS_SPEEDING).flags = 0 ∧
    (∀ d, (ges_timeline_element_set_duration m parent c d).input_duration =
      g_double_to_guint64 (gdouble_mul m (gdouble_of_guint64 m d) c.rate)) := by
  have h0 := reachable_flags m parent c h
  refine ⟨h0, ?_, ?_, ?_, fun d => ?_⟩
  · simp only [FLAG_IS_SET, h0]
    decide
  · simp only [FLAG_IS_SET, SET_FLAG, h0]
    decide
  · simp only [UNSET_FLAG, SET_FLAG, h0]
    decide
  · have h9 := (set_duration0_frame m parent c d).2.2.2.2.2.2.2.2
    unfold _set_duration0 at h9
    rw [h9, set_duration_hook_input]
    have hf : FLAG_IS_SET c GES_SOURCE_CLIP_IS_SPEEDING = false := by
      simp only [FLAG_IS_SET, h0]
      decide
    rw [hf]
    simp [new_input_duration, input_duration_value]

/-- The example clip after a change to rate 2.0, reached from an initialised
clip, has the flags word zero. -/
theorem reachable_flag_clear_witness :
    ∃ c1, ges_source_clip_set_rate GDoubleModel.ieee754 accepting_parent 1
        (ges_source_clip_init example_clip) 2 = some c1 ∧ c1.flags = 0 := by
  obtain ⟨c1, hcall, _⟩ := set_rate_returns_with_rate GDoubleModel.ieee754 accepting_parent 0
    (ges_source_clip_init example_clip) 2
    (by simp [ges_source_clip_init, example_clip, set_rate_returns, audio_child])
  exact ⟨c1, hcall, (reachable_flag_clear GDoubleModel.ieee754 accepting_parent c1
    (Reachable.set_rate _ c1 1 2 (Reachable.init example_clip rfl) hcall)).1⟩

/-- C28, as amended: with `in_point <= asset_duration`, the asset duration at
most `2 ^ 53` and a positive rate, the subtraction `asset_duration - in_point`
does not wrap, and the max-duration that `_set_inpoint` and
`ges_source_clip_set_rate` store is at least the in-point and at most the asset
duration when the rate is at least 1, and at least the asset duration and the
in-point when the rate is at most 1 and the `gdouble` value is below `2 ^ 64`,
in either arithmetic; neither function checks the precondition: with the
in-point 12 on an asset duration 10 the difference wraps. -/
theorem max_duration_bounds (m : GDoubleModel) (parent : ParentClass) (fuel : ℕ) (c : Clip)
    (s : Asset) (a i : ℕ) (r : ℚ) (hs : c.asset = some s) (ha : s.duration = some a)
    (hia : i ≤ a) (ha53 : a ≤ 2 ^ 53) (hr : 0 < r) :
    guint64_sub a i = a - i ∧
    (c.rate = r →
      (_set_inpoint m parent c i).2.maxduration = new_max_duration m a i r) ∧
    (c.inpoint = i → c.rate ≠ r → c.children ≠ [] →
      c.children.all set_rate_returns = true →
      ∃ c1, ges_source_clip_set_rate m parent (fuel + 1) c r = some c1 ∧
        c1.maxduration = new_max_duration m a i r) ∧
    (1 ≤ r → i ≤ new_max_duration m a i r ∧ new_max_duration m a i r ≤ a) ∧
    (r ≤ 1 → max_duration_value m a i r < 2 ^ 64 →
      i ≤ new_max_duration m a i r ∧ a ≤ new_max_duration m a i r) ∧
    guint64_sub 10 12 = 2 ^ 64 - 2 := by
  have ha64 : a < 2 ^ 64 := lt_of_le_of_lt ha53 (by norm_num)
  obtain ⟨b1, b2, b3⟩ := max_duration_value_bounds m hia ha53 hr
  have hnn : (0 : ℚ) ≤ max_duration_value m a i r := le_trans (Nat.cast_nonneg i) b1
  refine ⟨guint64_sub_of_le hia ha64, fun hrate => ?_, fun hin hne hch hret => ?_,
    fun hr1 => ?_, fun hr1 hfit => ?_, by decide⟩
  · subst hrate
    simp [_set_inpoint, asset_duration_pspec_some hs ha,
      ges_timeline_element_set_max_duration, new_max_duration, max_duration_value]
  · obtain ⟨c1, h1, _, _, hm, _⟩ := set_rate_with_children m parent fuel c r hne hch hret
    rw [asset_duration_pspec_some hs ha, hin] at hm
    exact ⟨c1, h1, hm⟩
  · have hle := b2 hr1
    have hfit : max_duration_value m a i r < 2 ^ 64 := by
      have : (a : ℚ) < 2 ^ 64 := by exact_mod_cast ha64
      linarith
    unfold new_max_duration
    rw [g_double_to_guint64_eq_floor hnn hfit]
    exact ⟨Nat.le_floor b1, Nat.floor_le_of_le hle⟩
  · unfold new_max_duration
    rw [g_double_to_guint64_eq_floor hnn hfit]
    exact ⟨Nat.le_floor b1, Nat.le_floor (b3 hr1)⟩

/-- C28 fails as stated, in the arithmetic of the code, beyond `2 ^ 53`: at rate
1.0 and in-point 0 an asset duration of `2 ^ 53 + 1` gives the max-duration
`2 ^ 53`, below the asset duration, and an asset duration of `2 ^ 53 + 3` gives
`2 ^ 53 + 4`, above it; at the in-point `2 ^ 53 + 1` the first asset gives
`2 ^ 53`, below the in-point. -/
theorem max_duration_bounds_counterexample :
    long_clip.rate = 1 ∧ long_clip.asset = some { duration := some (2 ^ 53 + 1) } ∧
    (_set_inpoint GDoubleModel.ieee754 accepting_parent long_clip 0).2.maxduration = 2 ^ 53 ∧
    (_set_inpoint GDoubleModel.ieee754 accepting_parent long_clip 0).2.maxduration
      < 2 ^ 53 + 1 ∧
    (_set_inpoint GDoubleModel.ieee754 accepting_parent long_clip (2 ^ 53 + 1)).2.maxduration
      = 2 ^ 53 ∧
    (_set_inpoint GDoubleModel.ieee754 accepting_parent long_clip (2 ^ 53 + 1)).2.maxduration
      < 2 ^ 53 + 1 ∧
    (_set_inpoint GDoubleModel.ieee754 accepting_parent
      { long_clip with asset := some { duration := some (2 ^ 53 + 3) } } 0).2.maxduration
      = 2 ^ 53 + 4 ∧
    2 ^ 53 + 3 < (_set_inpoint GDoubleModel.ieee754 accepting_parent
      { long_clip with asset := some { duration := some (2 ^ 53 + 3) } } 0).2.maxduration := by
  have h1 : (_set_inpoint GDoubleModel.ieee754 accepting_parent long_clip 0).2.maxduration
      = 2 ^ 53 := by
    have hm : (_set_inpoint GDoubleModel.ieee754 accepting_parent long_clip 0).2.maxduration =
        new_max_duration GDoubleModel.ieee754 (2 ^ 53 + 1) 0 long_clip.rate := by
      simp [_set_inpoint, asset_duration_pspec, long_clip,
        ges_timeline_element_set_max_duration, new_max_duration, max_duration_value]
    rw [hm]
    exact new_max_duration_two_pow_53_add_one
  have h2 : (_set_inpoint GDoubleModel.ieee754 accepting_parent long_clip
      (2 ^ 53 + 1)).2.maxduration = 2 ^ 53 := by
    have hm : (_set_inpoint GDoubleModel.ieee754 accepting_parent long_clip
        (2 ^ 53 + 1)).2.maxduration =
        new_max_duration GDoubleModel.ieee754 (2 ^ 53 + 1) (2 ^ 53 + 1) long_clip.rate := by
      simp [_set_inpoint, asset_duration_pspec, long_clip,
        ges_timeline_element_set_max_duration, new_max_duration, max_duration_value]
    rw [hm]
    exact new_max_duration_at_two_pow_53_add_one
  have h3 : (_set_inpoint GDoubleModel.ieee754 accepting_parent
      { long_clip with asset := some { duration := some (2 ^ 53 + 3) } } 0).2.maxduration
      = 2 ^ 53 + 4 := by
    have hm : (_set_inpoint GDoubleModel.ieee754 accepting_parent
        { long_clip with asset := some { duration := some (2 ^ 53 + 3) } } 0).2.maxduration =
        new_max_duration GDoubleModel.ieee754 (2 ^ 53 + 3) 0 long_clip.rate := by
      simp [_set_inpoint, asset_duration_pspec, long_clip,
        ges_timeline_element_set_max_duration, new_max_duration, max_duration_value]
    rw [hm]
    exact new_max_duration_two_pow_53_add_three
  refine ⟨rfl, rfl, h1, ?_, h2, ?_, h3, ?_⟩
  · rw [h1]; norm_num
  · rw [h2]; norm_num
  · rw [h3]; norm_num

/-- On the asset duration 1000 with the in-point 12 and the rate 2.0 the
max-duration is between 12 and 1000, in the arithmetic of the code. -/
theorem max_duration_bounds_witness :
    12 ≤ new_max_duration GDoubleModel.ieee754 1000 12 2 ∧
    new_max_duration GDoubleModel.ieee754 1000 12 2 ≤ 1000 :=
  (max_duration_bounds GDoubleModel.ieee754 accepting_parent 0 stale_clip
    { duration := some 1000 } 1000 12 2
    rfl rfl (by norm_num) (by norm_num) (by norm_num)).2.2.2.1 (by norm_num)

/-- C29: in the exact arithmetic, at a positive rate `_get_media_duration_factor`
returns `p * rate / rate ^ n`, with `p` the factor of the parent class and `n`
the number of children that are sources: `p` with one source child, `p * rate`
with none. -/
theorem get_media_duration_factor_value (parent : ParentClass) (c : Clip) (hr : 0 < c.rate) :
    _get_media_duration_factor GDoubleModel.exact parent c =
      parent.get_media_duration_factor c * c.rate /
        c.rate ^ (c.children.countP (fun e => e.is_source)) ∧
    (c.children.countP (fun e => e.is_source) = 1 →
      _get_media_duration_factor GDoubleModel.exact parent c =
        parent.get_media_duration_factor c) ∧
    (c.children.countP (fun e => e.is_source) = 0 →
      _get_media_duration_factor GDoubleModel.exact parent c =
        parent.get_media_duration_factor c * c.rate) := by
  have key : _get_media_duration_factor GDoubleModel.exact parent c =
      parent.get_media_duration_factor c * c.rate /
        c.rate ^ (c.children.countP (fun e => e.is_source)) := by
    unfold _get_media_duration_factor
    simp only [gdouble_div, gdouble_mul, gdouble_round_exact]
    rw [foldl_divide_sources, div_mul_eq_mul_div]
  refine ⟨key, fun h1 => ?_, fun h0 => ?_⟩
  · rw [key, h1, pow_one, mul_div_assoc, div_self (ne_of_gt hr), mul_one]
  · rw [key, h0, pow_zero, div_one]

/-- The clip at rate 2.0 with one audio child and the parent factor 1 has the
factor 1. -/
theorem get_media_duration_factor_value_witness :
    _get_media_duration_factor GDoubleModel.exact accepting_parent stale_clip = 1 :=
  (get_media_duration_factor_value accepting_parent stale_clip
    (by norm_num [stale_clip])).2.1 (by simp [stale_clip, audio_child])

/-- C30: `ges_source_set_child_property` sets the `media-duration-factor` of the
nle object to the value written when the child property is named `rate`, and
leaves it when the property has another name; it never changes the rate stored
in the source, and the clip that owns the source keeps its rate, duration and
input duration. -/
theorem set_child_property_forwards_rate (self : TrackElement) (child : SourceChild)
    (pspec_name : String) (value : GValue) (clip : Clip) (index : ℕ) :
    (pspec_name = "rate" →
      (ges_source_set_child_property self child pspec_name value).nleobject.media_duration_factor
        = g_value_get_double value) ∧
    (pspec_name ≠ "rate" →
      (ges_source_set_child_property self child pspec_name value).nleobject.media_duration_factor
        = self.nleobject.media_duration_factor) ∧
    ges_source_get_rate (ges_source_set_child_property self child pspec_name value) =
      ges_source_get_rate self ∧
    ges_source_clip_get_rate (clip_set_child_property clip index child pspec_name value) =
      ges_source_clip_get_rate clip ∧
    (clip_set_child_property clip index child pspec_name value).duration = clip.duration ∧
    ges_source_clip_get_input_duration
      (clip_set_child_property clip index child pspec_name value) =
      ges_source_clip_get_input_duration clip := by
  refine ⟨fun h => ?_, fun h => ?_, ?_, ?_, ?_, ?_⟩
  · simp [ges_source_set_child_property, h]
  · cases child <;> simp [ges_source_set_child_property, g_object_set_property_child, h]
  · by_cases h : pspec_name = "rate" <;> cases child <;>
      simp [ges_source_set_child_property, g_object_set_property_child, h, ges_source_get_rate]
  · unfold clip_set_child_property
    cases clip.children.get? index <;> rfl
  · unfold clip_set_child_property
    cases clip.children.get? index <;> rfl
  · unfold clip_set_child_property
    cases clip.children.get? index <;> rfl

/-- A write of 3.0 to the `rate` of the pitch element of the audio child sets the
factor of the nle object to 3.0 and leaves the rate 1.0 of the source. -/
theorem set_child_property_forwards_rate_witness :
    (ges_source_set_child_property audio_child SourceChild.pitch "rate"
      { v_double := 3, v_uint64 := 0 }).nleobject.media_duration_factor = 3 ∧
    ges_source_get_rate (ges_source_set_child_property audio_child SourceChild.pitch "rate"
      { v_double := 3, v_uint64 := 0 }) = 1 :=
  ⟨(set_child_property_forwards_rate audio_child SourceChild.pitch "rate"
      { v_double := 3, v_uint64 := 0 } example_clip 0).1 rfl,
    (set_child_property_forwards_rate audio_child SourceChild.pitch "rate"
      { v_double := 3, v_uint64 := 0 } example_clip 0).2.2.1⟩

/-! ## Lemmas on automatic transitions -/

theorem mem_transitions_of_pair (previous next : RegularClip) (t : TransitionClip) :
    t ∈ transitions_of_pair previous next ↔
      (previous.start < next.start ∧ next.start < clip_end previous ∧
        clip_end previous < clip_end next) ∧
      t.track ∈ previous.tracks ∧ t.track ∈ next.tracks ∧
      t.previous = previous.id ∧ t.next = next.id ∧
      t.start = next.start ∧ t.duration = clip_end previous - next.start := by
  unfold transitions_of_pair
  by_cases h : overlaps_end previous next = true
  · have h3 : previous.start < next.start ∧ next.start < clip_end previous ∧
        clip_end previous < clip_end next := by
      simpa [overlaps_end, and_assoc] using h
    simp only [h, if_true, List.mem_map, List.mem_filter, decide_eq_true_eq]
    constructor
    · rintro ⟨track, ⟨h1, h2⟩, rfl⟩
      exact ⟨h3, h1, h2, rfl, rfl, rfl, rfl⟩
    · rintro ⟨_, h1, h2, h4, h5, h6, h7⟩
      refine ⟨t.track, ⟨h1, h2⟩, ?_⟩
      cases t
      simp only at h4 h5 h6 h7
      simp [h4, h5, h6, h7]
  · have h3 : ¬ (previous.start < next.start ∧ next.start < clip_end previous ∧
        clip_end previous < clip_end next) := by
      simpa [overlaps_end, and_assoc] using h
    have hf : overlaps_end previous next = false := by simpa using h
    simp only [hf, Bool.false_eq_true, if_false, List.not_mem_nil, false_iff]
    intro hx
    exact h3 hx.1

theorem mem_auto_transitions (clips : List RegularClip) (t : TransitionClip) :
    t ∈ auto_transitions clips ↔
      ∃ previous ∈ clips, ∃ next ∈ clips,
        (previous.start < next.start ∧ next.start < clip_end previous ∧
          clip_end previous < clip_end next) ∧
        t.track ∈ previous.tracks ∧ t.track ∈ next.tracks ∧
        t.previous = previous.id ∧ t.next = next.id ∧
        t.start = next.start ∧ t.duration = clip_end previous - next.start := by
  unfold auto_transitions
  simp only [List.mem_flatMap, mem_transitions_of_pair]

theorem transitions_collide_of_same_place (t1 t2 : TransitionClip)
    (h : same_place t1 t2 = true) :
    ∀ l1 l2 l3 : List TransitionClip,
      transitions_collide (l1 ++ t1 :: (l2 ++ t2 :: l3)) = true := by
  intro l1
  induction l1 with
  | nil =>
    intro l2 l3
    simp only [List.nil_append, transitions_collide, Bool.or_eq_true, List.any_eq_true]
    exact Or.inl ⟨t2, by simp, h⟩
  | cons x xs ih =>
    intro l2 l3
    simp only [List.cons_append, transitions_collide, Bool.or_eq_true]
    exact Or.inr (ih l2 l3)

theorem reconcile_accepted (layer : AutoLayer) (clips : List RegularClip)
    (hauto : layer.auto_transition = true) (hok : (reconcile layer clips).1 = true) :
    (reconcile layer clips).2.clips = clips ∧
    (reconcile layer clips).2.transitions = auto_transitions clips ∧
    transitions_collide (auto_transitions clips) = false := by
  unfold reconcile at hok ⊢
  by_cases hc : transitions_collide (auto_transitions clips) = true
  · simp [hauto, hc] at hok
  · simp [hauto, hc]

/-! ## The transition engine checked against the tests -/

/-- The states of `test_single_layer_automatic_transition`: every edit up to the
third clip at 1100 is accepted, `ges_layer_get_clips` has the lengths that the
test asserts, the move of the third clip to 1000 is rejected, and it is accepted
once the first clip is removed, with the transition `[1000, 1250)` in each of
the two tracks. -/
theorem test_single_layer_automatic_transition_trace :
    (List.range 14).map (fun n =>
        layer_clip_count (apply_layer_edits empty_auto_layer (single_layer_edits.take n)).2)
      = [0, 1, 4, 4, 2, 2, 2, 2, 2, 2, 3, 7, 3, 5] ∧
    (apply_layer_edits empty_auto_layer
        (single_layer_edits ++
          [LayerEdit.move 2 1000, LayerEdit.remove 0, LayerEdit.move 2 1000])).1
      = [true, true, true, true, true, true, true, true, true, true, true, true, true,
          false, true, true] ∧
    (apply_layer_edits empty_auto_layer
        (single_layer_edits ++
          [LayerEdit.move 2 1000, LayerEdit.remove 0, LayerEdit.move 2 1000])).2.transitions
      = [{ track := 0, previous := 1, next := 2, start := 1000, duration := 250 },
         { track := 1, previous := 1, next := 2, start := 1000, duration := 250 }] := by
  refine ⟨by decide, by decide, by decide⟩

/-! ## Statements of the specification on transitions -/

/-- C21, as amended: on a layer with `auto_transition`, after every accepted add,
remove, move, trim or duration change, a transition exists for an ordered pair
of clips of the layer and a track where both have a track element exactly when
the second clip starts strictly inside the first and ends strictly after it,
and the interval of the transition is the intersection of the two intervals; no
two transitions are at the same place. -/
theorem auto_transition_iff_overlap (layer : AutoLayer) (edit : LayerEdit)
    (hauto : layer.auto_transition = true) (hok : (apply_layer_edit layer edit).1 = true) :
    (apply_layer_edit layer edit).2.clips = edited_clips layer.clips edit ∧
    (∀ t, t ∈ (apply_layer_edit layer edit).2.transitions ↔
      ∃ previous ∈ (apply_layer_edit layer edit).2.clips,
        ∃ next ∈ (apply_layer_edit layer edit).2.clips,
          (previous.start < next.start ∧ next.start < clip_end previous ∧
            clip_end previous < clip_end next) ∧
          t.track ∈ previous.tracks ∧ t.track ∈ next.tracks ∧
          t.previous = previous.id ∧ t.next = next.id ∧
          t.start = max previous.start next.start ∧
          t.start + t.duration = min (clip_end previous) (clip_end next)) ∧
    transitions_collide (apply_layer_edit layer edit).2.transitions = false := by
  unfold apply_layer_edit at hok ⊢
  obtain ⟨h1, h2, h3⟩ := reconcile_accepted layer _ hauto hok
  refine ⟨h1, fun t => ?_, by rw [h2]; exact h3⟩
  rw [h1, h2, mem_auto_transitions]
  constructor
  · rintro ⟨p, hp, n, hn, ho, k1, k2, k3, k4, k5, k6⟩
    refine ⟨p, hp, n, hn, ho, k1, k2, k3, k4, ?_, ?_⟩
    · rw [k5, max_eq_right ho.1.le]
    · rw [k5, k6, min_eq_left ho.2.2.le]
      omega
  · rintro ⟨p, hp, n, hn, ho, k1, k2, k3, k4, k5, k6⟩
    rw [max_eq_right ho.1.le] at k5
    rw [min_eq_left ho.2.2.le] at k6
    refine ⟨p, hp, n, hn, ho, k1, k2, k3, k4, k5, ?_⟩
    omega

/-- C21 fails as stated, on the states of the test: after the second clip is
moved to 250 the two clips have the same interval `[250, 1250)`, which is a
non-empty intersection, and the layer has no transition; the same holds for a
clip inside another one, `[600, 1100)` in `[500, 1250)`. -/
theorem auto_transition_counterexample :
    (apply_layer_edits empty_auto_layer (single_layer_edits.take 4)).1 =
      [true, true, true, true] ∧
    (apply_layer_edits empty_auto_layer (single_layer_edits.take 4)).2.clips =
      [test_clip 0 250 1000, test_clip 1 250 1000] ∧
    intervals_intersect (test_clip 0 250 1000) (test_clip 1 250 1000) = true ∧
    (apply_layer_edits empty_auto_layer (single_layer_edits.take 4)).2.transitions = [] ∧
    (apply_layer_edits empty_auto_layer (single_layer_edits.take 9)).2.clips =
      [test_clip 0 600 500, test_clip 1 500 750] ∧
    intervals_intersect (test_clip 0 600 500) (test_clip 1 500 750) = true ∧
    (apply_layer_edits empty_auto_layer (single_layer_edits.take 9)).2.transitions = [] := by
  refine ⟨by decide, by decide, by decide, by decide, by decide, by decide, by decide⟩

/-- The clips `[0, 1000)` and `[500, 1500)`: the transition `[500, 1000)` exists
in the track 0, and the move of the second clip to 1000 leaves no transition. -/
theorem auto_transition_iff_overlap_witness :
    ({ track := 0, previous := 0, next := 1, start := 500, duration := 500 } : TransitionClip) ∈
      (apply_layer_edit (apply_layer_edit empty_auto_layer (LayerEdit.add (test_clip 0 0 1000))).2
        (LayerEdit.add (test_clip 1 500 1000))).2.transitions ∧
    (apply_layer_edits empty_auto_layer
      [LayerEdit.add (test_clip 0 0 1000), LayerEdit.add (test_clip 1 500 1000),
        LayerEdit.move 1 1000]).2.transitions = [] := by
  refine ⟨?_, by decide⟩
  have h := (auto_transition_iff_overlap
    (apply_layer_edit empty_auto_layer (LayerEdit.add (test_clip 0 0 1000))).2
    (LayerEdit.add (test_clip 1 500 1000)) (by decide) (by decide)).2.1
    { track := 0, previous := 0, next := 1, start := 500, duration := 500 }
  rw [h]
  exact ⟨test_clip 0 0 1000, by decide, test_clip 1 500 1000, by decide, by decide, by decide,
    by decide, rfl, rfl, by decide, by decide⟩

/-- C22: on a layer with `auto_transition`, an edit after which two transitions
would be at the same place, in the same track with the same start, which is the
case of two transitions with the same interval in the same track, is rejected:
it reports a failure and leaves the layer, its clips and its transitions, as it
was. -/
theorem coincident_transition_rejected (layer : AutoLayer) (edit : LayerEdit)
    (hauto : layer.auto_transition = true)
    (hco : ∃ l1 t1 l2 t2 l3,
      auto_transitions (edited_clips layer.clips edit) = l1 ++ t1 :: (l2 ++ t2 :: l3) ∧
      t1.track = t2.track ∧ t1.start = t2.start) :
    apply_layer_edit layer edit = (false, layer) := by
  obtain ⟨l1, t1, l2, t2, l3, hl, htrack, hstart⟩ := hco
  have hsame : same_place t1 t2 = true := by simp [same_place, htrack, hstart]
  have hc := transitions_collide_of_same_place t1 t2 hsame l1 l2 l3
  rw [← hl] at hc
  simp [apply_layer_edit, reconcile, hauto, hc]

/-- The rejected edit of the test: with the clips `[600, 1100)`, `[500, 1250)`
and `[1100, 2100)`, the move of the third clip to 1000 would put the
transitions of the first and of the second clip with it at 1000, and leaves the
layer as it was. -/
theorem coincident_transition_rejected_witness :
    apply_layer_edit (apply_layer_edits empty_auto_layer single_layer_edits).2
        (LayerEdit.move 2 1000) =
      (false, (apply_layer_edits empty_auto_layer single_layer_edits).2) :=
  coincident_transition_rejected (apply_layer_edits empty_auto_layer single_layer_edits).2
    (LayerEdit.move 2 1000) (by decide)
    ⟨[], { track := 0, previous := 0, next := 2, start := 1000, duration := 100 },
      [{ track := 1, previous := 0, next := 2, start := 1000, duration := 100 }],
      { track := 0, previous := 1, next := 2, start := 1000, duration := 250 },
      [{ track := 1, previous := 1, next := 2, start := 1000, duration := 250 }],
      by decide, rfl, rfl⟩

end GES
